import Mathlib

/-!
# pdf.js: promises and object table (`worker.js`), Node byte sources
(`src/display/node_stream.js`), the viewer page cache and page references
(`web/viewer.js`), page viewports and PDF date strings
(`src/display/display_utils.js`)

A shallow embedding of the JavaScript sources.  Objects with mutable fields
become structures that are passed and returned explicitly.  A method returns
the state it leaves behind together with what it did to the outside: the
exception it threw, if any, and the calls it made to functions supplied by its
caller.  Such functions (callbacks, progress listeners, `update` of a view) are
opaque values; a call to one is recorded and taken to return.

What Node does to a reader (the response or the error of a request, the answer
of `lstat`, the events of a readable stream) is an explicit event, and the
functions imported from modules that are not among the sources are parameters.

Numbers of a viewport are rationals, so that arithmetic is exact.  A regular
expression is the list of its items, matched from the start of the input with
each optional item tried first.  The `Date` functions of the language follow
their definitions in ECMAScript on integer time values.

Definitions come first, the statements about them follow.
-/

namespace Worker

/-- JavaScript values as far as `worker.js` distinguishes them: the two nullish
values, primitives, and objects known by an identity. -/
inductive JSValue where
  | undefined
  | null
  | bool (b : Bool)
  | number (n : Int)
  | string (s : String)
  | object (id : Nat)
  deriving DecidableEq, Repr

/-- The test `data != null` (loose inequality): false exactly for `null` and
`undefined`. -/
def JSValue.neqNull : JSValue → Bool
  | .undefined => false
  | .null => false
  | _ => true

/-- A callback is an opaque function value, known by an identity. -/
structure Callback where
  id : Nat
  deriving DecidableEq, Repr

/-- What a method does to the outside world. -/
inductive Effect where
  | consoleLog (tag : String) (name : String)
  | call (callback : Callback) (arg : JSValue)
  deriving DecidableEq, Repr

/-- Whether the effect is a call of a callback. -/
def Effect.isCall : Effect → Bool
  | .call _ _ => true
  | .consoleLog _ _ => false

/-- The result of running a method: the state of the receiver afterwards, the
effects in the order they happened, and the exception thrown (if any). -/
structure Outcome (σ : Type) where
  state : σ
  effects : List Effect
  thrown : Option String
  deriving Repr

/-- The fields of a `Promise` object of `worker.js`.  A `data` field that was
never assigned reads as `undefined`. -/
structure Promise where
  name : String
  isResolved : Bool
  data : JSValue
  callbacks : List Callback
  deriving DecidableEq, Repr

/-- The constructor `function Promise(name, data)`. -/
def Promise.new (name : String) (data : JSValue) : Promise :=
  if data.neqNull then
    { name := name, isResolved := true, data := data, callbacks := [] }
  else
    { name := name, isResolved := false, data := .undefined, callbacks := [] }

/-- The loop `for (var i = 0; i < callbacks.length; i++)
callbacks[i].call(null, data)`, started at index `i`. -/
def callCallbacks (callbacks : List Callback) (data : JSValue) (i : Nat) : List Effect :=
  if h : i < callbacks.length then
    Effect.call (callbacks.get ⟨i, h⟩) data :: callCallbacks callbacks data (i + 1)
  else
    []
termination_by callbacks.length - i

/-- The method `Promise.prototype.resolve`. -/
def Promise.resolve (p : Promise) (data : JSValue) : Outcome Promise :=
  if p.isResolved then
    { state := p
      effects := [Effect.consoleLog "resolve" p.name]
      thrown := some "A Promise can be resolved only once" }
  else
    let p1 : Promise := { p with isResolved := true, data := data }
    { state := p1
      effects := Effect.consoleLog "resolve" p.name :: callCallbacks p1.callbacks data 0
      thrown := none }

/-- The method `Promise.prototype.then`. -/
def Promise.then_ (p : Promise) (callback : Callback) : Outcome Promise :=
  if p.isResolved then
    { state := p, effects := [Effect.call callback p.data], thrown := none }
  else
    { state := { p with callbacks := p.callbacks ++ [callback] }, effects := [], thrown := none }

/-- Registering several callbacks one after the other with `then`. -/
def Promise.thenAll (p : Promise) : List Callback → Outcome Promise
  | [] => { state := p, effects := [], thrown := none }
  | cb :: rest =>
    let r := p.then_ cb
    let r1 := Promise.thenAll r.state rest
    { state := r1.state, effects := r.effects ++ r1.effects, thrown := r1.thrown }

/-- Property names that the `Objects` literal answers with something that is
not a promise: its own two methods and the members inherited from
`Object.prototype`.  Such a value is truthy and has neither a `resolve` method
nor an `isResolved` field. -/
def reservedKeys : List String :=
  ["resolve", "get", "constructor", "__proto__", "hasOwnProperty", "isPrototypeOf",
   "propertyIsEnumerable", "toLocaleString", "toString", "valueOf",
   "__defineGetter__", "__defineSetter__", "__lookupGetter__", "__lookupSetter__"]

/-- What `Objects[objId]` evaluates to. -/
inductive Slot where
  | absent
  | member
  | promise (p : Promise)
  deriving DecidableEq, Repr

/-- The `Objects` table: the promises stored under object ids, latest
assignment first. -/
structure Objects where
  entries : List (String × Promise)
  deriving Repr

/-- The property read `Objects[objId]`. -/
def Objects.lookup (o : Objects) (objId : String) : Slot :=
  if objId ∈ reservedKeys then Slot.member
  else
    match o.entries.lookup objId with
    | some p => Slot.promise p
    | none => Slot.absent

/-- The property write `Objects[objId] = p`, and the in-place update of the
promise stored there. -/
def Objects.set (o : Objects) (objId : String) (p : Promise) : Objects :=
  { entries := (objId, p) :: o.entries }

/-- The method `Objects.resolve`. -/
def Objects.resolve (o : Objects) (objId : String) (data : JSValue) : Outcome Objects :=
  match o.lookup objId with
  | Slot.promise p =>
    let r := p.resolve data
    { state := o.set objId r.state, effects := r.effects, thrown := r.thrown }
  | Slot.member =>
    { state := o, effects := [], thrown := some "TypeError: Objects[objId].resolve is not a function" }
  | Slot.absent =>
    { state := o.set objId (Promise.new objId data), effects := [], thrown := none }

/-- The method `Objects.get`: the value returned, or the exception thrown. -/
def Objects.get (o : Objects) (objId : String) : Except String JSValue :=
  match o.lookup objId with
  | Slot.promise p =>
    if p.isResolved then Except.ok p.data
    else Except.error "Requesting object that isn't resolved yet"
  | Slot.member => Except.error "Requesting object that isn't resolved yet"
  | Slot.absent => Except.error "Requesting object that isn't resolved yet"

end Worker

namespace NodeStream

/-- Exceptions and rejection reasons seen by the Node byte sources: the two
exception classes the module constructs itself, the `TypeError` of a method
call on `null`, and any other error object (emitted by Node for a request, a
file or a stream, or handed in by the caller as a reason).  All of them are
truthy values. -/
inductive JSError where
  | abortException (message : String)
  | missingPDFException (message : String)
  | typeError (message : String)
  | other (code : String)
  deriving DecidableEq, Repr

/-- The falsy values of the language. -/
inductive Falsy where
  | undefined
  | null
  | false_
  | zero
  | nan
  | emptyString
  deriving DecidableEq, Repr

/-- A value that is stored in `_storedError` or handed in by a caller as the
reason of a cancellation: an error (a truthy value), or a falsy value.  The
field starts as `null`, and `cancel()` called without an argument hands in
`undefined`. -/
inductive Reason where
  | error (e : JSError)
  | falsy (value : Falsy)
  deriving DecidableEq, Repr

/-- The test `if (this._storedError)`: the stored value when it is truthy. -/
@[simp]
def Reason.truthyValue : Reason → Option JSError
  | .error e => some e
  | .falsy _ => none

/-- A buffer read from a stream, as its bytes. -/
abbrev Chunk := List Nat

/-- The result of `url.parse`, as far as the module reads it. -/
structure Url where
  protocol : String
  auth : Option String
  host : Option String
  hostname : Option String
  port : Option String
  path : String
  href : String
  deriving DecidableEq, Repr

/-- The `source` parameter object.  `httpHeaders` may be missing, and a header
may carry the value `undefined`. -/
structure Source where
  url : String
  length : Option Nat
  disableRange : Bool
  rangeChunkSize : Option Nat
  disableStream : Bool
  httpHeaders : Option (List (String × Option String))
  deriving DecidableEq, Repr

/-- Truthiness of an optional number: `undefined` and `0` are falsy. -/
def truthyNat : Option Nat → Bool
  | none => false
  | some n => n != 0

/-- Modelled from the spec: `createPromiseCapability` lives in `shared/util`,
which is not among the sources.  A pending value is pending until it is
fulfilled or rejected and is written once; the capability wraps a native
promise, for which a later `resolve` or `reject` is ignored. -/
inductive Capability where
  | pending
  | resolved
  | rejected (reason : JSError)
  deriving DecidableEq, Repr

/-- Modelled from the spec: calling `capability.resolve()` of the missing
`createPromiseCapability` settles a pending capability and does nothing to a
settled one. -/
def Capability.resolve : Capability → Capability
  | .pending => .resolved
  | c => c

/-- Modelled from the spec: calling `capability.reject(reason)` of the missing
`createPromiseCapability` rejects a pending capability and does nothing to a
settled one. -/
def Capability.reject (reason : JSError) : Capability → Capability
  | .pending => .rejected reason
  | c => c

/-- Where a readable stream comes from: the response to an HTTP request, or
`fs.createReadStream(path, options)`, whose `start` and `end` options are both
inclusive offsets. -/
inductive StreamOrigin where
  | response (status : Option Int) (headers : List (String × String))
  | file (path : String) (range : Option (Int × Int))
  deriving DecidableEq, Repr

/-- A Node readable stream as the readers use it: `destroyed` records the
calls of `destroy(reason)`, latest first; a call without an argument hands in
`undefined`. -/
structure Readable where
  origin : StreamOrigin
  destroyed : List Reason
  deriving DecidableEq, Repr

/-- The method `readable.destroy(reason)`. -/
def Readable.destroy (s : Readable) (reason : Reason) : Readable :=
  { s with destroyed := reason :: s.destroyed }

/-- A progress listener assigned to `onProgress`: an opaque function value. -/
structure ProgressListener where
  id : Nat
  deriving DecidableEq, Repr

/-- An object literal with numeric fields, in the order they are written; a
field may hold `undefined`. -/
abbrev ProgressData := List (String × Option Nat)

/-- The settlement of the promise returned by `read()`. -/
inductive ReadResult where
  | pending
  | done
  | value (buffer : Chunk)
  | rejected (reason : JSError)
  deriving DecidableEq, Repr

/-- What a call of `read()` leaves behind: the reader, how the returned
promise settles, and the calls of `onProgress` it made. -/
structure ReadOutcome (σ : Type) where
  reader : σ
  result : ReadResult
  progress : List (ProgressListener × ProgressData)
  deriving Repr

/-- The fields of `PDFNodeStream`, apart from the readers it hands out. -/
structure StreamInfo where
  source : Source
  url : Url
  isHttp : Bool
  isFsUrl : Bool
  httpHeaders : List (String × Option String)
  deriving DecidableEq, Repr

/-- The constructor of `PDFNodeStream`, given the result of `parseUrl`. -/
def StreamInfo.new (source : Source) (parsedUrl : Url) : StreamInfo :=
  let isHttp := parsedUrl.protocol == "http:" || parsedUrl.protocol == "https:"
  { source := source
    url := parsedUrl
    isHttp := isHttp
    isFsUrl := parsedUrl.protocol == "file:"
    httpHeaders := if isHttp then source.httpHeaders.getD [] else [] }

/-- The fields of `BaseFullReader`. -/
structure BaseFullReader where
  _url : Url
  _done : Bool
  _storedError : Reason
  onProgress : Option ProgressListener
  _contentLength : Option Nat
  _loaded : Nat
  _filename : Option String
  _disableRange : Bool
  _rangeChunkSize : Option Nat
  _isStreamingSupported : Bool
  _isRangeSupported : Bool
  _readableStream : Option Readable
  _readCapability : Capability
  _headersCapability : Capability
  deriving DecidableEq, Repr

/-- The constructor of `BaseFullReader`. -/
def BaseFullReader.new (stream : StreamInfo) : BaseFullReader :=
  let source := stream.source
  let disableRange0 := source.disableRange || false
  let disableRange :=
    if !truthyNat source.rangeChunkSize && !disableRange0 then true else disableRange0
  { _url := stream.url
    _done := false
    _storedError := Reason.falsy Falsy.null
    onProgress := none
    _contentLength := source.length
    _loaded := 0
    _filename := none
    _disableRange := disableRange
    _rangeChunkSize := source.rangeChunkSize
    _isStreamingSupported := !source.disableStream
    _isRangeSupported := !source.disableRange
    _readableStream := none
    _readCapability := Capability.pending
    _headersCapability := Capability.pending }

/-- The getter `isRangeSupported`. -/
def BaseFullReader.isRangeSupported (r : BaseFullReader) : Bool := r._isRangeSupported

/-- The getter `headersReady`: the state of the promise it returns. -/
def BaseFullReader.headersReady (r : BaseFullReader) : Capability := r._headersCapability

/-- The method `BaseFullReader.read`, as the callback it chains onto
`_readCapability.promise` runs.  `answer` is what `_readableStream.read()`
returns if it is called: a chunk, or `null`.  While `_readCapability` is
pending the callback has not run and the returned promise is pending; a
`null` answer installs a fresh capability and waits on it. -/
def BaseFullReader.read (r : BaseFullReader) (answer : Option Chunk) :
    ReadOutcome BaseFullReader :=
  match r._readCapability with
  | Capability.pending => { reader := r, result := ReadResult.pending, progress := [] }
  | Capability.rejected reason =>
    { reader := r, result := ReadResult.rejected reason, progress := [] }
  | Capability.resolved =>
    if r._done then { reader := r, result := ReadResult.done, progress := [] }
    else
      match r._storedError.truthyValue with
      | some e => { reader := r, result := ReadResult.rejected e, progress := [] }
      | none =>
        match r._readableStream with
        | none =>
          { reader := r
            result := ReadResult.rejected (JSError.typeError "Cannot read property 'read' of null")
            progress := [] }
        | some _ =>
          match answer with
          | none =>
            { reader := { r with _readCapability := Capability.pending }
              result := ReadResult.pending, progress := [] }
          | some chunk =>
            let r1 := { r with _loaded := r._loaded + chunk.length }
            { reader := r1
              result := ReadResult.value chunk
              progress :=
                match r1.onProgress with
                | some listener =>
                  [(listener, [("loaded", some r1._loaded), ("total", r1._contentLength)])]
                | none => [] }

/-- The method `BaseFullReader._error`. -/
def BaseFullReader._error (r : BaseFullReader) (reason : Reason) : BaseFullReader :=
  { r with _storedError := reason, _readCapability := r._readCapability.resolve }

/-- The method `BaseFullReader.cancel`. -/
def BaseFullReader.cancel (r : BaseFullReader) (reason : Reason) : BaseFullReader :=
  match r._readableStream with
  | none => r._error reason
  | some s => { r with _readableStream := some (s.destroy reason) }

/-- The method `BaseFullReader._setReadableStream`, up to the registration of
the three listeners, which are the next three definitions. -/
def BaseFullReader._setReadableStream (r : BaseFullReader) (readableStream : Readable) :
    BaseFullReader :=
  let r1 := { r with _readableStream := some readableStream }
  let r2 :=
    if !r1._isStreamingSupported && r1._isRangeSupported then
      r1._error (Reason.error (JSError.abortException "streaming is disabled"))
    else r1
  match r2._storedError.truthyValue with
  | some e =>
    { r2 with _readableStream := r2._readableStream.map (fun s => s.destroy (Reason.error e)) }
  | none => r2

/-- The listener for the stream event `readable`. -/
def BaseFullReader.onReadable (r : BaseFullReader) : BaseFullReader :=
  { r with _readCapability := r._readCapability.resolve }

/-- The listener for the stream event `end`. -/
def BaseFullReader.onEnd (r : BaseFullReader) : BaseFullReader :=
  { r with
    _readableStream := r._readableStream.map (fun s => s.destroy (Reason.falsy Falsy.undefined))
    _done := true
    _readCapability := r._readCapability.resolve }

/-- The listener for the stream event `error`. -/
def BaseFullReader.onError (r : BaseFullReader) (reason : JSError) : BaseFullReader :=
  r._error (Reason.error reason)

/-- The fields of `BaseRangeReader`. -/
structure BaseRangeReader where
  _url : Url
  _done : Bool
  _storedError : Reason
  onProgress : Option ProgressListener
  _loaded : Nat
  _readableStream : Option Readable
  _readCapability : Capability
  _isStreamingSupported : Bool
  deriving DecidableEq, Repr

/-- The constructor of `BaseRangeReader`. -/
def BaseRangeReader.new (stream : StreamInfo) : BaseRangeReader :=
  { _url := stream.url
    _done := false
    _storedError := Reason.falsy Falsy.null
    onProgress := none
    _loaded := 0
    _readableStream := none
    _readCapability := Capability.pending
    _isStreamingSupported := !stream.source.disableStream }

/-- The method `BaseRangeReader.read`, as the callback it chains onto
`_readCapability.promise` runs; `answer` is what `_readableStream.read()`
returns if it is called.  While `_readCapability` is pending the callback has
not run and the returned promise is pending. -/
def BaseRangeReader.read (r : BaseRangeReader) (answer : Option Chunk) :
    ReadOutcome BaseRangeReader :=
  match r._readCapability with
  | Capability.pending => { reader := r, result := ReadResult.pending, progress := [] }
  | Capability.rejected reason =>
    { reader := r, result := ReadResult.rejected reason, progress := [] }
  | Capability.resolved =>
    if r._done then { reader := r, result := ReadResult.done, progress := [] }
    else
      match r._storedError.truthyValue with
      | some e => { reader := r, result := ReadResult.rejected e, progress := [] }
      | none =>
        match r._readableStream with
        | none =>
          { reader := r
            result := ReadResult.rejected (JSError.typeError "Cannot read property 'read' of null")
            progress := [] }
        | some _ =>
          match answer with
          | none =>
            { reader := { r with _readCapability := Capability.pending }
              result := ReadResult.pending, progress := [] }
          | some chunk =>
            let r1 := { r with _loaded := r._loaded + chunk.length }
            { reader := r1
              result := ReadResult.value chunk
              progress :=
                match r1.onProgress with
                | some listener => [(listener, [("loaded", some r1._loaded)])]
                | none => [] }

/-- The method `BaseRangeReader._error`. -/
def BaseRangeReader._error (r : BaseRangeReader) (reason : Reason) : BaseRangeReader :=
  { r with _storedError := reason, _readCapability := r._readCapability.resolve }

/-- The method `BaseRangeReader.cancel`. -/
def BaseRangeReader.cancel (r : BaseRangeReader) (reason : Reason) : BaseRangeReader :=
  match r._readableStream with
  | none => r._error reason
  | some s => { r with _readableStream := some (s.destroy reason) }

/-- The method `BaseRangeReader._setReadableStream`, up to the registration of
the three listeners, which are the next three definitions. -/
def BaseRangeReader._setReadableStream (r : BaseRangeReader) (readableStream : Readable) :
    BaseRangeReader :=
  let r1 := { r with _readableStream := some readableStream }
  match r1._storedError.truthyValue with
  | some e =>
    { r1 with _readableStream := r1._readableStream.map (fun s => s.destroy (Reason.error e)) }
  | none => r1

/-- The listener for the stream event `readable`. -/
def BaseRangeReader.onReadable (r : BaseRangeReader) : BaseRangeReader :=
  { r with _readCapability := r._readCapability.resolve }

/-- The listener for the stream event `end`. -/
def BaseRangeReader.onEnd (r : BaseRangeReader) : BaseRangeReader :=
  { r with
    _readableStream := r._readableStream.map (fun s => s.destroy (Reason.falsy Falsy.undefined))
    _done := true
    _readCapability := r._readCapability.resolve }

/-- The listener for the stream event `error`. -/
def BaseRangeReader.onError (r : BaseRangeReader) (reason : JSError) : BaseRangeReader :=
  r._error (Reason.error reason)

/-- The object returned by `createRequestOptions`. -/
structure RequestOptions where
  protocol : String
  auth : Option String
  host : Option String
  port : Option String
  path : String
  method : String
  headers : List (String × Option String)
  deriving DecidableEq, Repr

/-- The function `createRequestOptions`. -/
def createRequestOptions (url : Url) (headers : List (String × Option String)) :
    RequestOptions :=
  { protocol := url.protocol
    auth := url.auth
    host := url.hostname
    port := url.port
    path := url.path
    method := "GET"
    headers := headers }

/-- A request made with `http.request` (`secure = false`) or `https.request`. -/
structure Request where
  secure : Bool
  options : RequestOptions
  ended : Bool
  deriving DecidableEq, Repr

/-- The request both HTTP readers make: `http.request` for the protocol
`http:`, `https.request` otherwise, followed by `request.end()`. -/
def makeRequest (url : Url) (headers : List (String × Option String)) : Request :=
  { secure := !(url.protocol == "http:")
    options := createRequestOptions url headers
    ended := true }

/-- The response handed to the callback of a request: its `statusCode`, its
`status` field as the module reads it (`undefined` when there is none) and its
headers.  The object Node hands to the callback of `http.request` is an
`IncomingMessage`, which carries the status of the response in `statusCode`
and has no field `status`. -/
structure Response where
  statusCode : Int
  status : Option Int
  headers : List (String × String)
  deriving DecidableEq, Repr

/-- The response as Node hands it to the callback of a request: with the
status code of the HTTP response and without a `status` field. -/
def Response.ofNode (statusCode : Int) (headers : List (String × String)) : Response :=
  { statusCode := statusCode, status := none, headers := headers }

/-- The response seen as a readable stream. -/
def Response.toReadable (response : Response) : Readable :=
  { origin := StreamOrigin.response response.status response.headers, destroyed := [] }

/-- The functions the module takes from its surroundings: the two imports from
`./network_utils` (given the response headers, whether the stream is HTTP, the
range chunk size and the disable flag, `validateRangeRequestCapabilities`
returns `allowRangeRequests` and `suggestedLength`) and the global
`decodeURIComponent`. -/
structure Imports where
  validateRangeRequestCapabilities :
    List (String × String) → Bool → Option Nat → Bool → Bool × Option Nat
  extractFilenameFromHeader : List (String × String) → Option String
  decodeURIComponent : String → String

/-- The text of the module-level binding `url` (the Node module `url`, an
object) when it is converted to a string. -/
def urlModuleText : String := "[object Object]"

/-- The fields of `PDFNodeStreamFullReader`. -/
structure PDFNodeStreamFullReader extends BaseFullReader where
  _request : Request
  deriving DecidableEq, Repr

/-- The constructor of `PDFNodeStreamFullReader`. -/
def PDFNodeStreamFullReader.new (stream : StreamInfo) : PDFNodeStreamFullReader :=
  let base := BaseFullReader.new stream
  { toBaseFullReader := base
    _request := makeRequest base._url stream.httpHeaders }

/-- The closure `handleResponse` of `PDFNodeStreamFullReader`: the reader it
leaves behind and the exception it throws, if any. -/
def PDFNodeStreamFullReader.handleResponse (imports : Imports) (stream : StreamInfo)
    (r : PDFNodeStreamFullReader) (response : Response) :
    PDFNodeStreamFullReader × Option JSError :=
  let status := response.status
  if status = some 404 || (status = some 0 && urlModuleText.startsWith "file:") then
    (r, some (JSError.missingPDFException ("Missing PDF \"" ++ urlModuleText ++ "\".")))
  else
    let b1 := { r.toBaseFullReader with
                _headersCapability := r._headersCapability.resolve }
    let b2 := b1._setReadableStream response.toReadable
    let headers := response.headers
    let validated :=
      imports.validateRangeRequestCapabilities headers stream.isHttp b2._rangeChunkSize
        b2._disableRange
    let b3 := { b2 with
                _isRangeSupported := validated.1
                _contentLength :=
                  if truthyNat validated.2 then validated.2 else b2._contentLength
                _filename := imports.extractFilenameFromHeader headers }
    ({ r with toBaseFullReader := b3 }, none)

/-- The listener for the request event `error` of `PDFNodeStreamFullReader`. -/
def PDFNodeStreamFullReader.onRequestError (r : PDFNodeStreamFullReader) (reason : JSError) :
    PDFNodeStreamFullReader :=
  { r with
    _storedError := Reason.error reason
    _headersCapability := r._headersCapability.reject reason }

/-- Writing a property of an object literal: an existing key keeps its place
and takes the new value, a new key is added at the end. -/
def setProperty (obj : List (String × String)) (key value : String) : List (String × String) :=
  if obj.any (fun kv => kv.1 == key) then
    obj.map (fun kv => if kv.1 == key then (kv.1, value) else kv)
  else obj ++ [(key, value)]

/-- The loop of `PDFNodeStreamRangeReader` copying the headers whose value is
not `undefined`. -/
def copyDefinedHeaders : List (String × Option String) → List (String × String) →
    List (String × String)
  | [], acc => acc
  | (_, none) :: rest, acc => copyDefinedHeaders rest acc
  | (property, some value) :: rest, acc =>
    copyDefinedHeaders rest (setProperty acc property value)

/-- The template literal for the value of the `Range` header. -/
def rangeHeaderValue (start end_ : Int) : String :=
  "bytes=" ++ toString start ++ "-" ++ toString (end_ - 1)

/-- The fields of `PDFNodeStreamRangeReader`. -/
structure PDFNodeStreamRangeReader extends BaseRangeReader where
  _httpHeaders : List (String × String)
  _request : Request
  deriving DecidableEq, Repr

/-- The constructor of `PDFNodeStreamRangeReader`. -/
def PDFNodeStreamRangeReader.new (stream : StreamInfo) (start end_ : Int) :
    PDFNodeStreamRangeReader :=
  let base := BaseRangeReader.new stream
  let headers :=
    setProperty (copyDefinedHeaders stream.httpHeaders []) "Range" (rangeHeaderValue start end_)
  { toBaseRangeReader := base
    _httpHeaders := headers
    _request := makeRequest base._url (headers.map (fun kv => (kv.1, some kv.2))) }

/-- The response callback of `PDFNodeStreamRangeReader`. -/
def PDFNodeStreamRangeReader.onResponse (r : PDFNodeStreamRangeReader) (response : Response) :
    PDFNodeStreamRangeReader :=
  { r with toBaseRangeReader := r.toBaseRangeReader._setReadableStream response.toReadable }

/-- The listener for the request event `error` of `PDFNodeStreamRangeReader`. -/
def PDFNodeStreamRangeReader.onRequestError (r : PDFNodeStreamRangeReader) (reason : JSError) :
    PDFNodeStreamRangeReader :=
  { r with _storedError := Reason.error reason }

/-- The test of `fileUriRegex`, `/^file:\/\/\/[a-zA-Z]:\//`. -/
def fileUriRegexTest (href : String) : Bool :=
  href.startsWith "file:///" &&
    match (href.drop 8).toList with
    | c :: ':' :: '/' :: _ => c.isAlpha
    | _ => false

/-- The file path both filesystem readers compute from the URL. -/
def fsPath (imports : Imports) (url : Url) : String :=
  let path := imports.decodeURIComponent url.path
  if fileUriRegexTest url.href then
    (if path.startsWith "/" then path.drop 1 else path)
  else path

/-- The fields of `PDFNodeStreamFsFullReader`; `path` is the local variable the
`lstat` callback closes over. -/
structure PDFNodeStreamFsFullReader extends BaseFullReader where
  path : String
  deriving DecidableEq, Repr

/-- The constructor of `PDFNodeStreamFsFullReader`. -/
def PDFNodeStreamFsFullReader.new (imports : Imports) (stream : StreamInfo) :
    PDFNodeStreamFsFullReader :=
  let base := BaseFullReader.new stream
  { toBaseFullReader := base, path := fsPath imports base._url }

/-- The callback of `fs.lstat` in `PDFNodeStreamFsFullReader`: called with an
error, or with the size of the file. -/
def PDFNodeStreamFsFullReader.onLstat (r : PDFNodeStreamFsFullReader)
    (result : Except JSError Nat) : PDFNodeStreamFsFullReader :=
  match result with
  | Except.error error =>
    { r with
      _storedError := Reason.error error
      _headersCapability := r._headersCapability.reject error }
  | Except.ok size =>
    let b1 := { r.toBaseFullReader with _contentLength := some size }
    let b2 := b1._setReadableStream { origin := StreamOrigin.file r.path none, destroyed := [] }
    { r with toBaseFullReader := { b2 with _headersCapability := b2._headersCapability.resolve } }

/-- The constructor of `PDFNodeStreamFsRangeReader`, whose fields are those of
`BaseRangeReader`. -/
def PDFNodeStreamFsRangeReader.new (imports : Imports) (stream : StreamInfo)
    (start end_ : Int) : BaseRangeReader :=
  let base := BaseRangeReader.new stream
  base._setReadableStream
    { origin := StreamOrigin.file (fsPath imports base._url) (some (start, end_ - 1))
      destroyed := [] }

/-- A full reader handed out by `getFullReader`. -/
inductive FullReader where
  | http (r : PDFNodeStreamFullReader)
  | fs (r : PDFNodeStreamFsFullReader)
  deriving DecidableEq, Repr

/-- The `BaseFullReader` part of a full reader. -/
def FullReader.base : FullReader → BaseFullReader
  | .http r => r.toBaseFullReader
  | .fs r => r.toBaseFullReader

/-- Replacing the `BaseFullReader` part of a full reader. -/
def FullReader.withBase (b : BaseFullReader) : FullReader → FullReader
  | .http r => .http { r with toBaseFullReader := b }
  | .fs r => .fs { r with toBaseFullReader := b }

/-- A range reader handed out by `getRangeReader`. -/
inductive RangeReader where
  | http (r : PDFNodeStreamRangeReader)
  | fs (r : BaseRangeReader)
  deriving DecidableEq, Repr

/-- The `BaseRangeReader` part of a range reader. -/
def RangeReader.base : RangeReader → BaseRangeReader
  | .http r => r.toBaseRangeReader
  | .fs r => r

/-- Replacing the `BaseRangeReader` part of a range reader. -/
def RangeReader.withBase (b : BaseRangeReader) : RangeReader → RangeReader
  | .http r => .http { r with toBaseRangeReader := b }
  | .fs _ => .fs b

/-- The inherited method `cancel` on a full reader. -/
def FullReader.cancel (r : FullReader) (reason : Reason) : FullReader :=
  r.withBase (r.base.cancel reason)

/-- The inherited method `cancel` on a range reader. -/
def RangeReader.cancel (r : RangeReader) (reason : Reason) : RangeReader :=
  r.withBase (r.base.cancel reason)

/-- The inherited method `read` on a full reader. -/
def FullReader.read (r : FullReader) (answer : Option Chunk) : ReadOutcome FullReader :=
  let out := r.base.read answer
  { reader := r.withBase out.reader, result := out.result, progress := out.progress }

/-- The inherited method `read` on a range reader. -/
def RangeReader.read (r : RangeReader) (answer : Option Chunk) : ReadOutcome RangeReader :=
  let out := r.base.read answer
  { reader := r.withBase out.reader, result := out.result, progress := out.progress }

/-- The class `PDFNodeStream`: its fields and the readers it has handed out. -/
structure PDFNodeStream extends StreamInfo where
  _fullRequest : Option FullReader
  _rangeRequestReaders : List RangeReader
  deriving DecidableEq, Repr

/-- The constructor of `PDFNodeStream`, given the result of `parseUrl`. -/
def PDFNodeStream.new (source : Source) (parsedUrl : Url) : PDFNodeStream :=
  { toStreamInfo := StreamInfo.new source parsedUrl
    _fullRequest := none
    _rangeRequestReaders := [] }

/-- The method `getFullReader`; the assertion (`assert` of `shared/util`)
throws when a full reader exists already. -/
def PDFNodeStream.getFullReader (imports : Imports) (s : PDFNodeStream) :
    Except JSError PDFNodeStream :=
  match s._fullRequest with
  | some _ => Except.error (JSError.other "Assertion failed")
  | none =>
    let reader :=
      if s.isFsUrl then FullReader.fs (PDFNodeStreamFsFullReader.new imports s.toStreamInfo)
      else FullReader.http (PDFNodeStreamFullReader.new s.toStreamInfo)
    Except.ok { s with _fullRequest := some reader }

/-- The range reader `getRangeReader` makes. -/
def PDFNodeStream.makeRangeReader (imports : Imports) (s : PDFNodeStream)
    (start end_ : Int) : RangeReader :=
  if s.isFsUrl then RangeReader.fs (PDFNodeStreamFsRangeReader.new imports s.toStreamInfo start end_)
  else RangeReader.http (PDFNodeStreamRangeReader.new s.toStreamInfo start end_)

/-- The method `getRangeReader`: the reader is pushed onto
`_rangeRequestReaders` (and returned). -/
def PDFNodeStream.getRangeReader (imports : Imports) (s : PDFNodeStream)
    (start end_ : Int) : PDFNodeStream :=
  { s with
    _rangeRequestReaders := s._rangeRequestReaders ++ [s.makeRangeReader imports start end_] }

/-- The method `cancelAllRequests`. -/
def PDFNodeStream.cancelAllRequests (s : PDFNodeStream) (reason : Reason) : PDFNodeStream :=
  let fullRequest :=
    match s._fullRequest with
    | some reader => some (reader.cancel reason)
    | none => none
  { s with
    _fullRequest := fullRequest
    _rangeRequestReaders := s._rangeRequestReaders.map (fun reader => reader.cancel reason) }

/-- What can happen to a reader once it exists: the callbacks Node runs (the
response or the error of its request, the answer of `lstat`, the events of its
readable stream) and the calls of its user. -/
inductive ReaderEvent where
  | response (response : Response)
  | requestError (reason : JSError)
  | lstat (result : Except JSError Nat)
  | readable
  | streamEnd
  | streamError (reason : JSError)
  | read (answer : Option Chunk)
  | setOnProgress (listener : Option ProgressListener)
  | cancel (reason : Reason)

/-- The record of one call of `read()`: the value of `onProgress` when it ran,
how the promise settled, and the calls of `onProgress`. -/
structure ReadRecord where
  listener : Option ProgressListener
  result : ReadResult
  progress : List (ProgressListener × ProgressData)
  deriving DecidableEq, Repr

/-- One event on a full reader.  A callback runs only where it was registered:
the request callbacks on the HTTP reader, `lstat` on the filesystem reader, the
stream listeners once a stream is installed. -/
def FullReader.step (imports : Imports) (stream : StreamInfo) (r : FullReader) :
    ReaderEvent → FullReader × List ReadRecord
  | .response response =>
    match r with
    | .http h => (.http (h.handleResponse imports stream response).1, [])
    | .fs _ => (r, [])
  | .requestError reason =>
    match r with
    | .http h => (.http (h.onRequestError reason), [])
    | .fs _ => (r, [])
  | .lstat result =>
    match r with
    | .http _ => (r, [])
    | .fs f => (.fs (f.onLstat result), [])
  | .readable =>
    if r.base._readableStream.isSome then (r.withBase r.base.onReadable, []) else (r, [])
  | .streamEnd =>
    if r.base._readableStream.isSome then (r.withBase r.base.onEnd, []) else (r, [])
  | .streamError reason =>
    if r.base._readableStream.isSome then (r.withBase (r.base.onError reason), []) else (r, [])
  | .read answer =>
    let out := r.read answer
    (out.reader,
      [{ listener := r.base.onProgress, result := out.result, progress := out.progress }])
  | .setOnProgress listener => (r.withBase { r.base with onProgress := listener }, [])
  | .cancel reason => (r.cancel reason, [])

/-- One event on a range reader. -/
def RangeReader.step (r : RangeReader) : ReaderEvent → RangeReader × List ReadRecord
  | .response response =>
    match r with
    | .http h => (.http (h.onResponse response), [])
    | .fs _ => (r, [])
  | .requestError reason =>
    match r with
    | .http h => (.http (h.onRequestError reason), [])
    | .fs _ => (r, [])
  | .lstat _ => (r, [])
  | .readable =>
    if r.base._readableStream.isSome then (r.withBase r.base.onReadable, []) else (r, [])
  | .streamEnd =>
    if r.base._readableStream.isSome then (r.withBase r.base.onEnd, []) else (r, [])
  | .streamError reason =>
    if r.base._readableStream.isSome then (r.withBase (r.base.onError reason), []) else (r, [])
  | .read answer =>
    let out := r.read answer
    (out.reader,
      [{ listener := r.base.onProgress, result := out.result, progress := out.progress }])
  | .setOnProgress listener => (r.withBase { r.base with onProgress := listener }, [])
  | .cancel reason => (r.cancel reason, [])

/-- A sequence of events on a full reader, with the records of its reads. -/
def FullReader.run (imports : Imports) (stream : StreamInfo) :
    FullReader → List ReaderEvent → FullReader × List ReadRecord
  | r, [] => (r, [])
  | r, ev :: rest =>
    let s1 := r.step imports stream ev
    let s2 := FullReader.run imports stream s1.1 rest
    (s2.1, s1.2 ++ s2.2)

/-- A sequence of events on a range reader, with the records of its reads. -/
def RangeReader.run : RangeReader → List ReaderEvent → RangeReader × List ReadRecord
  | r, [] => (r, [])
  | r, ev :: rest =>
    let s1 := r.step ev
    let s2 := RangeReader.run s1.1 rest
    (s2.1, s1.2 ++ s2.2)

/-- The number of bytes delivered by the reads recorded. -/
def deliveredBytes : List ReadRecord → Nat
  | [] => 0
  | rec :: rest =>
    (match rec.result with
     | ReadResult.value buffer => buffer.length
     | _ => 0) + deliveredBytes rest

/-- What the user of a `PDFNodeStream` and Node can do with it. -/
inductive StreamOp where
  | getFullReader
  | getRangeReader (start end_ : Int)
  | fullEvent (ev : ReaderEvent)
  | rangeEvent (index : Nat) (ev : ReaderEvent)
  | cancelAllRequests (reason : Reason)

/-- Applying `f` to the element at `index`, if there is one. -/
def updateAt {α : Type} (f : α → α) : Nat → List α → List α
  | _, [] => []
  | 0, a :: rest => f a :: rest
  | index + 1, a :: rest => a :: updateAt f index rest

/-- One operation on a `PDFNodeStream`.  A failed assertion in `getFullReader`
leaves the stream as it was. -/
def PDFNodeStream.step (imports : Imports) (s : PDFNodeStream) : StreamOp → PDFNodeStream
  | .getFullReader =>
    match s.getFullReader imports with
    | Except.ok s1 => s1
    | Except.error _ => s
  | .getRangeReader start end_ => s.getRangeReader imports start end_
  | .fullEvent ev =>
    { s with
      _fullRequest := s._fullRequest.map (fun r => (r.step imports s.toStreamInfo ev).1) }
  | .rangeEvent index ev =>
    { s with
      _rangeRequestReaders := updateAt (fun r => (r.step ev).1) index s._rangeRequestReaders }
  | .cancelAllRequests reason => s.cancelAllRequests reason

/-- A sequence of operations on a `PDFNodeStream`. -/
def PDFNodeStream.run (imports : Imports) : PDFNodeStream → List StreamOp → PDFNodeStream
  | s, [] => s
  | s, op :: rest => PDFNodeStream.run imports (s.step imports op) rest

/-- Whether the operation is a call of `getRangeReader`. -/
def StreamOp.isGetRangeReader : StreamOp → Bool
  | .getRangeReader _ _ => true
  | _ => false

/-- The byte offsets between two inclusive bounds, in increasing order: what a
`Range: bytes=first-last` header asks for and what `fs.createReadStream` reads
for the options `{ start: first, end: last }`. -/
def inclusiveOffsets (first last : Int) : List Int :=
  List.map (fun (i : Nat) => first + (i : Int)) (List.range (last + 1 - first).toNat)

/-- The read capability of a reader is never rejected: nothing in the module
calls its `reject`. -/
def readNotRejected (c : Capability) : Prop := ∀ e, c ≠ Capability.rejected e

/-- The state of a stream all of whose readers have a read capability that is
not rejected. -/
def readersNotRejected (s : PDFNodeStream) : Prop :=
  (∀ r, s._fullRequest = some r → readNotRejected r.base._readCapability) ∧
  (∀ r ∈ s._rangeRequestReaders, readNotRejected r.base._readCapability)

/-- The number a non-empty string of decimal digits denotes. -/
def parseDigits (cs : List Char) : Option Nat :=
  if cs ≠ [] ∧ cs.all Char.isDigit = true then
    some (cs.foldl (fun acc c => 10 * acc + (c.toNat - 48)) 0)
  else none

/-- How an HTTP server reads the value of a `Range` header of the form
`bytes=first-last`: the two byte positions. -/
def parseByteRange (header : String) : Option (Nat × Nat) :=
  match header.toList with
  | 'b' :: 'y' :: 't' :: 'e' :: 's' :: '=' :: rest =>
    match rest.dropWhile Char.isDigit with
    | '-' :: last =>
      match parseDigits (rest.takeWhile Char.isDigit), parseDigits last with
      | some first, some last => some (first, last)
      | _, _ => none
    | _ => none
  | _ => none

/-- The byte offsets an HTTP server is asked for by a `Range` header value. -/
def httpRangeOffsets (header : String) : Option (List Int) :=
  (parseByteRange header).map (fun p => inclusiveOffsets (p.1 : Int) (p.2 : Int))

/-- The byte offsets a file stream opened with a range reads. -/
def fsRangeOffsets : StreamOrigin → Option (List Int)
  | StreamOrigin.file _ (some (first, last)) => some (inclusiveOffsets first last)
  | _ => none

/-- The byte offsets a range reader asks its backend for: those of the `Range`
header of its request, or those of the range its file stream was opened
with. -/
def RangeReader.requestedOffsets : RangeReader → Option (List Int)
  | .http r =>
    match r._request.options.headers.lookup "Range" with
    | some (some value) => httpRangeOffsets value
    | _ => none
  | .fs r =>
    match r._readableStream with
    | some s => fsRangeOffsets s.origin
    | none => none

end NodeStream

namespace Viewer

/-- A page view handed to the cache: an opaque object with an `update` method,
known by an identity. -/
structure View where
  id : Nat
  deriving DecidableEq, Repr

/-- The object made by `new Cache(size)`: the parameter `size` and the closure
variable `data`, oldest view first. -/
structure Cache where
  size : Nat
  data : List View
  deriving DecidableEq, Repr

/-- The constructor `Cache(size)`. -/
def Cache.new (size : Nat) : Cache := { size := size, data := [] }

/-- The constant `kCacheSize`. -/
def kCacheSize : Nat := 20

/-- The method `push`: the cache afterwards and the views whose `update()` was
called. -/
def Cache.push (c : Cache) (view : View) : Cache × List View :=
  let data := c.data ++ [view]
  if data.length > c.size then
    match data with
    | first :: rest => ({ c with data := rest }, [first])
    | [] => ({ c with data := data }, [])
  else ({ c with data := data }, [])

/-- A sequence of calls of `push`, with the views updated along the way. -/
def Cache.pushAll : Cache → List View → Cache × List View
  | c, [] => (c, [])
  | c, view :: rest =>
    let s1 := c.push view
    let s2 := Cache.pushAll s1.1 rest
    (s2.1, s1.2 ++ s2.2)

end Viewer

namespace DisplayUtils

/-- The array `viewBox`: the xMin, yMin, xMax and yMax coordinates, as
`viewBox[0]` to `viewBox[3]`. -/
structure ViewBox where
  v0 : ℚ
  v1 : ℚ
  v2 : ℚ
  v3 : ℚ
  deriving DecidableEq, Repr

/-- The six-element array `transform`, as `transform[0]` to `transform[5]`. -/
structure Transform where
  m0 : ℚ
  m1 : ℚ
  m2 : ℚ
  m3 : ℚ
  m4 : ℚ
  m5 : ℚ
  deriving DecidableEq, Repr

/-- The object `PageViewportParameters`; an optional property that is left
out is `none`. -/
structure PageViewportParameters where
  viewBox : ViewBox
  scale : ℚ
  rotation : Int
  offsetX : Option ℚ
  offsetY : Option ℚ
  dontFlip : Option Bool
  deriving DecidableEq, Repr

/-- The object `PageViewportCloneParameters`; an optional property that is left
out is `none`. -/
structure PageViewportCloneParameters where
  scale : Option ℚ
  rotation : Option Int
  offsetX : Option ℚ
  offsetY : Option ℚ
  dontFlip : Option Bool
  deriving DecidableEq, Repr

/-- The fields of a `PageViewport`. -/
structure PageViewport where
  viewBox : ViewBox
  scale : ℚ
  rotation : Int
  offsetX : ℚ
  offsetY : ℚ
  transform : Transform
  width : ℚ
  height : ℚ
  deriving DecidableEq, Repr

/-- The message of the error the constructor throws. -/
def invalidRotationMessage : String :=
  "PageViewport: Invalid rotation, must be a multiple of 90 degrees."

/-- The statements `rotation %= 360; if (rotation < 0) rotation += 360;`: the
remainder takes the sign of the dividend. -/
def normalizeRotation (rotation : Int) : Int :=
  let r := Int.tmod rotation 360
  if r < 0 then r + 360 else r

/-- The `switch (rotation)`: the values of `rotateA`, `rotateB`, `rotateC` and
`rotateD`, or the exception of the `default` case. -/
def rotationMatrix (rotation : Int) : Except String (ℚ × ℚ × ℚ × ℚ) :=
  if rotation = 180 then Except.ok (-1, 0, 0, 1)
  else if rotation = 90 then Except.ok (0, 1, 1, 0)
  else if rotation = 270 then Except.ok (0, -1, -1, 0)
  else if rotation = 0 then Except.ok (1, 0, 0, -1)
  else Except.error invalidRotationMessage

/-- The constructor of `PageViewport`: the viewport, or the message of the
error thrown. -/
def PageViewport.new (params : PageViewportParameters) : Except String PageViewport :=
  let viewBox := params.viewBox
  let scale := params.scale
  let offsetX := params.offsetX.getD 0
  let offsetY := params.offsetY.getD 0
  let dontFlip := params.dontFlip.getD false
  let centerX := (viewBox.v2 + viewBox.v0) / 2
  let centerY := (viewBox.v3 + viewBox.v1) / 2
  match rotationMatrix (normalizeRotation params.rotation) with
  | Except.error message => Except.error message
  | Except.ok (rotateA, rotateB, rotateC0, rotateD0) =>
    let rotateC := if dontFlip then -rotateC0 else rotateC0
    let rotateD := if dontFlip then -rotateD0 else rotateD0
    let offsetCanvasX :=
      if rotateA = 0 then |centerY - viewBox.v1| * scale + offsetX
      else |centerX - viewBox.v0| * scale + offsetX
    let offsetCanvasY :=
      if rotateA = 0 then |centerX - viewBox.v0| * scale + offsetY
      else |centerY - viewBox.v1| * scale + offsetY
    let width :=
      if rotateA = 0 then (viewBox.v3 - viewBox.v1) * scale
      else (viewBox.v2 - viewBox.v0) * scale
    let height :=
      if rotateA = 0 then (viewBox.v2 - viewBox.v0) * scale
      else (viewBox.v3 - viewBox.v1) * scale
    Except.ok
      { viewBox := viewBox
        scale := scale
        rotation := params.rotation
        offsetX := offsetX
        offsetY := offsetY
        transform :=
          { m0 := rotateA * scale
            m1 := rotateB * scale
            m2 := rotateC * scale
            m3 := rotateD * scale
            m4 := offsetCanvasX - rotateA * scale * centerX - rotateC * scale * centerY
            m5 := offsetCanvasY - rotateB * scale * centerX - rotateD * scale * centerY }
        width := width
        height := height }

/-- The method `clone`; `viewBox.slice()` is a copy with the same contents. -/
def PageViewport.clone (v : PageViewport) (params : PageViewportCloneParameters) :
    Except String PageViewport :=
  PageViewport.new
    { viewBox := v.viewBox
      scale := params.scale.getD v.scale
      rotation := params.rotation.getD v.rotation
      offsetX := some (params.offsetX.getD v.offsetX)
      offsetY := some (params.offsetY.getD v.offsetY)
      dontFlip := some (params.dontFlip.getD false) }

/-- The call `clone()` without an argument: every property takes its
default. -/
def PageViewport.cloneDefault (v : PageViewport) : Except String PageViewport :=
  v.clone { scale := none, rotation := none, offsetX := none, offsetY := none, dontFlip := none }

/-- Modelled from the spec: `Util.applyTransform` lives in `shared/util`, which
is not among the sources; it is the affine map of the six-element transform
applied to the point `[x, y]`. -/
def applyTransform (p : ℚ × ℚ) (m : Transform) : ℚ × ℚ :=
  (p.1 * m.m0 + p.2 * m.m2 + m.m4, p.1 * m.m1 + p.2 * m.m3 + m.m5)

/-- Modelled from the spec: `Util.applyInverseTransform` lives in `shared/util`,
which is not among the sources; it is the inverse of the affine map of the
six-element transform, dividing by its determinant. -/
def applyInverseTransform (p : ℚ × ℚ) (m : Transform) : ℚ × ℚ :=
  let d := m.m0 * m.m3 - m.m1 * m.m2
  ((p.1 * m.m3 - p.2 * m.m2 + m.m2 * m.m5 - m.m4 * m.m3) / d,
   (-p.1 * m.m1 + p.2 * m.m0 + m.m4 * m.m1 - m.m5 * m.m0) / d)

/-- The method `convertToViewportPoint`. -/
def PageViewport.convertToViewportPoint (v : PageViewport) (x y : ℚ) : ℚ × ℚ :=
  applyTransform (x, y) v.transform

/-- The method `convertToPdfPoint`. -/
def PageViewport.convertToPdfPoint (v : PageViewport) (x y : ℚ) : ℚ × ℚ :=
  applyInverseTransform (x, y) v.transform

end DisplayUtils

namespace Viewer

/-- A reference object with its fields `num` and `gen`, non-negative
integers. -/
structure Ref where
  num : Nat
  gen : Nat
  deriving DecidableEq, Repr

/-- The expression `ref.num + ' ' + ref.gen + ' R'`; a non-negative integer is
printed in decimal. -/
def refKey (num gen : Nat) : String :=
  toString num ++ " " ++ toString gen ++ " R"

/-- An object used as a map from keys to page numbers, latest write first;
reading a key finds its latest write. -/
abbrev PagesRefMap := List (String × Nat)

/-- The document as `load` uses it: `numPages` and, for a page number, the
reference `pdf.getPage(i).ref`. -/
structure PDFDoc where
  numPages : Nat
  pageRef : Nat → Ref

/-- The loop `for (var i = 1; i <= pagesCount; i++)` of `load`, from `i` on, as
far as it writes `pagesRefMap`. -/
def loadLoop (pdf : PDFDoc) (i : Nat) (pagesRefMap : PagesRefMap) : PagesRefMap :=
  if i ≤ pdf.numPages then
    loadLoop pdf (i + 1) ((refKey (pdf.pageRef i).num (pdf.pageRef i).gen, i) :: pagesRefMap)
  else pagesRefMap
termination_by pdf.numPages + 1 - i

/-- The first element of a destination array: a reference object or a
number. -/
inductive DestRef where
  | object (num gen : Nat)
  | number (n : Int)
  deriving DecidableEq, Repr

/-- The argument of `navigateTo`: the name of a destination, a destination
array with its first element (if any), or anything else. -/
inductive Dest where
  | name (s : String)
  | array (first : Option DestRef)
  | other
  deriving DecidableEq, Repr

/-- The fields of `PDFView` that `navigateTo` reads. -/
structure PDFView where
  pagesRefMap : PagesRefMap
  destinations : List (String × Dest)
  deriving DecidableEq, Repr

/-- The method `load`, as far as it sets `pagesRefMap` and `destinations`. -/
def PDFView.load (pdf : PDFDoc) (destinations : List (String × Dest)) : PDFView :=
  { pagesRefMap := loadLoop pdf 1 [], destinations := destinations }

/-- The value of `pageNumber` in `navigateTo` for the first element of a
destination array; `none` is `undefined` or `NaN`. -/
def pageNumberOf (view : PDFView) : Option DestRef → Option Int
  | some (DestRef.object num gen) =>
    (view.pagesRefMap.lookup (refKey num gen)).map (fun (i : Nat) => (i : Int))
  | some (DestRef.number n) => some (n + 1)
  | none => none

/-- The method `navigateTo`: the value it assigns to `this.page`, if it
assigns one. -/
def PDFView.navigateTo (view : PDFView) (dest : Dest) : Option Int :=
  let dest1 :=
    match dest with
    | Dest.name s => (view.destinations.lookup s).getD Dest.other
    | d => d
  match dest1 with
  | Dest.array first =>
    match pageNumberOf view first with
    | some pageNumber => if pageNumber ≠ 0 then some pageNumber else none
    | none => none
  | _ => none

end Viewer

namespace DisplayUtils

/-- One piece of the regular expression: a literal character, `\d{n}`, or a
character class. -/
inductive Atom where
  | char (c : Char)
  | digits (n : Nat)
  | oneOf (cs : List Char)
  deriving DecidableEq, Repr

/-- An atom with what surrounds it: `optional` for a trailing `?`, `capture`
for parentheses. -/
structure Item where
  atom : Atom
  optional : Bool
  capture : Bool
  deriving DecidableEq, Repr

/-- The apostrophe. -/
def apostrophe : Char := Char.ofNat 39

/-- The regular expression `pdfDateStringRegex`, piece by piece as it is
written in `toDateObject`; the leading `^` ties the match to the start of the
input. -/
def pdfDateStringRegex : List Item :=
  [ { atom := Atom.char 'D', optional := false, capture := false },
    { atom := Atom.char ':', optional := false, capture := false },
    { atom := Atom.digits 4, optional := false, capture := true },
    { atom := Atom.digits 2, optional := true, capture := true },
    { atom := Atom.digits 2, optional := true, capture := true },
    { atom := Atom.digits 2, optional := true, capture := true },
    { atom := Atom.digits 2, optional := true, capture := true },
    { atom := Atom.digits 2, optional := true, capture := true },
    { atom := Atom.oneOf ['Z', '|', '+', '|', '-'], optional := true, capture := true },
    { atom := Atom.digits 2, optional := true, capture := true },
    { atom := Atom.char apostrophe, optional := true, capture := false },
    { atom := Atom.digits 2, optional := true, capture := true },
    { atom := Atom.char apostrophe, optional := true, capture := false } ]

/-- The optional part of the regular expression, after the year. -/
def optionalItems : List Item := pdfDateStringRegex.drop 3

/-- Taking `n` decimal digits from the front of the input: the digits and the
rest, if there are that many. -/
def takeDigits : Nat → List Char → Option (List Char × List Char)
  | 0, cs => some ([], cs)
  | _ + 1, [] => none
  | n + 1, c :: cs =>
    if c.isDigit then
      match takeDigits n cs with
      | some (ds, rest) => some (c :: ds, rest)
      | none => none
    else none

/-- Matching one atom at the front of the input: the text matched and the
rest. -/
def matchAtom : Atom → List Char → Option (List Char × List Char)
  | Atom.char c, c1 :: rest => if c1 = c then some ([c1], rest) else none
  | Atom.char _, [] => none
  | Atom.digits n, cs => takeDigits n cs
  | Atom.oneOf allowed, c1 :: rest => if c1 ∈ allowed then some ([c1], rest) else none
  | Atom.oneOf _, [] => none

/-- Recording what a group matched, when the item is a group. -/
def addCapture (item : Item) (text : Option (List Char))
    (captures : List (Option (List Char))) : List (Option (List Char)) :=
  if item.capture then text :: captures else captures

/-- The method `exec` for a sequence of items, anchored at the start of the
input: the captures `matches[1]`, `matches[2]`, ... (`none` for a group that
did not take part), or `none` when there is no match.  An optional item is
tried first and given up when the rest does not match after it. -/
def exec : List Item → List Char → Option (List (Option (List Char)))
  | [], _ => some []
  | item :: items, input =>
    let skipped :=
      if item.optional then (exec items input).map (addCapture item none) else none
    match matchAtom item.atom input with
    | some (text, rest) =>
      match exec items rest with
      | some captures => some (addCapture item (some text) captures)
      | none => skipped
    | none => skipped

/-- The call `parseInt(text, 10)` for a group that captured a string of
decimal digits, or `undefined`; `none` is `NaN`. -/
def parseInt10 : Option (List Char) → Option Int
  | some text => some ((text.foldl (fun acc c => 10 * acc + (c.toNat - 48)) 0 : Nat) : Int)
  | none => none

/-- The pattern `x = x >= low && x <= high ? x : fallback` for a number that
may be `NaN`. -/
def inRangeOr (x : Option Int) (low high fallback : Int) : Int :=
  match x with
  | some v => if low ≤ v ∧ v ≤ high then v else fallback
  | none => fallback

/-- ECMAScript `msPerDay`. -/
def msPerDay : Int := 86400000

/-- ECMAScript `Day(t)`. -/
def day (t : Int) : Int := t / msPerDay

/-- ECMAScript `TimeWithinDay(t)`. -/
def timeWithinDay (t : Int) : Int := t % msPerDay

/-- ECMAScript `DaysInYear(y)`. -/
def daysInYear (y : Int) : Int :=
  if y % 4 ≠ 0 then 365
  else if y % 100 ≠ 0 then 366
  else if y % 400 ≠ 0 then 365
  else 366

/-- ECMAScript `DayFromYear(y)`. -/
def dayFromYear (y : Int) : Int :=
  365 * (y - 1970) + (y - 1969) / 4 - (y - 1901) / 100 + (y - 1601) / 400

/-- ECMAScript `YearFromTime`, on day numbers: the largest year `y` with
`DayFromYear(y) <= d`, computed over the 400-year cycle that starts with
1601. -/
def yearFromDay (d : Int) : Int :=
  let n := d + 134774
  let q400 := n / 146097
  let r400 := n % 146097
  let q100 := if r400 / 36524 ≥ 4 then 3 else r400 / 36524
  let r100 := r400 - q100 * 36524
  let q4 := r100 / 1461
  let r4 := r100 % 1461
  let q1 := if r4 / 365 ≥ 4 then 3 else r4 / 365
  1601 + 400 * q400 + 100 * q100 + 4 * q4 + q1

/-- ECMAScript `YearFromTime(t)`. -/
def yearFromTime (t : Int) : Int := yearFromDay (day t)

/-- ECMAScript `InLeapYear(t)`, as 0 or 1. -/
def inLeapYear (t : Int) : Int := if daysInYear (yearFromTime t) = 366 then 1 else 0

/-- ECMAScript `DayWithinYear(t)`. -/
def dayWithinYear (t : Int) : Int := day t - dayFromYear (yearFromTime t)

/-- ECMAScript `MonthFromTime(t)`. -/
def monthFromTime (t : Int) : Int :=
  let d := dayWithinYear t
  let l := inLeapYear t
  if d < 31 then 0
  else if d < 59 + l then 1
  else if d < 90 + l then 2
  else if d < 120 + l then 3
  else if d < 151 + l then 4
  else if d < 181 + l then 5
  else if d < 212 + l then 6
  else if d < 243 + l then 7
  else if d < 273 + l then 8
  else if d < 304 + l then 9
  else if d < 334 + l then 10
  else 11

/-- The number of days of the year before a month (0 to 11), for a leap flag
of 0 or 1. -/
def daysBeforeMonth (month l : Int) : Int :=
  if month = 0 then 0
  else if month = 1 then 31
  else if month = 2 then 59 + l
  else if month = 3 then 90 + l
  else if month = 4 then 120 + l
  else if month = 5 then 151 + l
  else if month = 6 then 181 + l
  else if month = 7 then 212 + l
  else if month = 8 then 243 + l
  else if month = 9 then 273 + l
  else if month = 10 then 304 + l
  else 334 + l

/-- ECMAScript `DateFromTime(t)`. -/
def dateFromTime (t : Int) : Int :=
  dayWithinYear t - daysBeforeMonth (monthFromTime t) (inLeapYear t) + 1

/-- ECMAScript `HourFromTime(t)`. -/
def hourFromTime (t : Int) : Int := (t / 3600000) % 24

/-- ECMAScript `MinFromTime(t)`. -/
def minFromTime (t : Int) : Int := (t / 60000) % 60

/-- ECMAScript `SecFromTime(t)`. -/
def secFromTime (t : Int) : Int := (t / 1000) % 60

/-- ECMAScript `MakeTime(hour, min, sec, ms)`. -/
def makeTime (hour min sec ms : Int) : Int :=
  hour * 3600000 + min * 60000 + sec * 1000 + ms

/-- ECMAScript `MakeDay(year, month, date)`: the day number of the first day
of the month, plus `date - 1`. -/
def makeDay (year month date : Int) : Int :=
  let ym := year + month / 12
  let mn := month % 12
  dayFromYear ym + daysBeforeMonth mn (if daysInYear ym = 366 then 1 else 0) + date - 1

/-- ECMAScript `MakeDate(day, time)`. -/
def makeDate (day time : Int) : Int := day * msPerDay + time

/-- ECMAScript `TimeClip(time)`; `none` is `NaN`. -/
def timeClip (time : Int) : Option Int :=
  if time.natAbs > 8640000000000000 then none else some time

/-- ECMAScript `Date.UTC(year, month, date, hours, minutes, seconds)` for
integer arguments; a year from 0 to 99 stands for 1900 to 1999. -/
def dateUTC (year month date hours minutes seconds : Int) : Option Int :=
  let yr := if 0 ≤ year ∧ year ≤ 99 then 1900 + year else year
  timeClip (makeDate (makeDay yr month date) (makeTime hours minutes seconds 0))

/-- A JavaScript `Date` object: its time value, `none` for `NaN`. -/
structure JSDate where
  time : Option Int
  deriving DecidableEq, Repr

/-- The method `getUTCFullYear`; `none` is `NaN`. -/
def JSDate.getUTCFullYear (d : JSDate) : Option Int := d.time.map yearFromTime

/-- The method `getUTCMonth`. -/
def JSDate.getUTCMonth (d : JSDate) : Option Int := d.time.map monthFromTime

/-- The method `getUTCDate`. -/
def JSDate.getUTCDate (d : JSDate) : Option Int := d.time.map dateFromTime

/-- The method `getUTCHours`. -/
def JSDate.getUTCHours (d : JSDate) : Option Int := d.time.map hourFromTime

/-- The method `getUTCMinutes`. -/
def JSDate.getUTCMinutes (d : JSDate) : Option Int := d.time.map minFromTime

/-- The method `getUTCSeconds`. -/
def JSDate.getUTCSeconds (d : JSDate) : Option Int := d.time.map secFromTime

/-- The argument of `toDateObject`: a string, or a value of another type. -/
inductive DateInput where
  | other
  | string (s : String)
  deriving DecidableEq, Repr

/-- The body of `toDateObject` after a successful `exec`, for the captures
`matches[1]` to `matches[9]`; a `NaN` year gives the invalid date. -/
def dateOfMatches (matches_ : List (Option (List Char))) : JSDate :=
  let month :=
    match parseInt10 (matches_.getD 1 none) with
    | some m => if 1 ≤ m ∧ m ≤ 12 then m - 1 else 0
    | none => 0
  let day := inRangeOr (parseInt10 (matches_.getD 2 none)) 1 31 1
  let hour := inRangeOr (parseInt10 (matches_.getD 3 none)) 0 23 0
  let minute := inRangeOr (parseInt10 (matches_.getD 4 none)) 0 59 0
  let second := inRangeOr (parseInt10 (matches_.getD 5 none)) 0 59 0
  let universalTimeRelation := (matches_.getD 6 none).getD ['Z']
  let offsetHour := inRangeOr (parseInt10 (matches_.getD 7 none)) 0 23 0
  let offsetMinute := inRangeOr (parseInt10 (matches_.getD 8 none)) 0 59 0
  let hour1 :=
    if universalTimeRelation = ['-'] then hour + offsetHour
    else if universalTimeRelation = ['+'] then hour - offsetHour
    else hour
  let minute1 :=
    if universalTimeRelation = ['-'] then minute + offsetMinute
    else if universalTimeRelation = ['+'] then minute - offsetMinute
    else minute
  match parseInt10 (matches_.getD 0 none) with
  | some year => { time := dateUTC year month day hour1 minute1 second }
  | none => { time := none }

/-- The method `PDFDateString.toDateObject`: `none` is `null`. -/
def toDateObject (input : DateInput) : Option JSDate :=
  match input with
  | DateInput.other => none
  | DateInput.string s =>
    if s = "" then none
    else
      match exec pdfDateStringRegex s.data with
      | none => none
      | some matches_ => some (dateOfMatches matches_)

end DisplayUtils

namespace DisplayUtils

/-- The number of days of a month (0 for January to 11 for December) of a
year, in the calendar of ECMAScript time values. -/
def daysInMonth (year month : Int) : Int :=
  if month = 1 then (if daysInYear year = 366 then 29 else 28)
  else if month = 3 ∨ month = 5 ∨ month = 8 ∨ month = 10 then 30
  else 31

/-- The year that `Date.UTC` works with: a year from 0 to 99 stands for 1900
to 1999. -/
def fullYear (year : Int) : Int := if 0 ≤ year ∧ year ≤ 99 then 1900 + year else year

/-- A number below 100 written with two decimal digits. -/
def pad2 (n : Nat) : List Char := [Nat.digitChar (n / 10), Nat.digitChar (n % 10)]

/-- A number below 10000 written with four decimal digits. -/
def pad4 (n : Nat) : List Char :=
  [Nat.digitChar (n / 1000), Nat.digitChar (n / 100 % 10), Nat.digitChar (n / 10 % 10),
    Nat.digitChar (n % 10)]

/-- A date string with every field, `D:YYYYMMDDHHmmSSOHH'mm'`, where the
relation `O` may be missing. -/
def pdfDateString (year month day hour minute second : Nat) (relation : Option Char)
    (offsetHour offsetMinute : Nat) : String :=
  String.mk ('D' :: ':' :: (pad4 year ++ pad2 month ++ pad2 day ++ pad2 hour ++ pad2 minute ++
    pad2 second ++ relation.toList ++ pad2 offsetHour ++ [apostrophe] ++ pad2 offsetMinute ++
    [apostrophe]))

/-- The captures of the regular expression on the string `D:20090401163925`:
the six fields, no relation and no offset. -/
def date2009Captures : List (Option (List Char)) :=
  [some ['2', '0', '0', '9'], some ['0', '4'], some ['0', '1'], some ['1', '6'],
    some ['3', '9'], some ['2', '5'], none, none, none]

end DisplayUtils

namespace Worker

/-- The callback loop calls the queued callbacks from index `i` on, each with
`data`, in queue order. -/
theorem callCallbacks_eq_map (callbacks : List Callback) (data : JSValue) (i : Nat) :
    callCallbacks callbacks data i = (callbacks.drop i).map (fun cb => Effect.call cb data) := by
  generalize hn : callbacks.length - i = n
  induction n generalizing i with
  | zero =>
    have hi : callbacks.length ≤ i := by omega
    rw [callCallbacks, dif_neg (by omega), List.drop_of_length_le hi]
    rfl
  | succ n ih =>
    have hi : i < callbacks.length := by omega
    rw [callCallbacks, dif_pos hi, ih (i + 1) (by omega), List.drop_eq_getElem_cons hi]
    rfl

/-- Registering callbacks on an unresolved promise calls nothing and appends
them to the queue in registration order. -/
theorem thenAll_unresolved (cbs : List Callback) (p : Promise) (h : p.isResolved = false) :
    p.thenAll cbs =
      { state := { p with callbacks := p.callbacks ++ cbs }, effects := [], thrown := none } := by
  induction cbs generalizing p with
  | nil => simp [Promise.thenAll]
  | cons cb rest ih =>
    have h1 : (p.then_ cb).state.isResolved = false := by simp [Promise.then_, h]
    simp [Promise.thenAll, ih _ h1]
    simp [Promise.then_, h]

/-- C1: resolving a promise that is already resolved (by an earlier `resolve`
call or by construction with non-null data) throws "A Promise can be resolved
only once", calls no callback, and leaves the promise (its `isResolved` flag,
its data, its queue) as it was. -/
theorem promise_resolve_single_write (p : Promise) (data2 : JSValue)
    (h : p.isResolved = true ∨
         (∃ (q : Promise) (data : JSValue), q.isResolved = false ∧ p = (q.resolve data).state) ∨
         (∃ (name : String) (data : JSValue), data.neqNull = true ∧ p = Promise.new name data)) :
    (p.resolve data2).thrown = some "A Promise can be resolved only once" ∧
    (∀ e ∈ (p.resolve data2).effects, e.isCall = false) ∧
    (p.resolve data2).state = p ∧
    (p.resolve data2).state.isResolved = true := by
  have hres : p.isResolved = true := by
    rcases h with h | ⟨q, data, hq, rfl⟩ | ⟨name, data, hd, rfl⟩
    · exact h
    · simp [Promise.resolve, hq]
    · simp [Promise.new, hd]
  simp [Promise.resolve, hres, Effect.isCall]

/-- Witness for C1: a promise built with data `7`, resolved again with `8`. -/
theorem promise_resolve_single_write_witness :
    ((Promise.new "font_1" (JSValue.number 7)).resolve (JSValue.number 8)).thrown
        = some "A Promise can be resolved only once" ∧
    (∀ e ∈ ((Promise.new "font_1" (JSValue.number 7)).resolve (JSValue.number 8)).effects,
        e.isCall = false) ∧
    ((Promise.new "font_1" (JSValue.number 7)).resolve (JSValue.number 8)).state
        = Promise.new "font_1" (JSValue.number 7) ∧
    ((Promise.new "font_1" (JSValue.number 7)).resolve (JSValue.number 8)).state.isResolved
        = true :=
  promise_resolve_single_write (Promise.new "font_1" (JSValue.number 7)) (JSValue.number 8)
    (Or.inr (Or.inr ⟨"font_1", JSValue.number 7, rfl, rfl⟩))

/-- C2: `then` on a resolved promise calls the callback at once with the stored
data and queues nothing; on an unresolved promise it calls nothing and appends
the callback to the queue, and a later `resolve(data)` calls exactly the queued
callbacks, each once with `data`, in registration order. -/
theorem promise_then_calls_in_order (p : Promise) (callback : Callback)
    (later : List Callback) (data : JSValue) :
    (p.isResolved = true →
      p.then_ callback =
        { state := p, effects := [Effect.call callback p.data], thrown := none }) ∧
    (p.isResolved = false →
      p.then_ callback =
        { state := { p with callbacks := p.callbacks ++ [callback] }
          effects := [], thrown := none } ∧
      ((p.then_ callback).state.thenAll later).effects = [] ∧
      ((((p.then_ callback).state.thenAll later).state.resolve data).thrown = none) ∧
      ((((p.then_ callback).state.thenAll later).state.resolve data).effects.filter Effect.isCall
        = (p.callbacks ++ callback :: later).map (fun cb => Effect.call cb data))) := by
  constructor
  · intro h
    simp [Promise.then_, h]
  · intro h
    have h1 : (p.then_ callback).state.isResolved = false := by simp [Promise.then_, h]
    have h2 : (p.then_ callback).state.callbacks = p.callbacks ++ [callback] := by
      simp [Promise.then_, h]
    rw [thenAll_unresolved later _ h1]
    refine ⟨by simp [Promise.then_, h], rfl, ?_, ?_⟩
    · simp [Promise.resolve, h1]
    · simp only [Promise.resolve, h1, h2, callCallbacks_eq_map]
      simp [List.filter_cons, Effect.isCall, List.filter_map, Function.comp_def]

/-- Witness for C2: `then` on a promise resolved with `5` calls callback 9 at
once with `5`; callbacks 1, 2, 3 registered in that order on an unresolved
promise that already queues callback 0 are called in the order 0, 1, 2, 3. -/
theorem promise_then_calls_in_order_witness :
    ((Promise.new "q" (JSValue.number 5)).then_ ⟨9⟩
      = { state := Promise.new "q" (JSValue.number 5)
          effects := [Effect.call ⟨9⟩ (Promise.new "q" (JSValue.number 5)).data]
          thrown := none }) ∧
    ((((({ name := "p", isResolved := false, data := JSValue.undefined,
           callbacks := [⟨0⟩] } : Promise).then_ ⟨1⟩).state.thenAll [⟨2⟩, ⟨3⟩]).state.resolve
        (JSValue.number 5)).effects.filter Effect.isCall
      = [Effect.call ⟨0⟩ (JSValue.number 5), Effect.call ⟨1⟩ (JSValue.number 5),
         Effect.call ⟨2⟩ (JSValue.number 5), Effect.call ⟨3⟩ (JSValue.number 5)]) :=
  ⟨(promise_then_calls_in_order (Promise.new "q" (JSValue.number 5)) ⟨9⟩ []
      (JSValue.number 5)).1 rfl,
   ((promise_then_calls_in_order
      { name := "p", isResolved := false, data := JSValue.undefined, callbacks := [⟨0⟩] }
      ⟨1⟩ [⟨2⟩, ⟨3⟩] (JSValue.number 5)).2 rfl).2.2.2⟩

/-- Reading back the id that was just written finds the promise written. -/
theorem lookup_set_of_not_reserved (o : Objects) (objId : String) (p : Promise)
    (h : objId ∉ reservedKeys) : (o.set objId p).lookup objId = Slot.promise p := by
  simp [Objects.lookup, Objects.set, h, List.lookup]

/-- An id that reads as absent or as a promise is not a reserved key. -/
theorem not_reserved_of_lookup (o : Objects) (objId : String)
    (h : o.lookup objId ≠ Slot.member) : objId ∉ reservedKeys := by
  intro hmem
  exact h (by simp [Objects.lookup, hmem])

/-- Where the round trip on the object table holds: after
`Objects.resolve(objId, data)` returns without throwing, `Objects.get(objId)`
returns `data` when `data` is neither `null` nor `undefined`, and also when a
promise was already stored under `objId`. -/
theorem objects_resolve_get_roundtrip (o : Objects) (objId : String) (data : JSValue)
    (hret : (o.resolve objId data).thrown = none)
    (hdata : data.neqNull = true ∨ ∃ p : Promise, o.lookup objId = Slot.promise p) :
    Objects.get (o.resolve objId data).state objId = Except.ok data := by
  cases hl : o.lookup objId with
  | absent =>
    have hnr := not_reserved_of_lookup o objId (by simp [hl])
    have hd : data.neqNull = true := by
      rcases hdata with hd | ⟨p, hp⟩
      · exact hd
      · simp [hl] at hp
    simp [Objects.resolve, hl, Objects.get, lookup_set_of_not_reserved _ _ _ hnr,
      Promise.new, hd]
  | member =>
    simp [Objects.resolve, hl] at hret
  | promise p =>
    have hnr := not_reserved_of_lookup o objId (by simp [hl])
    cases hp : p.isResolved with
    | true => simp [Objects.resolve, hl, Promise.resolve, hp] at hret
    | false =>
      simp [Objects.resolve, hl, Objects.get, lookup_set_of_not_reserved _ _ _ hnr,
        Promise.resolve, hp]

/-- C3, evaluated: for `data` equal to `null` or `undefined` the two branches
of `Objects.resolve` disagree.  On an id under which nothing is stored yet,
`Objects.resolve(objId, data)` returns without throwing and stores a promise
that is not resolved, so that `Objects.get(objId)` throws "Requesting object
that isn't resolved yet" instead of returning `data`.  On an id under which a
pending promise is stored, the same call resolves that promise and
`Objects.get(objId)` returns `data`. -/
theorem objects_resolve_nullish_fresh_id (o : Objects) (objId : String) (data : JSValue)
    (hdata : data.neqNull = false) :
    (o.lookup objId = Slot.absent →
      (o.resolve objId data).thrown = none ∧
      Objects.get (o.resolve objId data).state objId
        = Except.error "Requesting object that isn't resolved yet" ∧
      Objects.get (o.resolve objId data).state objId ≠ Except.ok data) ∧
    (∀ p : Promise, o.lookup objId = Slot.promise p → p.isResolved = false →
      (o.resolve objId data).thrown = none ∧
      Objects.get (o.resolve objId data).state objId = Except.ok data) := by
  constructor
  · intro hl
    have hnr := not_reserved_of_lookup o objId (by simp [hl])
    have hget : Objects.get (o.resolve objId data).state objId
        = Except.error "Requesting object that isn't resolved yet" := by
      simp [Objects.resolve, hl, Objects.get, lookup_set_of_not_reserved _ _ _ hnr,
        Promise.new, hdata]
    refine ⟨by simp [Objects.resolve, hl], hget, ?_⟩
    rw [hget]
    intro h
    cases h
  · intro p hl hp
    have hret : (o.resolve objId data).thrown = none := by
      simp [Objects.resolve, hl, Promise.resolve, hp]
    exact ⟨hret, objects_resolve_get_roundtrip o objId data hret (Or.inr ⟨p, hl⟩)⟩

/-- Witness for C3: `Objects.resolve("img_1", null)` on an empty table, where
`Objects.get("img_1")` then throws, and on a table that holds a pending
promise under `img_1`, where `Objects.get("img_1")` then returns `null`. -/
theorem objects_resolve_nullish_fresh_id_witness :
    ((Objects.resolve { entries := [] } "img_1" JSValue.null).thrown = none ∧
      Objects.get (Objects.resolve { entries := [] } "img_1" JSValue.null).state "img_1"
        = Except.error "Requesting object that isn't resolved yet" ∧
      Objects.get (Objects.resolve { entries := [] } "img_1" JSValue.null).state "img_1"
        ≠ Except.ok JSValue.null) ∧
    ((Objects.resolve { entries := [("img_1", Promise.new "img_1" JSValue.undefined)] } "img_1"
        JSValue.null).thrown = none ∧
      Objects.get (Objects.resolve
        { entries := [("img_1", Promise.new "img_1" JSValue.undefined)] } "img_1"
        JSValue.null).state "img_1" = Except.ok JSValue.null) :=
  ⟨(objects_resolve_nullish_fresh_id { entries := [] } "img_1" JSValue.null rfl).1 rfl,
   (objects_resolve_nullish_fresh_id
      { entries := [("img_1", Promise.new "img_1" JSValue.undefined)] } "img_1" JSValue.null
      rfl).2 (Promise.new "img_1" JSValue.undefined) rfl rfl⟩

end Worker

namespace NodeStream

/-- Overwriting the values stored under a key that is present makes a lookup of
that key find the new value. -/
theorem lookup_map_replace (obj : List (String × String)) (key value : String)
    (hany : (obj.any fun kv => kv.1 == key) = true) :
    (obj.map (fun kv => if kv.1 == key then (kv.1, value) else kv)).lookup key = some value := by
  induction obj with
  | nil => simp at hany
  | cons kv rest ih =>
    rw [List.map_cons]
    by_cases hk : kv.1 = key
    · have h1 : (kv.1 == key) = true := by simp [hk]
      rw [if_pos h1, List.lookup_cons]
      have h2 : (key == kv.1) = true := by simp [hk]
      simp [h2]
    · have h1 : ¬ (kv.1 == key) = true := by simp [hk]
      rw [if_neg h1, List.lookup_cons]
      have h2 : (key == kv.1) = false := by
        simpa using fun h => hk h.symm
      have hany1 : (rest.any fun kv => kv.1 == key) = true := by
        simpa [List.any_cons, hk] using hany
      simpa [h2] using ih hany1

/-- Adding a key that is not present makes a lookup find it. -/
theorem lookup_append_new (obj : List (String × String)) (key value : String)
    (hany : ¬ (obj.any fun kv => kv.1 == key) = true) :
    (obj ++ [(key, value)]).lookup key = some value := by
  induction obj with
  | nil => simp [List.lookup]
  | cons kv rest ih =>
    have hk : ¬ kv.1 = key := by
      intro h
      exact hany (by simp [List.any_cons, h])
    have h2 : (key == kv.1) = false := by
      simpa using fun h => hk h.symm
    have hrest : ¬ (rest.any fun kv => kv.1 == key) = true := by
      intro h
      exact hany (by simp [List.any_cons, h])
    rw [List.cons_append, List.lookup_cons]
    simp [h2, ih hrest]

/-- Reading a property that was just written gives the value written. -/
theorem lookup_setProperty (obj : List (String × String)) (key value : String) :
    (setProperty obj key value).lookup key = some value := by
  unfold setProperty
  split
  · rename_i hany
    exact lookup_map_replace obj key value hany
  · rename_i hany
    exact lookup_append_new obj key value hany

/-- Making every header value defined does not change what a lookup finds. -/
theorem lookup_map_some (obj : List (String × String)) (key : String) :
    (obj.map (fun kv => (kv.1, some kv.2))).lookup key = (obj.lookup key).map some := by
  induction obj with
  | nil => rfl
  | cons kv rest ih =>
    cases h : key == kv.1 <;> simp [List.lookup, h, ih]

/-- The inclusive bounds `first .. last` denote `last + 1 - first` offsets. -/
theorem length_inclusiveOffsets (first last : Int) :
    (inclusiveOffsets first last).length = (last + 1 - first).toNat := by
  unfold inclusiveOffsets
  rw [List.length_map, List.length_range]

/-- The offsets between inclusive bounds are those from `first` to `last`. -/
theorem mem_inclusiveOffsets (first last x : Int) :
    x ∈ inclusiveOffsets first last ↔ first ≤ x ∧ x ≤ last := by
  unfold inclusiveOffsets
  rw [List.mem_map]
  constructor
  · rintro ⟨i, hi, rfl⟩
    rw [List.mem_range] at hi
    omega
  · rintro ⟨h1, h2⟩
    refine ⟨(x - first).toNat, ?_, ?_⟩
    · rw [List.mem_range]; omega
    · omega
/-- A digit below ten prints as a decimal digit that reads back as itself. -/
theorem digitChar_isDigit (d : Nat) (h : d < 10) :
    (Nat.digitChar d).isDigit = true ∧ (Nat.digitChar d).toNat - 48 = d := by
  interval_cases d <;> exact ⟨rfl, rfl⟩

/-- The digits are put in front of the accumulator. -/
theorem toDigitsCore_append (fuel n : Nat) (ds : List Char) :
    Nat.toDigitsCore 10 fuel n ds = Nat.toDigitsCore 10 fuel n [] ++ ds := by
  induction fuel generalizing n ds with
  | zero => simp [Nat.toDigitsCore]
  | succ fuel ih =>
    simp only [Nat.toDigitsCore]
    split
    · simp
    · rw [ih (n / 10) (Nat.digitChar (n % 10) :: ds), ih (n / 10) [Nat.digitChar (n % 10)]]
      simp

/-- With enough fuel the printed form of `n` is a non-empty string of decimal
digits that denotes `n`. -/
theorem toDigitsCore_spec (fuel n : Nat) (h : n < fuel) :
    Nat.toDigitsCore 10 fuel n [] ≠ [] ∧
    (Nat.toDigitsCore 10 fuel n []).all Char.isDigit = true ∧
    (Nat.toDigitsCore 10 fuel n []).foldl (fun acc c => 10 * acc + (c.toNat - 48)) 0 = n := by
  induction fuel generalizing n with
  | zero => omega
  | succ fuel ih =>
    have hd := digitChar_isDigit (n % 10) (Nat.mod_lt _ (by decide))
    simp only [Nat.toDigitsCore]
    split
    · rename_i h0
      refine ⟨by simp, by simp [hd.1], ?_⟩
      simp only [List.foldl_cons, List.foldl_nil, hd.2]
      omega
    · rename_i h0
      have hlt : n / 10 < fuel := by omega
      obtain ⟨h1, h2, h3⟩ := ih (n / 10) hlt
      rw [toDigitsCore_append]
      refine ⟨by simp, ?_, ?_⟩
      · simp [List.all_append, h2, hd.1]
      · rw [List.foldl_append, h3]
        simp only [List.foldl_cons, List.foldl_nil, hd.2]
        omega

/-- Reading the printed form of a number gives the number back. -/
theorem parseDigits_toDigits (n : Nat) : parseDigits (Nat.toDigits 10 n) = some n := by
  obtain ⟨h1, h2, h3⟩ := toDigitsCore_spec (n + 1) n (by omega)
  unfold parseDigits Nat.toDigits
  rw [if_pos ⟨h1, h2⟩, h3]

/-- Splitting digits followed by a hyphen at the first non-digit. -/
theorem takeWhile_digits (ds rest : List Char) (h : ds.all Char.isDigit = true) :
    (ds ++ '-' :: rest).takeWhile Char.isDigit = ds ∧
    (ds ++ '-' :: rest).dropWhile Char.isDigit = '-' :: rest := by
  induction ds with
  | nil => exact ⟨rfl, rfl⟩
  | cons d ds ih =>
    simp only [List.all_cons, Bool.and_eq_true] at h
    obtain ⟨ih1, ih2⟩ := ih h.2
    simp [List.takeWhile, List.dropWhile, h.1, ih1, ih2]

/-- The characters of a non-negative integer printed in a template literal. -/
theorem toString_data (n : Nat) : (toString (n : Int)).data = Nat.toDigits 10 n := by
  rfl

/-- A server reads the header value written for `start` and `end` as the
positions `start` and `end - 1`. -/
theorem parseByteRange_rangeHeaderValue (a b : Nat) :
    parseByteRange (rangeHeaderValue a (b + 1)) = some (a, b) := by
  have hl : (rangeHeaderValue a (b + 1)).toList
      = 'b' :: 'y' :: 't' :: 'e' :: 's' :: '=' :: (Nat.toDigits 10 a ++ '-' :: Nat.toDigits 10 b) := by
    have hb : ((b : Int) + 1 - 1) = (b : Int) := by omega
    simp only [rangeHeaderValue, hb, String.toList, String.data_append, toString_data]
    simp
  have ha := toDigitsCore_spec (a + 1) a (by omega)
  have htd := takeWhile_digits (Nat.toDigits 10 a) (Nat.toDigits 10 b) ha.2.1
  unfold parseByteRange
  rw [hl]
  simp only [htd.1, htd.2, parseDigits_toDigits]

/-- The HTTP range reader sends the header `Range: bytes=<start>-<end-1>`. -/
theorem http_range_header (stream : StreamInfo) (start end_ : Int) :
    (PDFNodeStreamRangeReader.new stream start end_)._request.options.headers.lookup "Range"
      = some (some (rangeHeaderValue start end_)) := by
  simp [PDFNodeStreamRangeReader.new, makeRequest, createRequestOptions, lookup_map_some,
    lookup_setProperty]

/-- The filesystem range reader opens the file with `{start, end: end - 1}`. -/
theorem fs_range_options (imports : Imports) (stream : StreamInfo) (start end_ : Int) :
    (PDFNodeStreamFsRangeReader.new imports stream start end_)._readableStream
      = some { origin := StreamOrigin.file (fsPath imports stream.url) (some (start, end_ - 1))
               destroyed := [] } := by
  simp [PDFNodeStreamFsRangeReader.new, BaseRangeReader._setReadableStream,
    BaseRangeReader.new]

/-- A server reads the header value written for `0 <= start < end` as the
offsets `start .. end - 1`. -/
theorem httpRangeOffsets_rangeHeaderValue (start end_ : Int) (h0 : 0 ≤ start)
    (h1 : start < end_) :
    httpRangeOffsets (rangeHeaderValue start end_) = some (inclusiveOffsets start (end_ - 1)) := by
  obtain ⟨a, rfl⟩ := Int.eq_ofNat_of_zero_le h0
  obtain ⟨b, hb⟩ := Int.eq_ofNat_of_zero_le (show 0 ≤ end_ - 1 by omega)
  have he : end_ = (b : Int) + 1 := by omega
  subst he
  simp only [httpRangeOffsets, parseByteRange_rangeHeaderValue, Option.map_some']
  congr 2
  omega

/-- C4: for `0 <= start < end`, `getRangeReader(start, end)` hands out (and
lists) a reader that asks its backend for exactly the `end - start` offsets
`start .. end-1`, whichever backend it is: the HTTP range reader sends the
header `Range: bytes=<start>-<end-1>`, the filesystem range reader opens the
file with the inclusive bounds `{start, end: end-1}`, and the two denote the
same byte interval. -/
theorem range_readers_same_interval (imports : Imports) (s : PDFNodeStream)
    (start end_ : Int) (h0 : 0 ≤ start) (h1 : start < end_) :
    (s.getRangeReader imports start end_)._rangeRequestReaders
      = s._rangeRequestReaders ++ [s.makeRangeReader imports start end_] ∧
    (s.makeRangeReader imports start end_).requestedOffsets
      = some (inclusiveOffsets start (end_ - 1)) ∧
    (PDFNodeStreamRangeReader.new s.toStreamInfo start end_)._request.options.headers.lookup
        "Range"
      = some (some ("bytes=" ++ toString start ++ "-" ++ toString (end_ - 1))) ∧
    httpRangeOffsets ("bytes=" ++ toString start ++ "-" ++ toString (end_ - 1))
      = some (inclusiveOffsets start (end_ - 1)) ∧
    (PDFNodeStreamFsRangeReader.new imports s.toStreamInfo start end_)._readableStream
      = some { origin := StreamOrigin.file (fsPath imports s.url) (some (start, end_ - 1))
               destroyed := [] } ∧
    fsRangeOffsets (StreamOrigin.file (fsPath imports s.url) (some (start, end_ - 1)))
      = some (inclusiveOffsets start (end_ - 1)) ∧
    (inclusiveOffsets start (end_ - 1)).length = (end_ - start).toNat ∧
    (∀ x : Int, x ∈ inclusiveOffsets start (end_ - 1) ↔ start ≤ x ∧ x < end_) := by
  have hhttp := http_range_header s.toStreamInfo start end_
  have hfs := fs_range_options imports s.toStreamInfo start end_
  have hoff := httpRangeOffsets_rangeHeaderValue start end_ h0 h1
  refine ⟨rfl, ?_, hhttp, hoff, hfs, rfl, ?_, ?_⟩
  · unfold PDFNodeStream.makeRangeReader
    split
    · simp only [RangeReader.requestedOffsets, hfs]
      rfl
    · simp only [RangeReader.requestedOffsets, hhttp]
      exact hoff
  · rw [length_inclusiveOffsets]
    congr 1
    omega
  · intro x
    rw [mem_inclusiveOffsets]
    omega

/-- Witness for C4: the range `[10, 25)` requested from an HTTP source. -/
theorem range_readers_same_interval_witness :
    ((PDFNodeStream.new
        { url := "http://host/a.pdf", length := none, disableRange := false,
          rangeChunkSize := some 65536, disableStream := false, httpHeaders := none }
        { protocol := "http:", auth := none, host := some "host", hostname := some "host",
          port := none, path := "/a.pdf", href := "http://host/a.pdf" }).makeRangeReader
        { validateRangeRequestCapabilities := fun _ _ _ _ => (false, none)
          extractFilenameFromHeader := fun _ => none
          decodeURIComponent := fun p => p }
        10 25).requestedOffsets
      = some (inclusiveOffsets 10 (25 - 1)) ∧
    (inclusiveOffsets 10 (25 - 1)).length = ((25 : Int) - 10).toNat :=
  ⟨(range_readers_same_interval
      { validateRangeRequestCapabilities := fun _ _ _ _ => (false, none)
        extractFilenameFromHeader := fun _ => none
        decodeURIComponent := fun p => p }
      (PDFNodeStream.new
        { url := "http://host/a.pdf", length := none, disableRange := false,
          rangeChunkSize := some 65536, disableStream := false, httpHeaders := none }
        { protocol := "http:", auth := none, host := some "host", hostname := some "host",
          port := none, path := "/a.pdf", href := "http://host/a.pdf" })
      10 25 (by decide) (by decide)).2.1,
   (range_readers_same_interval
      { validateRangeRequestCapabilities := fun _ _ _ _ => (false, none)
        extractFilenameFromHeader := fun _ => none
        decodeURIComponent := fun p => p }
      (PDFNodeStream.new
        { url := "http://host/a.pdf", length := none, disableRange := false,
          rangeChunkSize := some 65536, disableStream := false, httpHeaders := none }
        { protocol := "http:", auth := none, host := some "host", hostname := some "host",
          port := none, path := "/a.pdf", href := "http://host/a.pdf" })
      10 25 (by decide) (by decide)).2.2.2.2.2.2.1⟩



/-- Resolving keeps a capability that is not rejected not rejected. -/
theorem readNotRejected_resolve (c : Capability) (h : readNotRejected c) :
    readNotRejected c.resolve := by
  cases c with
  | pending => intro e; simp [Capability.resolve]
  | resolved => intro e; simp [Capability.resolve]
  | rejected r => exact absurd rfl (h r)

/-- The pending capability is not rejected. -/
theorem readNotRejected_pending : readNotRejected Capability.pending := by
  intro e; simp

/-- `_setReadableStream` on a base full reader touches the read capability only
by resolving it, and leaves `_loaded`, `_done` and `_isRangeSupported` alone. -/
theorem fullReader_setReadableStream_frame (r : BaseFullReader) (s : Readable) :
    ((r._setReadableStream s)._readCapability = r._readCapability ∨
      (r._setReadableStream s)._readCapability = r._readCapability.resolve) ∧
    (r._setReadableStream s)._loaded = r._loaded ∧
    (r._setReadableStream s)._done = r._done ∧
    (r._setReadableStream s).onProgress = r.onProgress ∧
    (r._setReadableStream s)._isRangeSupported = r._isRangeSupported ∧
    (r._setReadableStream s)._readableStream.isSome = true ∧
    (r._setReadableStream s)._disableRange = r._disableRange := by
  unfold BaseFullReader._setReadableStream BaseFullReader._error
  by_cases hc : (!r._isStreamingSupported && r._isRangeSupported) = true
  · simp [hc]
  · cases he : r._storedError <;> simp [hc, he]

/-- `_setReadableStream` on a base range reader leaves the read capability,
`_loaded` and `_done` alone. -/
theorem rangeReader_setReadableStream_frame (r : BaseRangeReader) (s : Readable) :
    (r._setReadableStream s)._readCapability = r._readCapability ∧
    (r._setReadableStream s)._loaded = r._loaded ∧
    (r._setReadableStream s)._done = r._done ∧
    (r._setReadableStream s).onProgress = r.onProgress ∧
    (r._setReadableStream s)._readableStream.isSome = true := by
  unfold BaseRangeReader._setReadableStream
  cases he : r._storedError <;> simp [he]

/-- The bytes a read delivers: the length of the buffer, or nothing. -/
theorem deliveredBytes_single (rec : ReadRecord) :
    deliveredBytes [rec] =
      match rec.result with
      | ReadResult.value buffer => buffer.length
      | _ => 0 := by
  simp [deliveredBytes]

/-- The bytes delivered by two runs of reads add up. -/
theorem deliveredBytes_append (xs ys : List ReadRecord) :
    deliveredBytes (xs ++ ys) = deliveredBytes xs + deliveredBytes ys := by
  induction xs with
  | nil => simp [deliveredBytes]
  | cons x rest ih => simp [deliveredBytes, ih, Nat.add_assoc]

/-- What `read` does on a base full reader: `_loaded` grows by the bytes
delivered, a delivered chunk is reported once to the listener (if any) with the
new `_loaded` and the content length, and nothing else of interest changes. -/
theorem fullReader_read_spec (r : BaseFullReader) (answer : Option Chunk) :
    (r.read answer).reader._loaded
      = r._loaded + (match (r.read answer).result with
                     | ReadResult.value buffer => buffer.length
                     | _ => 0) ∧
    (∀ chunk, (r.read answer).result = ReadResult.value chunk →
      (r.read answer).progress =
        match r.onProgress with
        | some listener =>
          [(listener, [("loaded", some (r._loaded + chunk.length)), ("total", r._contentLength)])]
        | none => []) ∧
    (readNotRejected r._readCapability →
      readNotRejected (r.read answer).reader._readCapability) ∧
    (r.read answer).reader.onProgress = r.onProgress ∧
    (r.read answer).reader._isRangeSupported = r._isRangeSupported ∧
    (r.read answer).reader._disableRange = r._disableRange := by
  unfold BaseFullReader.read
  cases hc : r._readCapability <;> simp only []
  · simp [hc]
  · cases hd : r._done
    · cases he : r._storedError
      · simp [hc]
      · cases hs : r._readableStream
        · simp [hc]
        · cases answer
          · simp [hc, readNotRejected_pending]
          · cases hp : r.onProgress <;> simp [hc, hp]
    · simp [hc]
  · simp [hc]

/-- What `read` does on a base range reader: as for the full reader, except
that the object reported has the single field `loaded`. -/
theorem rangeReader_read_spec (r : BaseRangeReader) (answer : Option Chunk) :
    (r.read answer).reader._loaded
      = r._loaded + (match (r.read answer).result with
                     | ReadResult.value buffer => buffer.length
                     | _ => 0) ∧
    (∀ chunk, (r.read answer).result = ReadResult.value chunk →
      (r.read answer).progress =
        match r.onProgress with
        | some listener => [(listener, [("loaded", some (r._loaded + chunk.length))])]
        | none => []) ∧
    (readNotRejected r._readCapability →
      readNotRejected (r.read answer).reader._readCapability) ∧
    (r.read answer).reader.onProgress = r.onProgress := by
  unfold BaseRangeReader.read
  cases hc : r._readCapability <;> simp only []
  · simp [hc]
  · cases hd : r._done
    · cases he : r._storedError
      · simp [hc]
      · cases hs : r._readableStream
        · simp [hc]
        · cases answer
          · simp [hc, readNotRejected_pending]
          · cases hp : r.onProgress <;> simp [hc, hp]
    · simp [hc]
  · simp [hc]

/-- The base of a full reader after its base was replaced. -/
theorem fullReader_base_withBase (r : FullReader) (b : BaseFullReader) :
    (r.withBase b).base = b := by
  cases r <;> rfl

/-- The base of a range reader after its base was replaced. -/
theorem rangeReader_base_withBase (r : RangeReader) (b : BaseRangeReader) :
    (r.withBase b).base = b := by
  cases r <;> rfl

/-- The closure `handleResponse` leaves `_loaded` and `onProgress` alone and
touches the read capability only by resolving it. -/
theorem handleResponse_frame (imports : Imports) (stream : StreamInfo)
    (r : PDFNodeStreamFullReader) (response : Response) :
    (r.handleResponse imports stream response).1._loaded = r._loaded ∧
    (r.handleResponse imports stream response).1.onProgress = r.onProgress ∧
    (readNotRejected r._readCapability →
      readNotRejected (r.handleResponse imports stream response).1._readCapability) := by
  simp only [PDFNodeStreamFullReader.handleResponse]
  split
  · exact ⟨rfl, rfl, fun h => h⟩
  · have hf := fullReader_setReadableStream_frame
      { r.toBaseFullReader with _headersCapability := r._headersCapability.resolve }
      response.toReadable
    refine ⟨hf.2.1, hf.2.2.2.1, ?_⟩
    intro h
    rcases hf.1 with h1 | h1
    · simpa [h1] using h
    · simpa [h1] using readNotRejected_resolve _ h

/-- The callback of `lstat` leaves `_loaded`, `onProgress` and
`_isRangeSupported` alone and touches the read capability only by resolving
it. -/
theorem onLstat_frame (r : PDFNodeStreamFsFullReader)
    (result : Except JSError Nat) :
    (r.onLstat result)._loaded = r._loaded ∧
    (r.onLstat result).onProgress = r.onProgress ∧
    (r.onLstat result)._isRangeSupported = r._isRangeSupported ∧
    (r.onLstat result)._disableRange = r._disableRange ∧
    (readNotRejected r._readCapability →
      readNotRejected (r.onLstat result)._readCapability) := by
  unfold PDFNodeStreamFsFullReader.onLstat
  cases result with
  | error e => exact ⟨rfl, rfl, rfl, rfl, fun h => h⟩
  | ok size =>
    have hf := fullReader_setReadableStream_frame
      { r.toBaseFullReader with _contentLength := some size }
      { origin := StreamOrigin.file r.path none, destroyed := [] }
    refine ⟨hf.2.1, hf.2.2.2.1, hf.2.2.2.2.1, hf.2.2.2.2.2.2, ?_⟩
    intro h
    rcases hf.1 with h1 | h1
    · simpa [h1] using h
    · simpa [h1] using readNotRejected_resolve _ h

/-- One event on a full reader: `_loaded` grows by the bytes delivered, every
read is recorded with the listener in place, a delivered chunk is reported
once with the new `_loaded` and a `total` field, and the read capability stays
not rejected. -/
theorem fullReader_step_spec (imports : Imports) (stream : StreamInfo) (r : FullReader)
    (ev : ReaderEvent) :
    (r.step imports stream ev).1.base._loaded
      = r.base._loaded + deliveredBytes (r.step imports stream ev).2 ∧
    (∀ rec ∈ (r.step imports stream ev).2, ∀ chunk, rec.result = ReadResult.value chunk →
      rec.progress =
        match rec.listener with
        | some listener =>
          [(listener, [("loaded", some (r.base._loaded + chunk.length)),
                       ("total", r.base._contentLength)])]
        | none => []) ∧
    (readNotRejected r.base._readCapability →
      readNotRejected (r.step imports stream ev).1.base._readCapability) ∧
    (r.step imports stream ev).2.length ≤ 1 := by
  cases ev with
  | response response =>
    cases r with
    | http h =>
      have hf := handleResponse_frame imports stream h response
      simpa [FullReader.step, FullReader.base, deliveredBytes] using ⟨hf.1, hf.2.2⟩
    | fs f => simp [FullReader.step, deliveredBytes]
  | requestError reason =>
    cases r with
    | http h =>
      simp [FullReader.step, FullReader.base, deliveredBytes,
        PDFNodeStreamFullReader.onRequestError]
    | fs f => simp [FullReader.step, deliveredBytes]
  | lstat result =>
    cases r with
    | http h => simp [FullReader.step, deliveredBytes]
    | fs f =>
      have hf := onLstat_frame f result
      simpa [FullReader.step, FullReader.base, deliveredBytes] using ⟨hf.1, hf.2.2.2.2⟩
  | readable =>
    simp only [FullReader.step]
    split
    · simpa [fullReader_base_withBase, deliveredBytes, BaseFullReader.onReadable]
        using readNotRejected_resolve _
    · simp [deliveredBytes]
  | streamEnd =>
    simp only [FullReader.step]
    split
    · simpa [fullReader_base_withBase, deliveredBytes, BaseFullReader.onEnd]
        using readNotRejected_resolve _
    · simp [deliveredBytes]
  | streamError reason =>
    simp only [FullReader.step]
    split
    · simpa [fullReader_base_withBase, deliveredBytes, BaseFullReader.onError,
        BaseFullReader._error] using readNotRejected_resolve _
    · simp [deliveredBytes]
  | read answer =>
    have hs := fullReader_read_spec r.base answer
    simp only [FullReader.step, FullReader.read, fullReader_base_withBase, List.mem_singleton,
      forall_eq, deliveredBytes_single, List.length_singleton, le_refl, and_true]
    exact ⟨hs.1, hs.2.1, hs.2.2.1⟩
  | setOnProgress listener =>
    simp [FullReader.step, fullReader_base_withBase, deliveredBytes]
  | cancel reason =>
    simp only [FullReader.step, FullReader.cancel, fullReader_base_withBase, deliveredBytes,
      List.not_mem_nil, false_implies, implies_true, List.length_nil, Nat.zero_le, and_true,
      true_and, Nat.add_zero]
    unfold BaseFullReader.cancel
    cases hs : r.base._readableStream with
    | none =>
      simpa [BaseFullReader._error] using readNotRejected_resolve _
    | some s => simp

/-- One event on a range reader: `_loaded` grows by the bytes delivered, a
delivered chunk is reported once with the new `_loaded` as the only field, and
the read capability stays not rejected. -/
theorem rangeReader_step_spec (r : RangeReader) (ev : ReaderEvent) :
    (r.step ev).1.base._loaded = r.base._loaded + deliveredBytes (r.step ev).2 ∧
    (∀ rec ∈ (r.step ev).2, ∀ chunk, rec.result = ReadResult.value chunk →
      rec.progress =
        match rec.listener with
        | some listener => [(listener, [("loaded", some (r.base._loaded + chunk.length))])]
        | none => []) ∧
    (readNotRejected r.base._readCapability →
      readNotRejected (r.step ev).1.base._readCapability) ∧
    (r.step ev).2.length ≤ 1 := by
  cases ev with
  | response response =>
    cases r with
    | http h =>
      have hf := rangeReader_setReadableStream_frame h.toBaseRangeReader response.toReadable
      simp only [RangeReader.step, RangeReader.base, PDFNodeStreamRangeReader.onResponse,
        deliveredBytes, List.not_mem_nil, false_implies, implies_true, List.length_nil,
        Nat.zero_le, and_true, true_and, Nat.add_zero]
      refine ⟨hf.2.1, ?_⟩
      intro hn
      rw [hf.1]
      exact hn
    | fs f => simp [RangeReader.step, deliveredBytes]
  | requestError reason =>
    cases r with
    | http h =>
      simp [RangeReader.step, RangeReader.base, deliveredBytes,
        PDFNodeStreamRangeReader.onRequestError]
    | fs f => simp [RangeReader.step, deliveredBytes]
  | lstat result => simp [RangeReader.step, deliveredBytes]
  | readable =>
    simp only [RangeReader.step]
    split
    · simpa [rangeReader_base_withBase, deliveredBytes, BaseRangeReader.onReadable]
        using readNotRejected_resolve _
    · simp [deliveredBytes]
  | streamEnd =>
    simp only [RangeReader.step]
    split
    · simpa [rangeReader_base_withBase, deliveredBytes, BaseRangeReader.onEnd]
        using readNotRejected_resolve _
    · simp [deliveredBytes]
  | streamError reason =>
    simp only [RangeReader.step]
    split
    · simpa [rangeReader_base_withBase, deliveredBytes, BaseRangeReader.onError,
        BaseRangeReader._error] using readNotRejected_resolve _
    · simp [deliveredBytes]
  | read answer =>
    have hs := rangeReader_read_spec r.base answer
    simp only [RangeReader.step, RangeReader.read, rangeReader_base_withBase, List.mem_singleton,
      forall_eq, deliveredBytes_single, List.length_singleton, le_refl, and_true]
    exact ⟨hs.1, hs.2.1, hs.2.2.1⟩
  | setOnProgress listener =>
    simp [RangeReader.step, rangeReader_base_withBase, deliveredBytes]
  | cancel reason =>
    simp only [RangeReader.step, RangeReader.cancel, rangeReader_base_withBase, deliveredBytes,
      List.not_mem_nil, false_implies, implies_true, List.length_nil, Nat.zero_le, and_true,
      true_and, Nat.add_zero]
    unfold BaseRangeReader.cancel
    cases hs : r.base._readableStream with
    | none =>
      simpa [BaseRangeReader._error] using readNotRejected_resolve _
    | some s => simp

/-- After a run of events on a full reader, the `k`-th read recorded, if it
delivered a chunk, reported to the listener in place the bytes loaded before
the run plus all bytes delivered up to and including that read, together with
a `total` field. -/
theorem fullReader_run_progress (imports : Imports) (stream : StreamInfo)
    (events : List ReaderEvent) (r : FullReader) (k : Nat) (rec : ReadRecord)
    (hk : (r.run imports stream events).2[k]? = some rec)
    (chunk : Chunk) (hv : rec.result = ReadResult.value chunk) :
    ∃ total : Option Nat,
      rec.progress =
        match rec.listener with
        | some listener =>
          [(listener,
            [("loaded",
                some (r.base._loaded
                      + deliveredBytes ((r.run imports stream events).2.take (k + 1)))),
             ("total", total)])]
        | none => [] := by
  induction events generalizing r k with
  | nil => simp [FullReader.run] at hk
  | cons ev rest ih =>
    have hs := fullReader_step_spec imports stream r ev
    simp only [FullReader.run] at hk ⊢
    match hrec : (r.step imports stream ev).2 with
    | [] =>
      rw [hrec] at hk
      rw [hrec] at hs
      simp only [List.nil_append] at hk ⊢
      obtain ⟨total, ht⟩ := ih _ k hk
      refine ⟨total, ?_⟩
      rw [ht, hs.1]
      simp [deliveredBytes]
    | [rec0] =>
      rw [hrec] at hk
      rw [hrec] at hs
      cases k with
      | zero =>
        simp only [List.singleton_append, List.getElem?_cons_zero, Option.some.injEq] at hk
        subst hk
        refine ⟨r.base._contentLength, ?_⟩
        rw [hs.2.1 rec0 (List.mem_singleton.mpr rfl) chunk hv]
        simp [deliveredBytes, hv]
      | succ k1 =>
        simp only [List.singleton_append, List.getElem?_cons_succ] at hk
        obtain ⟨total, ht⟩ := ih _ k1 hk
        refine ⟨total, ?_⟩
        rw [ht, hs.1]
        simp [deliveredBytes, Nat.add_assoc]
    | _ :: _ :: _ =>
      have hlen := hs.2.2.2
      rw [hrec] at hlen
      simp at hlen

/-- After a run of events on a range reader, the `k`-th read recorded, if it
delivered a chunk, reported to the listener in place an object whose only
field is `loaded`: the bytes loaded before the run plus all bytes delivered up
to and including that read. -/
theorem rangeReader_run_progress (events : List ReaderEvent) (r : RangeReader) (k : Nat)
    (rec : ReadRecord) (hk : (r.run events).2[k]? = some rec)
    (chunk : Chunk) (hv : rec.result = ReadResult.value chunk) :
    rec.progress =
      match rec.listener with
      | some listener =>
        [(listener,
          [("loaded",
              some (r.base._loaded + deliveredBytes ((r.run events).2.take (k + 1))))])]
      | none => [] := by
  induction events generalizing r k with
  | nil => simp [RangeReader.run] at hk
  | cons ev rest ih =>
    have hs := rangeReader_step_spec r ev
    simp only [RangeReader.run] at hk ⊢
    match hrec : (r.step ev).2 with
    | [] =>
      rw [hrec] at hk
      rw [hrec] at hs
      simp only [List.nil_append] at hk ⊢
      rw [ih _ k hk, hs.1]
      simp [deliveredBytes]
    | [rec0] =>
      rw [hrec] at hk
      rw [hrec] at hs
      cases k with
      | zero =>
        simp only [List.singleton_append, List.getElem?_cons_zero, Option.some.injEq] at hk
        subst hk
        rw [hs.2.1 rec0 (List.mem_singleton.mpr rfl) chunk hv]
        simp [deliveredBytes, hv]
      | succ k1 =>
        simp only [List.singleton_append, List.getElem?_cons_succ] at hk
        rw [ih _ k1 hk, hs.1]
        simp [deliveredBytes, Nat.add_assoc]
    | _ :: _ :: _ =>
      have hlen := hs.2.2.2
      rw [hrec] at hlen
      simp at hlen

/-- Updating one element of a list keeps its length. -/
theorem length_updateAt {α : Type} (f : α → α) (index : Nat) (xs : List α) :
    (updateAt f index xs).length = xs.length := by
  induction xs generalizing index with
  | nil => simp [updateAt]
  | cons a rest ih =>
    cases index with
    | zero => simp [updateAt]
    | succ i => simp [updateAt, ih]

/-- A property that `f` preserves still holds of every element after one
element was updated with `f`. -/
theorem forall_mem_updateAt {α : Type} (P : α → Prop) (f : α → α)
    (hf : ∀ a, P a → P (f a)) (index : Nat) (xs : List α) (h : ∀ a ∈ xs, P a) :
    ∀ a ∈ updateAt f index xs, P a := by
  induction xs generalizing index with
  | nil => intro a ha; simp [updateAt] at ha
  | cons x rest ih =>
    cases index with
    | zero =>
      intro a ha
      simp only [updateAt, List.mem_cons] at ha
      rcases ha with rfl | ha
      · exact hf x (h x (List.mem_cons_self _ _))
      · exact h a (List.mem_cons_of_mem _ ha)
    | succ i =>
      intro a ha
      simp only [updateAt, List.mem_cons] at ha
      rcases ha with rfl | ha
      · exact h a (List.mem_cons_self _ _)
      · exact ih i (fun b hb => h b (List.mem_cons_of_mem _ hb)) a ha

/-- A range reader starts with a read capability that is not rejected. -/
theorem makeRangeReader_notRejected (imports : Imports) (s : PDFNodeStream) (start end_ : Int) :
    readNotRejected (s.makeRangeReader imports start end_).base._readCapability := by
  unfold PDFNodeStream.makeRangeReader
  split
  · simp only [RangeReader.base, PDFNodeStreamFsRangeReader.new]
    rw [(rangeReader_setReadableStream_frame _ _).1]
    exact readNotRejected_pending
  · exact readNotRejected_pending

/-- Every operation keeps the read capabilities of all readers not rejected. -/
theorem stream_step_notRejected (imports : Imports) (s : PDFNodeStream) (op : StreamOp)
    (h : readersNotRejected s) : readersNotRejected (s.step imports op) := by
  cases op with
  | getFullReader =>
    simp only [PDFNodeStream.step, PDFNodeStream.getFullReader]
    cases hf : s._fullRequest with
    | some r => simpa using h
    | none =>
      refine ⟨?_, h.2⟩
      intro r hr
      simp only [Option.some.injEq] at hr
      subst hr
      split <;> exact readNotRejected_pending
  | getRangeReader start end_ =>
    refine ⟨h.1, ?_⟩
    intro r hr
    simp only [PDFNodeStream.step, PDFNodeStream.getRangeReader, List.mem_append,
      List.mem_singleton] at hr
    rcases hr with hr | rfl
    · exact h.2 r hr
    · exact makeRangeReader_notRejected imports s start end_
  | fullEvent ev =>
    refine ⟨?_, h.2⟩
    intro r hr
    simp only [PDFNodeStream.step, Option.map_eq_some'] at hr
    obtain ⟨r0, hr0, rfl⟩ := hr
    exact (fullReader_step_spec imports s.toStreamInfo r0 ev).2.2.1 (h.1 r0 hr0)
  | rangeEvent index ev =>
    refine ⟨h.1, ?_⟩
    exact forall_mem_updateAt (fun r => readNotRejected r.base._readCapability) _
      (fun r hr => (rangeReader_step_spec r ev).2.2.1 hr) index _ h.2
  | cancelAllRequests reason =>
    constructor
    · intro r hr
      simp only [PDFNodeStream.step, PDFNodeStream.cancelAllRequests] at hr
      cases hf : s._fullRequest with
      | none => simp [hf] at hr
      | some r0 =>
        simp only [hf, Option.some.injEq] at hr
        subst hr
        exact (fullReader_step_spec imports s.toStreamInfo r0 (ReaderEvent.cancel reason)).2.2.1
          (h.1 r0 hf)
    · intro r hr
      simp only [PDFNodeStream.step, PDFNodeStream.cancelAllRequests, List.mem_map] at hr
      obtain ⟨r0, hr0, rfl⟩ := hr
      exact (rangeReader_step_spec r0 (ReaderEvent.cancel reason)).2.2.1 (h.2 r0 hr0)

/-- Every run keeps the read capabilities of all readers not rejected. -/
theorem stream_run_notRejected (imports : Imports) (ops : List StreamOp)
    (s : PDFNodeStream) (h : readersNotRejected s) :
    readersNotRejected (PDFNodeStream.run imports s ops) := by
  induction ops generalizing s with
  | nil => exact h
  | cons op rest ih => exact ih _ (stream_step_notRejected imports s op h)

/-- Range readers are only ever added, one by each call of `getRangeReader`. -/
theorem stream_run_length (imports : Imports) (ops : List StreamOp) (s : PDFNodeStream) :
    (PDFNodeStream.run imports s ops)._rangeRequestReaders.length
      = s._rangeRequestReaders.length + (ops.filter StreamOp.isGetRangeReader).length := by
  induction ops generalizing s with
  | nil => simp [PDFNodeStream.run]
  | cons op rest ih =>
    rw [PDFNodeStream.run, ih]
    cases op with
    | getFullReader =>
      simp only [PDFNodeStream.step, PDFNodeStream.getFullReader]
      cases hf : s._fullRequest <;> simp [StreamOp.isGetRangeReader]
    | getRangeReader start end_ =>
      simp [PDFNodeStream.step, PDFNodeStream.getRangeReader, StreamOp.isGetRangeReader]
      omega
    | fullEvent ev => simp [PDFNodeStream.step, StreamOp.isGetRangeReader]
    | rangeEvent index ev =>
      simp [PDFNodeStream.step, StreamOp.isGetRangeReader, length_updateAt]
    | cancelAllRequests reason =>
      simp [PDFNodeStream.step, PDFNodeStream.cancelAllRequests, StreamOp.isGetRangeReader]

/-- A full reader without a stream that is not done and whose read capability
is not rejected rejects the read after `cancel(reason)`: with `reason` when it
is truthy, and otherwise with the `TypeError` of calling `read` on the missing
stream. -/
theorem fullReader_read_after_cancel (r : BaseFullReader) (reason : Reason)
    (answer : Option Chunk) (hs : r._readableStream = none) (hd : r._done = false)
    (hn : readNotRejected r._readCapability) :
    ((r.cancel reason).read answer).result =
      (match reason with
        | Reason.error e => ReadResult.rejected e
        | Reason.falsy _ =>
          ReadResult.rejected (JSError.typeError "Cannot read property 'read' of null")) ∧
    (r.cancel reason)._storedError = reason := by
  cases hc : r._readCapability with
  | rejected e => exact absurd hc (hn e)
  | pending =>
    cases reason <;>
      simp [BaseFullReader.cancel, hs, BaseFullReader._error, BaseFullReader.read, hc, hd,
        Capability.resolve]
  | resolved =>
    cases reason <;>
      simp [BaseFullReader.cancel, hs, BaseFullReader._error, BaseFullReader.read, hc, hd,
        Capability.resolve]

/-- A range reader without a stream that is not done and whose read capability
is not rejected rejects the read after `cancel(reason)`: with `reason` when it
is truthy, and otherwise with the `TypeError` of calling `read` on the missing
stream. -/
theorem rangeReader_read_after_cancel (r : BaseRangeReader) (reason : Reason)
    (answer : Option Chunk) (hs : r._readableStream = none) (hd : r._done = false)
    (hn : readNotRejected r._readCapability) :
    ((r.cancel reason).read answer).result =
      (match reason with
        | Reason.error e => ReadResult.rejected e
        | Reason.falsy _ =>
          ReadResult.rejected (JSError.typeError "Cannot read property 'read' of null")) ∧
    (r.cancel reason)._storedError = reason := by
  cases hc : r._readCapability with
  | rejected e => exact absurd hc (hn e)
  | pending =>
    cases reason <;>
      simp [BaseRangeReader.cancel, hs, BaseRangeReader._error, BaseRangeReader.read, hc, hd,
        Capability.resolve]
  | resolved =>
    cases reason <;>
      simp [BaseRangeReader.cancel, hs, BaseRangeReader._error, BaseRangeReader.read, hc, hd,
        Capability.resolve]

/-- C5, as stated, fails for a falsy reason: on an HTTP stream with a full
reader and one range reader, neither with a readable stream yet, after
`cancelAllRequests()` (the reason is `undefined`) both readers hold
`undefined` as their stored error, which fails the test `if
(this._storedError)`, and the next `read()` of each is rejected with the
`TypeError` of calling `read` on the missing stream, not with the reason. -/
theorem cancelAllRequests_falsy_reason_counterexample :
    (((PDFNodeStream.run
        { validateRangeRequestCapabilities := fun _ _ _ _ => (false, none)
          extractFilenameFromHeader := fun _ => none
          decodeURIComponent := fun p => p }
        (PDFNodeStream.new
          { url := "http://host/a.pdf", length := none, disableRange := false,
            rangeChunkSize := some 65536, disableStream := false, httpHeaders := none }
          { protocol := "http:", auth := none, host := some "host", hostname := some "host",
            port := none, path := "/a.pdf", href := "http://host/a.pdf" })
        [StreamOp.getFullReader, StreamOp.getRangeReader 0 10]).cancelAllRequests
          (Reason.falsy Falsy.undefined))._fullRequest.map
        (fun r => (r.base._storedError, (r.read none).result))
      = some (Reason.falsy Falsy.undefined,
          ReadResult.rejected (JSError.typeError "Cannot read property 'read' of null"))) ∧
    (((PDFNodeStream.run
        { validateRangeRequestCapabilities := fun _ _ _ _ => (false, none)
          extractFilenameFromHeader := fun _ => none
          decodeURIComponent := fun p => p }
        (PDFNodeStream.new
          { url := "http://host/a.pdf", length := none, disableRange := false,
            rangeChunkSize := some 65536, disableStream := false, httpHeaders := none }
          { protocol := "http:", auth := none, host := some "host", hostname := some "host",
            port := none, path := "/a.pdf", href := "http://host/a.pdf" })
        [StreamOp.getFullReader, StreamOp.getRangeReader 0 10]).cancelAllRequests
          (Reason.falsy Falsy.undefined))._rangeRequestReaders.map
        (fun r => (r.base._storedError, (r.read none).result))
      = [(Reason.falsy Falsy.undefined,
          ReadResult.rejected (JSError.typeError "Cannot read property 'read' of null"))]) :=
  ⟨rfl, rfl⟩

/-- C5 (amended): after any history of a `PDFNodeStream`,
`cancelAllRequests(reason)` calls `cancel(reason)` on the full reader (if one
was created) and on every range reader `getRangeReader` ever returned (all of
them are still listed), and each of these readers that had no readable stream
yet and was not done rejects its next `read()`: with `reason` when the reason
is truthy, and with the `TypeError` of calling `read` on the missing stream
when it is falsy. -/
theorem cancelAllRequests_reaches_every_reader (imports : Imports) (source : Source)
    (parsedUrl : Url) (ops : List StreamOp) (reason : Reason) :
    ((PDFNodeStream.run imports (PDFNodeStream.new source parsedUrl) ops)._rangeRequestReaders.length
      = (ops.filter StreamOp.isGetRangeReader).length) ∧
    ((PDFNodeStream.run imports (PDFNodeStream.new source parsedUrl) ops).cancelAllRequests
        reason)._fullRequest
      = (PDFNodeStream.run imports (PDFNodeStream.new source parsedUrl) ops)._fullRequest.map
          (fun r => r.cancel reason) ∧
    ((PDFNodeStream.run imports (PDFNodeStream.new source parsedUrl) ops).cancelAllRequests
        reason)._rangeRequestReaders
      = (PDFNodeStream.run imports (PDFNodeStream.new source parsedUrl) ops)._rangeRequestReaders.map
          (fun r => r.cancel reason) ∧
    (∀ r : FullReader,
      (PDFNodeStream.run imports (PDFNodeStream.new source parsedUrl) ops)._fullRequest = some r →
      r.base._readableStream = none → r.base._done = false →
      ∀ answer, ((r.cancel reason).read answer).result =
        match reason with
        | Reason.error e => ReadResult.rejected e
        | Reason.falsy _ =>
          ReadResult.rejected (JSError.typeError "Cannot read property 'read' of null")) ∧
    (∀ r : RangeReader,
      r ∈ (PDFNodeStream.run imports (PDFNodeStream.new source parsedUrl) ops)._rangeRequestReaders →
      r.base._readableStream = none → r.base._done = false →
      ∀ answer, ((r.cancel reason).read answer).result =
        match reason with
        | Reason.error e => ReadResult.rejected e
        | Reason.falsy _ =>
          ReadResult.rejected (JSError.typeError "Cannot read property 'read' of null")) := by
  have hinv : readersNotRejected
      (PDFNodeStream.run imports (PDFNodeStream.new source parsedUrl) ops) := by
    apply stream_run_notRejected
    constructor
    · intro r hr
      simp [PDFNodeStream.new] at hr
    · intro r hr
      simp [PDFNodeStream.new] at hr
  refine ⟨?_, ?_, rfl, ?_, ?_⟩
  · rw [stream_run_length]
    simp [PDFNodeStream.new]
  · simp only [PDFNodeStream.cancelAllRequests]
    cases (PDFNodeStream.run imports (PDFNodeStream.new source parsedUrl) ops)._fullRequest <;> rfl
  · intro r hr hs hd answer
    simp only [FullReader.read, FullReader.cancel, fullReader_base_withBase]
    exact (fullReader_read_after_cancel r.base reason answer hs hd (hinv.1 r hr)).1
  · intro r hr hs hd answer
    simp only [RangeReader.read, RangeReader.cancel, rangeReader_base_withBase]
    exact (rangeReader_read_after_cancel r.base reason answer hs hd (hinv.2 r hr)).1

/-- Witness for C5 (amended): an HTTP stream on which the full reader and one
range reader were requested; after `cancelAllRequests` with an
`AbortException` each of them rejects its next read with that exception. -/
theorem cancelAllRequests_reaches_every_reader_witness :
    ((((FullReader.http (PDFNodeStreamFullReader.new
          (StreamInfo.new
            { url := "http://host/a.pdf", length := none, disableRange := false,
              rangeChunkSize := some 65536, disableStream := false, httpHeaders := none }
            { protocol := "http:", auth := none, host := some "host", hostname := some "host",
              port := none, path := "/a.pdf", href := "http://host/a.pdf" }))).cancel
        (Reason.error (JSError.abortException "Worker was terminated"))).read none).result
      = ReadResult.rejected (JSError.abortException "Worker was terminated")) ∧
    ((((RangeReader.http (PDFNodeStreamRangeReader.new
          (StreamInfo.new
            { url := "http://host/a.pdf", length := none, disableRange := false,
              rangeChunkSize := some 65536, disableStream := false, httpHeaders := none }
            { protocol := "http:", auth := none, host := some "host", hostname := some "host",
              port := none, path := "/a.pdf", href := "http://host/a.pdf" }) 0 10)).cancel
        (Reason.error (JSError.abortException "Worker was terminated"))).read none).result
      = ReadResult.rejected (JSError.abortException "Worker was terminated")) :=
  ⟨(cancelAllRequests_reaches_every_reader
      { validateRangeRequestCapabilities := fun _ _ _ _ => (false, none)
        extractFilenameFromHeader := fun _ => none
        decodeURIComponent := fun p => p }
      { url := "http://host/a.pdf", length := none, disableRange := false,
        rangeChunkSize := some 65536, disableStream := false, httpHeaders := none }
      { protocol := "http:", auth := none, host := some "host", hostname := some "host",
        port := none, path := "/a.pdf", href := "http://host/a.pdf" }
      [StreamOp.getFullReader, StreamOp.getRangeReader 0 10]
      (Reason.error (JSError.abortException "Worker was terminated"))).2.2.2.1
    _ rfl rfl rfl none,
   (cancelAllRequests_reaches_every_reader
      { validateRangeRequestCapabilities := fun _ _ _ _ => (false, none)
        extractFilenameFromHeader := fun _ => none
        decodeURIComponent := fun p => p }
      { url := "http://host/a.pdf", length := none, disableRange := false,
        rangeChunkSize := some 65536, disableStream := false, httpHeaders := none }
      { protocol := "http:", auth := none, host := some "host", hostname := some "host",
        port := none, path := "/a.pdf", href := "http://host/a.pdf" }
      [StreamOp.getFullReader, StreamOp.getRangeReader 0 10]
      (Reason.error (JSError.abortException "Worker was terminated"))).2.2.2.2
    _ (List.mem_singleton.mpr rfl) rfl rfl none⟩

/-- C6, as stated, fails for the range reader: with `onProgress` set, a read
that delivers a three-byte chunk calls the listener once with the object
`{ loaded: 3 }`, which has no `total` field. -/
theorem range_reader_progress_counterexample :
    ((RangeReader.http (PDFNodeStreamRangeReader.new
          (StreamInfo.new
            { url := "http://host/a.pdf", length := some 1000, disableRange := false,
              rangeChunkSize := some 65536, disableStream := false, httpHeaders := none }
            { protocol := "http:", auth := none, host := some "host", hostname := some "host",
              port := none, path := "/a.pdf", href := "http://host/a.pdf" }) 0 10)).run
        [ReaderEvent.setOnProgress (some { id := 1 }),
         ReaderEvent.response { statusCode := 206, status := none, headers := [] },
         ReaderEvent.readable,
         ReaderEvent.read (some [37, 80, 68])]).2
      = [{ listener := some { id := 1 }
           result := ReadResult.value [37, 80, 68]
           progress := [({ id := 1 }, [("loaded", some 3)])] }] ∧
    List.lookup "total" [("loaded", some 3)] = (none : Option (Option Nat)) := by
  constructor
  · rfl
  · rfl

/-- C6 (amended): for every chunk delivered by `read()` while `onProgress` is
set, `onProgress` is called once with an object whose `loaded` field is the sum
of the lengths of all chunks that reader has delivered so far; the object of
the full reader also carries a `total` field, the object of the range reader
has `loaded` as its only field.  Without a listener nothing is called. -/
theorem progress_reports_loaded (imports : Imports) (stream : StreamInfo) (start end_ : Int)
    (full : FullReader) (range : RangeReader)
    (hfull : full = FullReader.http (PDFNodeStreamFullReader.new stream) ∨
             full = FullReader.fs (PDFNodeStreamFsFullReader.new imports stream))
    (hrange : range = RangeReader.http (PDFNodeStreamRangeReader.new stream start end_) ∨
              range = RangeReader.fs (PDFNodeStreamFsRangeReader.new imports stream start end_))
    (events : List ReaderEvent) (k : Nat) (rec : ReadRecord) (chunk : Chunk)
    (hv : rec.result = ReadResult.value chunk) :
    ((full.run imports stream events).2[k]? = some rec →
      (rec.listener = none → rec.progress = []) ∧
      (∀ listener, rec.listener = some listener →
        ∃ total : Option Nat,
          rec.progress =
            [(listener,
              [("loaded", some (deliveredBytes ((full.run imports stream events).2.take (k + 1)))),
               ("total", total)])])) ∧
    ((range.run events).2[k]? = some rec →
      (rec.listener = none → rec.progress = []) ∧
      (∀ listener, rec.listener = some listener →
        rec.progress =
          [(listener,
            [("loaded", some (deliveredBytes ((range.run events).2.take (k + 1))))])])) := by
  have hfull0 : full.base._loaded = 0 := by
    rcases hfull with rfl | rfl <;> rfl
  have hrange0 : range.base._loaded = 0 := by
    rcases hrange with rfl | rfl
    · rfl
    · simp only [RangeReader.base, PDFNodeStreamFsRangeReader.new]
      rw [(rangeReader_setReadableStream_frame _ _).2.1]
      rfl
  constructor
  · intro hk
    obtain ⟨total, ht⟩ := fullReader_run_progress imports stream events full k rec hk chunk hv
    rw [hfull0, Nat.zero_add] at ht
    constructor
    · intro hl
      rw [ht, hl]
    · intro listener hl
      refine ⟨total, ?_⟩
      rw [ht, hl]
  · intro hk
    have ht := rangeReader_run_progress events range k rec hk chunk hv
    rw [hrange0, Nat.zero_add] at ht
    constructor
    · intro hl
      rw [ht, hl]
    · intro listener hl
      rw [ht, hl]

/-- Witness for C6 (amended): with a listener set, an HTTP full reader that
delivers a three-byte chunk reports `loaded: 3` together with a `total` field,
and an HTTP range reader that does the same reports `loaded: 3` alone. -/
theorem progress_reports_loaded_witness :
    (∃ total : Option Nat,
      ([({ id := 1 }, [("loaded", some 3), ("total", some 1000)])] :
          List (ProgressListener × ProgressData))
        = [({ id := 1 },
            [("loaded",
              some (deliveredBytes
                (((FullReader.http (PDFNodeStreamFullReader.new
                    (StreamInfo.new
                      { url := "http://host/a.pdf", length := some 1000, disableRange := false,
                        rangeChunkSize := some 65536, disableStream := false,
                        httpHeaders := none }
                      { protocol := "http:", auth := none, host := some "host",
                        hostname := some "host", port := none, path := "/a.pdf",
                        href := "http://host/a.pdf" }))).run
                    { validateRangeRequestCapabilities := fun _ _ _ _ => (false, none)
                      extractFilenameFromHeader := fun _ => none
                      decodeURIComponent := fun p => p }
                    (StreamInfo.new
                      { url := "http://host/a.pdf", length := some 1000, disableRange := false,
                        rangeChunkSize := some 65536, disableStream := false,
                        httpHeaders := none }
                      { protocol := "http:", auth := none, host := some "host",
                        hostname := some "host", port := none, path := "/a.pdf",
                        href := "http://host/a.pdf" })
                    [ReaderEvent.setOnProgress (some { id := 1 }),
                     ReaderEvent.response { statusCode := 200, status := none, headers := [] },
                     ReaderEvent.readable,
                     ReaderEvent.read (some [37, 80, 68])]).2.take (0 + 1)))),
             ("total", total)])]) ∧
    (([({ id := 1 }, [("loaded", some 3)])] : List (ProgressListener × ProgressData))
      = [({ id := 1 },
          [("loaded",
            some (deliveredBytes
              (((RangeReader.http (PDFNodeStreamRangeReader.new
                  (StreamInfo.new
                    { url := "http://host/a.pdf", length := some 1000, disableRange := false,
                      rangeChunkSize := some 65536, disableStream := false,
                      httpHeaders := none }
                    { protocol := "http:", auth := none, host := some "host",
                      hostname := some "host", port := none, path := "/a.pdf",
                      href := "http://host/a.pdf" }) 0 10)).run
                  [ReaderEvent.setOnProgress (some { id := 1 }),
                   ReaderEvent.response { statusCode := 206, status := none, headers := [] },
                   ReaderEvent.readable,
                   ReaderEvent.read (some [37, 80, 68])]).2.take (0 + 1))))])]) :=
  ⟨((progress_reports_loaded
      { validateRangeRequestCapabilities := fun _ _ _ _ => (false, none)
        extractFilenameFromHeader := fun _ => none
        decodeURIComponent := fun p => p }
      (StreamInfo.new
        { url := "http://host/a.pdf", length := some 1000, disableRange := false,
          rangeChunkSize := some 65536, disableStream := false, httpHeaders := none }
        { protocol := "http:", auth := none, host := some "host", hostname := some "host",
          port := none, path := "/a.pdf", href := "http://host/a.pdf" })
      0 10 _ _ (Or.inl rfl) (Or.inl rfl)
      [ReaderEvent.setOnProgress (some { id := 1 }),
       ReaderEvent.response { statusCode := 200, status := none, headers := [] },
       ReaderEvent.readable,
       ReaderEvent.read (some [37, 80, 68])]
      0
      { listener := some { id := 1 }
        result := ReadResult.value [37, 80, 68]
        progress := [({ id := 1 }, [("loaded", some 3), ("total", some 1000)])] }
      [37, 80, 68] rfl).1 rfl).2 { id := 1 } rfl,
   ((progress_reports_loaded
      { validateRangeRequestCapabilities := fun _ _ _ _ => (false, none)
        extractFilenameFromHeader := fun _ => none
        decodeURIComponent := fun p => p }
      (StreamInfo.new
        { url := "http://host/a.pdf", length := some 1000, disableRange := false,
          rangeChunkSize := some 65536, disableStream := false, httpHeaders := none }
        { protocol := "http:", auth := none, host := some "host", hostname := some "host",
          port := none, path := "/a.pdf", href := "http://host/a.pdf" })
      0 10 _ _ (Or.inl rfl) (Or.inl rfl)
      [ReaderEvent.setOnProgress (some { id := 1 }),
       ReaderEvent.response { statusCode := 206, status := none, headers := [] },
       ReaderEvent.readable,
       ReaderEvent.read (some [37, 80, 68])]
      0
      { listener := some { id := 1 }
        result := ReadResult.value [37, 80, 68]
        progress := [({ id := 1 }, [("loaded", some 3)])] }
      [37, 80, 68] rfl).2 rfl).2 { id := 1 } rfl⟩

/-- The branch of `handleResponse` that tests `response.status`: for a response
object that does carry a field `status` equal to 404, `handleResponse` throws
the `MissingPDFException` out of the response callback and leaves the reader
as it was, with `headersReady` pending, no error stored and no stream
installed. -/
theorem handleResponse_status_field_404_throws (imports : Imports) (stream : StreamInfo)
    (statusCode : Int) (headers : List (String × String)) :
    ((PDFNodeStreamFullReader.new stream).handleResponse imports stream
        { statusCode := statusCode, status := some 404, headers := headers }).2
      = some (JSError.missingPDFException "Missing PDF \"[object Object]\".") ∧
    ((PDFNodeStreamFullReader.new stream).handleResponse imports stream
        { statusCode := statusCode, status := some 404, headers := headers }).1
      = PDFNodeStreamFullReader.new stream ∧
    (PDFNodeStreamFullReader.new stream).headersReady = Capability.pending ∧
    (PDFNodeStreamFullReader.new stream)._storedError = Reason.falsy Falsy.null ∧
    (PDFNodeStreamFullReader.new stream)._readableStream = none := by
  refine ⟨?_, ?_, rfl, rfl, rfl⟩
  · simp [PDFNodeStreamFullReader.handleResponse, urlModuleText]
  · simp [PDFNodeStreamFullReader.handleResponse]

/-- C7, evaluated: the response that Node hands to the callback of the full
request carries the status of the HTTP response in `statusCode` and has no
field `status`, so for a response with the status 404 the test `status ===
404` of `handleResponse` fails: `handleResponse` throws nothing, resolves
`headersReady` (it is not rejected) and installs the response as the readable
stream.  The request's `error` listener, by contrast, rejects
`headersReady`. -/
theorem handleResponse_404_resolves_headers (imports : Imports) (stream : StreamInfo)
    (headers : List (String × String)) (reason : JSError) :
    ((PDFNodeStreamFullReader.new stream).handleResponse imports stream
        (Response.ofNode 404 headers)).2 = none ∧
    ((PDFNodeStreamFullReader.new stream).handleResponse imports stream
        (Response.ofNode 404 headers)).1.headersReady = Capability.resolved ∧
    (∀ e, ((PDFNodeStreamFullReader.new stream).handleResponse imports stream
        (Response.ofNode 404 headers)).1.headersReady ≠ Capability.rejected e) ∧
    (∃ readable,
      ((PDFNodeStreamFullReader.new stream).handleResponse imports stream
        (Response.ofNode 404 headers)).1._readableStream = some readable ∧
      readable.origin = StreamOrigin.response none headers) ∧
    ((PDFNodeStreamFullReader.new stream).onRequestError reason).headersReady
      = Capability.rejected reason := by
  have hres : ((PDFNodeStreamFullReader.new stream).handleResponse imports stream
      (Response.ofNode 404 headers)).1.headersReady = Capability.resolved := by
    simp only [PDFNodeStreamFullReader.handleResponse, BaseFullReader.headersReady,
      Response.ofNode]
    rw [if_neg (by simp)]
    simp only [BaseFullReader._setReadableStream, BaseFullReader._error,
      PDFNodeStreamFullReader.new, BaseFullReader.new, Capability.resolve]
    split <;> split <;> rfl
  refine ⟨?_, hres, ?_, ?_, ?_⟩
  · simp [PDFNodeStreamFullReader.handleResponse, Response.ofNode]
  · intro e he
    rw [hres] at he
    cases he
  · simp only [PDFNodeStreamFullReader.handleResponse, Response.ofNode]
    rw [if_neg (by simp)]
    simp only [BaseFullReader._setReadableStream, BaseFullReader._error,
      PDFNodeStreamFullReader.new, BaseFullReader.new, Response.toReadable]
    cases h1 : stream.source.disableStream <;> cases h2 : stream.source.disableRange <;>
      simp [Readable.destroy]
  · simp [PDFNodeStreamFullReader.new, BaseFullReader.new, BaseFullReader.headersReady,
      PDFNodeStreamFullReader.onRequestError, Capability.reject]

/-- C8, evaluated: when the request of an HTTP range reader, the request of an
HTTP full reader or the `lstat` of a filesystem full reader reports an error
before a stream is installed, the error is stored but the read capability is
not resolved, so the next `read()` stays pending; only the method `_error`
makes `read()` reject. -/
theorem transport_error_read_stays_pending (imports : Imports) (stream : StreamInfo)
    (start end_ : Int) (reason : JSError) (answer : Option Chunk) :
    (((PDFNodeStreamRangeReader.new stream start end_).onRequestError reason)._storedError
        = Reason.error reason ∧
      (((PDFNodeStreamRangeReader.new stream start end_).onRequestError
          reason).toBaseRangeReader.read answer).result = ReadResult.pending) ∧
    (((PDFNodeStreamFullReader.new stream).onRequestError reason)._storedError
        = Reason.error reason ∧
      (((PDFNodeStreamFullReader.new stream).onRequestError
          reason).toBaseFullReader.read answer).result = ReadResult.pending) ∧
    (((PDFNodeStreamFsFullReader.new imports stream).onLstat (Except.error reason))._storedError
        = Reason.error reason ∧
      (((PDFNodeStreamFsFullReader.new imports stream).onLstat
          (Except.error reason)).toBaseFullReader.read answer).result = ReadResult.pending) ∧
    (((BaseRangeReader.new stream)._error (Reason.error reason)).read answer).result
      = ReadResult.rejected reason := by
  refine ⟨⟨?_, ?_⟩, ⟨?_, ?_⟩, ⟨?_, ?_⟩, ?_⟩ <;>
    simp [PDFNodeStreamRangeReader.new, PDFNodeStreamRangeReader.onRequestError,
      PDFNodeStreamFullReader.new, PDFNodeStreamFullReader.onRequestError,
      PDFNodeStreamFsFullReader.new, PDFNodeStreamFsFullReader.onLstat,
      BaseRangeReader.new, BaseFullReader.new, BaseRangeReader.read, BaseFullReader.read,
      BaseRangeReader._error, Capability.resolve]

/-- Every event on a filesystem full reader leaves a filesystem full reader
with the same `_isRangeSupported`. -/
theorem fsFullReader_step_frame (imports : Imports) (stream : StreamInfo)
    (f : PDFNodeStreamFsFullReader) (ev : ReaderEvent) :
    ∃ f1 : PDFNodeStreamFsFullReader,
      ((FullReader.fs f).step imports stream ev).1 = FullReader.fs f1 ∧
      f1._isRangeSupported = f._isRangeSupported ∧
      f1._disableRange = f._disableRange := by
  cases ev with
  | response response => exact ⟨f, rfl, rfl, rfl⟩
  | requestError reason => exact ⟨f, rfl, rfl, rfl⟩
  | lstat result =>
    exact ⟨f.onLstat result, rfl, (onLstat_frame f result).2.2.1,
      (onLstat_frame f result).2.2.2.1⟩
  | readable =>
    simp only [FullReader.step]
    split
    · exact ⟨_, rfl, rfl, rfl⟩
    · exact ⟨f, rfl, rfl, rfl⟩
  | streamEnd =>
    simp only [FullReader.step]
    split
    · exact ⟨_, rfl, rfl, rfl⟩
    · exact ⟨f, rfl, rfl, rfl⟩
  | streamError reason =>
    simp only [FullReader.step]
    split
    · exact ⟨_, rfl, rfl, rfl⟩
    · exact ⟨f, rfl, rfl, rfl⟩
  | read answer =>
    exact ⟨_, rfl, (fullReader_read_spec f.toBaseFullReader answer).2.2.2.2.1,
      (fullReader_read_spec f.toBaseFullReader answer).2.2.2.2.2⟩
  | setOnProgress listener => exact ⟨_, rfl, rfl, rfl⟩
  | cancel reason =>
    refine ⟨_, rfl, ?_, ?_⟩ <;>
    · simp only [FullReader.base, BaseFullReader.cancel]
      cases f._readableStream <;> rfl

/-- Every run of events on a filesystem full reader leaves `_isRangeSupported`
and `_disableRange` as they were. -/
theorem fsFullReader_run_frame (imports : Imports) (stream : StreamInfo)
    (events : List ReaderEvent) (f : PDFNodeStreamFsFullReader) :
    ((FullReader.fs f).run imports stream events).1.base._isRangeSupported
      = f._isRangeSupported ∧
    ((FullReader.fs f).run imports stream events).1.base._disableRange
      = f._disableRange := by
  induction events generalizing f with
  | nil => exact ⟨rfl, rfl⟩
  | cons ev rest ih =>
    obtain ⟨f1, h1, h2, h3⟩ := fsFullReader_step_frame imports stream f ev
    simp only [FullReader.run]
    rw [h1, (ih f1).1, (ih f1).2, h2, h3]
    exact ⟨rfl, rfl⟩

/-- C9, evaluated: for a source that does not set `disableRange` and gives no
`rangeChunkSize`, the constructor sets `_disableRange` to true, yet
`isRangeSupported` is true; for the filesystem full reader it stays true
whatever happens to the reader afterwards. -/
theorem fs_full_reader_advertises_range (imports : Imports) (stream : StreamInfo)
    (events : List ReaderEvent)
    (hd : stream.source.disableRange = false)
    (hc : truthyNat stream.source.rangeChunkSize = false) :
    (BaseFullReader.new stream)._disableRange = true ∧
    (BaseFullReader.new stream).isRangeSupported = true ∧
    ((FullReader.fs (PDFNodeStreamFsFullReader.new imports stream)).run imports stream
        events).1.base._disableRange = true ∧
    ((FullReader.fs (PDFNodeStreamFsFullReader.new imports stream)).run imports stream
        events).1.base.isRangeSupported = true := by
  refine ⟨?_, ?_, ?_, ?_⟩
  · simp [BaseFullReader.new, hd, hc]
  · simp [BaseFullReader.new, BaseFullReader.isRangeSupported, hd]
  · rw [(fsFullReader_run_frame imports stream events _).2]
    simp [PDFNodeStreamFsFullReader.new, BaseFullReader.new, hd, hc]
  · rw [BaseFullReader.isRangeSupported, (fsFullReader_run_frame imports stream events _).1]
    simp [PDFNodeStreamFsFullReader.new, BaseFullReader.new, hd]

/-- When the source sets `disableRange`, the filesystem full reader never
advertises range support. -/
theorem fs_full_reader_disableRange_set (imports : Imports) (stream : StreamInfo)
    (events : List ReaderEvent) (hd : stream.source.disableRange = true) :
    ((FullReader.fs (PDFNodeStreamFsFullReader.new imports stream)).run imports stream
        events).1.base.isRangeSupported = false := by
  rw [BaseFullReader.isRangeSupported, (fsFullReader_run_frame imports stream events _).1]
  simp [PDFNodeStreamFsFullReader.new, BaseFullReader.new, hd]

/-- Witness for C9: a file source without `rangeChunkSize`, read to its end. -/
theorem fs_full_reader_advertises_range_witness :
    ((FullReader.fs (PDFNodeStreamFsFullReader.new
        { validateRangeRequestCapabilities := fun _ _ _ _ => (false, none)
          extractFilenameFromHeader := fun _ => none
          decodeURIComponent := fun p => p }
        (StreamInfo.new
          { url := "file:///tmp/a.pdf", length := none, disableRange := false,
            rangeChunkSize := none, disableStream := false, httpHeaders := none }
          { protocol := "file:", auth := none, host := none, hostname := none,
            port := none, path := "/tmp/a.pdf", href := "file:///tmp/a.pdf" }))).run
      { validateRangeRequestCapabilities := fun _ _ _ _ => (false, none)
        extractFilenameFromHeader := fun _ => none
        decodeURIComponent := fun p => p }
      (StreamInfo.new
        { url := "file:///tmp/a.pdf", length := none, disableRange := false,
          rangeChunkSize := none, disableStream := false, httpHeaders := none }
        { protocol := "file:", auth := none, host := none, hostname := none,
          port := none, path := "/tmp/a.pdf", href := "file:///tmp/a.pdf" })
      [ReaderEvent.lstat (Except.ok 3), ReaderEvent.readable,
       ReaderEvent.read (some [37, 80, 68]), ReaderEvent.streamEnd]).1.base.isRangeSupported
      = true :=
  (fs_full_reader_advertises_range
      { validateRangeRequestCapabilities := fun _ _ _ _ => (false, none)
        extractFilenameFromHeader := fun _ => none
        decodeURIComponent := fun p => p }
      (StreamInfo.new
        { url := "file:///tmp/a.pdf", length := none, disableRange := false,
          rangeChunkSize := none, disableStream := false, httpHeaders := none }
        { protocol := "file:", auth := none, host := none, hostname := none,
          port := none, path := "/tmp/a.pdf", href := "file:///tmp/a.pdf" })
      [ReaderEvent.lstat (Except.ok 3), ReaderEvent.readable,
       ReaderEvent.read (some [37, 80, 68]), ReaderEvent.streamEnd]
      rfl rfl).2.2.2

end NodeStream

namespace Viewer

/-- A push onto a cache that is not full appends the view and updates
nothing. -/
theorem cache_push_not_full (c : Cache) (view : View) (h : c.data.length < c.size) :
    c.push view = ({ c with data := c.data ++ [view] }, []) := by
  have h1 : ¬ (c.data ++ [view]).length > c.size := by
    simp only [List.length_append, List.length_singleton]
    omega
  simp only [Cache.push, if_neg h1]

/-- A push onto a cache that holds `size` views or more appends the view, drops
the first of the views then held and calls `update()` on it. -/
theorem cache_push_full (c : Cache) (view : View) (h : c.size ≤ c.data.length) :
    ∃ first rest, c.data ++ [view] = first :: rest ∧
      c.push view = ({ c with data := rest }, [first]) := by
  have h1 : (c.data ++ [view]).length > c.size := by
    simp only [List.length_append, List.length_singleton]
    omega
  simp only [Cache.push, if_pos h1]
  cases hd : c.data ++ [view] with
  | nil => simp at hd
  | cons first rest => exact ⟨first, rest, rfl, rfl⟩

/-- A push never changes `size`. -/
theorem cache_push_size (c : Cache) (view : View) : (c.push view).1.size = c.size := by
  simp only [Cache.push]
  split
  · split <;> rfl
  · rfl

/-- Pushing `views` onto a cache within its bound keeps the last `size` of
the views held or pushed, in push order, and updates the others, oldest
first. -/
theorem cache_pushAll_eq (views : List View) (c : Cache) (h : c.data.length ≤ c.size) :
    c.pushAll views =
      ({ c with data := (c.data ++ views).drop ((c.data ++ views).length - c.size) },
       (c.data ++ views).take ((c.data ++ views).length - c.size)) := by
  induction views generalizing c with
  | nil =>
    have h0 : c.data.length - c.size = 0 := by omega
    simp [Cache.pushAll, h0]
  | cons view rest ih =>
    simp only [Cache.pushAll]
    rcases Nat.lt_or_ge c.data.length c.size with hlt | hge
    · rw [cache_push_not_full c view hlt]
      have hb : (c.data ++ [view]).length ≤ c.size := by
        simp only [List.length_append, List.length_singleton]
        omega
      rw [ih { c with data := c.data ++ [view] } hb]
      simp
    · obtain ⟨first, tail, hd, hp⟩ := cache_push_full c view hge
      have hlen : tail.length = c.size := by
        have hl := congrArg List.length hd
        simp only [List.length_append, List.length_cons, List.length_nil] at hl
        omega
      rw [hp]
      rw [ih { c with data := tail } (by simp [hlen])]
      have hall : c.data ++ view :: rest = first :: (tail ++ rest) := by
        rw [← List.cons_append, ← hd]
        simp
      simp only [hall, List.length_cons, List.length_append, hlen]
      have e1 : c.size + rest.length + 1 - c.size = (c.size + rest.length - c.size) + 1 := by
        omega
      rw [e1]
      simp

/-- C10: starting from an empty `Cache(size)`, after every sequence of pushes
the cache holds at most `size` views, namely the last `size` views pushed, in
push order, and `update()` was called on the others; a push onto a cache that
is not full adds the view and updates nothing; a push onto a full cache drops
exactly one view, the earliest-pushed one then held, calls `update()` on
exactly that view and keeps the others in push order, so the cache stays
full. -/
theorem cache_bounded_fifo (size : Nat) (views : List View) (view : View) (c : Cache)
    (hc : c = ((Cache.new size).pushAll views).1) :
    c.size = size ∧
    c.data.length ≤ size ∧
    c.data = views.drop (views.length - size) ∧
    ((Cache.new size).pushAll views).2 = views.take (views.length - size) ∧
    (c.data.length < size →
      c.push view = ({ c with data := c.data ++ [view] }, [])) ∧
    (c.data.length = size →
      ∃ first rest, c.data ++ [view] = first :: rest ∧
        c.push view = ({ c with data := rest }, [first]) ∧
        rest.length = size ∧
        (0 < size → c.data.head? = some first)) ∧
    (c.push view).1.data.length ≤ size := by
  have hall := cache_pushAll_eq views (Cache.new size) (by simp [Cache.new])
  simp only [Cache.new, List.nil_append] at hall
  have hdata : c.data = views.drop (views.length - size) := by
    rw [hc]
    simp only [Cache.new, hall]
  have hsize : c.size = size := by
    rw [hc]
    simp only [Cache.new, hall]
  have hlen : c.data.length ≤ size := by
    rw [hdata, List.length_drop]
    omega
  have hfull : c.data.length = size →
      ∃ first rest, c.data ++ [view] = first :: rest ∧
        c.push view = ({ c with data := rest }, [first]) ∧
        rest.length = size ∧
        (0 < size → c.data.head? = some first) := by
    intro hfull
    obtain ⟨first, rest, hd, hp⟩ := cache_push_full c view (by omega)
    refine ⟨first, rest, hd, hp, ?_, ?_⟩
    · have hl := congrArg List.length hd
      simp only [List.length_append, List.length_cons, List.length_nil] at hl
      omega
    · intro hpos
      cases hcd : c.data with
      | nil =>
        rw [hcd] at hfull
        simp at hfull
        omega
      | cons x xs =>
        rw [hcd] at hd
        simp only [List.cons_append, List.cons.injEq] at hd
        simp [hd.1]
  refine ⟨hsize, hlen, hdata, ?_, ?_, hfull, ?_⟩
  · simp only [Cache.new, hall]
  · intro hlt
    exact cache_push_not_full c view (by omega)
  · rcases Nat.lt_or_ge c.data.length size with hlt | hge
    · rw [cache_push_not_full c view (by omega)]
      simp only [List.length_append, List.length_singleton]
      omega
    · obtain ⟨first, rest, _, hp, hr, _⟩ := hfull (by omega)
      rw [hp]
      simp only [hr, le_refl]

/-- Witness for C10: a cache of size two after the views 1, 2, 3 holds 2, 3
and has updated 1; pushing view 4 drops and updates view 2 and leaves 3, 4. -/
theorem cache_bounded_fifo_witness :
    (((Cache.new 2).pushAll [{ id := 1 }, { id := 2 }, { id := 3 }]).1.data
        = [{ id := 2 }, { id := 3 }]) ∧
    ((Cache.new 2).pushAll [{ id := 1 }, { id := 2 }, { id := 3 }]).2 = [{ id := 1 }] ∧
    (∃ first rest,
      ((Cache.new 2).pushAll [{ id := 1 }, { id := 2 }, { id := 3 }]).1.data ++ [{ id := 4 }]
        = first :: rest ∧
      ((Cache.new 2).pushAll [{ id := 1 }, { id := 2 }, { id := 3 }]).1.push { id := 4 }
        = ({ ((Cache.new 2).pushAll [{ id := 1 }, { id := 2 }, { id := 3 }]).1 with
             data := rest }, [first]) ∧
      rest.length = 2 ∧
      (0 < 2 →
        ((Cache.new 2).pushAll [{ id := 1 }, { id := 2 }, { id := 3 }]).1.data.head?
          = some first)) :=
  ⟨(cache_bounded_fifo 2 [{ id := 1 }, { id := 2 }, { id := 3 }] { id := 4 } _ rfl).2.2.1,
   (cache_bounded_fifo 2 [{ id := 1 }, { id := 2 }, { id := 3 }] { id := 4 } _ rfl).2.2.2.1,
   (cache_bounded_fifo 2 [{ id := 1 }, { id := 2 }, { id := 3 }] { id := 4 } _ rfl).2.2.2.2.2.1
     rfl⟩

end Viewer

namespace Viewer

/-- Splitting digits followed by a character that is not a digit at that
character. -/
theorem takeWhile_digits_sep (ds rest : List Char) (c : Char) (hc : c.isDigit = false)
    (h : ds.all Char.isDigit = true) :
    (ds ++ c :: rest).takeWhile Char.isDigit = ds ∧
    (ds ++ c :: rest).dropWhile Char.isDigit = c :: rest := by
  induction ds with
  | nil => simp [List.takeWhile, List.dropWhile, hc]
  | cons d ds ih =>
    simp only [List.all_cons, Bool.and_eq_true] at h
    obtain ⟨ih1, ih2⟩ := ih h.2
    simp [List.takeWhile, List.dropWhile, h.1, ih1, ih2]

/-- Printing a non-negative integer in decimal is injective. -/
theorem toDigits_injective (a b : Nat) (h : Nat.toDigits 10 a = Nat.toDigits 10 b) : a = b := by
  have ha := NodeStream.parseDigits_toDigits a
  rw [h, NodeStream.parseDigits_toDigits b] at ha
  exact (Option.some.inj ha).symm

/-- The characters of a key. -/
theorem refKey_data (num gen : Nat) :
    (refKey num gen).data
      = Nat.toDigits 10 num ++ ' ' :: (Nat.toDigits 10 gen ++ [' ', 'R']) := by
  simp only [refKey, String.data_append]
  have h1 : (toString num).data = Nat.toDigits 10 num := rfl
  have h2 : (toString gen).data = Nat.toDigits 10 gen := rfl
  rw [h1, h2]
  simp

/-- The key is injective on pairs of non-negative integers. -/
theorem refKey_injective (num gen num1 gen1 : Nat) :
    refKey num gen = refKey num1 gen1 ↔ num = num1 ∧ gen = gen1 := by
  constructor
  · intro h
    have hd := congrArg String.data h
    rw [refKey_data, refKey_data] at hd
    have hn := (NodeStream.toDigitsCore_spec (num + 1) num (by omega)).2.1
    have hn1 := (NodeStream.toDigitsCore_spec (num1 + 1) num1 (by omega)).2.1
    have hg := (NodeStream.toDigitsCore_spec (gen + 1) gen (by omega)).2.1
    have hg1 := (NodeStream.toDigitsCore_spec (gen1 + 1) gen1 (by omega)).2.1
    have t := takeWhile_digits_sep (Nat.toDigits 10 num)
      (Nat.toDigits 10 gen ++ [' ', 'R']) ' ' (by decide) hn
    have t1 := takeWhile_digits_sep (Nat.toDigits 10 num1)
      (Nat.toDigits 10 gen1 ++ [' ', 'R']) ' ' (by decide) hn1
    have e1 : Nat.toDigits 10 num = Nat.toDigits 10 num1 := by
      rw [← t.1, ← t1.1, hd]
    have e2 : ' ' :: (Nat.toDigits 10 gen ++ [' ', 'R'])
        = ' ' :: (Nat.toDigits 10 gen1 ++ [' ', 'R']) := by
      rw [← t.2, ← t1.2, hd]
    have e3 : Nat.toDigits 10 gen ++ [' ', 'R'] = Nat.toDigits 10 gen1 ++ [' ', 'R'] :=
      List.tail_eq_of_cons_eq e2
    have u := takeWhile_digits_sep (Nat.toDigits 10 gen) ['R'] ' ' (by decide) hg
    have u1 := takeWhile_digits_sep (Nat.toDigits 10 gen1) ['R'] ' ' (by decide) hg1
    have e4 : Nat.toDigits 10 gen = Nat.toDigits 10 gen1 := by
      rw [← u.1, ← u1.1, e3]
    exact ⟨toDigits_injective _ _ e1, toDigits_injective _ _ e4⟩
  · rintro ⟨rfl, rfl⟩
    rfl

/-- What the loop of `load` leaves under a key: the number of the last page
from `i` on whose reference has that key, or, when there is none, what was
there before. -/
theorem loadLoop_lookup (pdf : PDFDoc) (key : String) (p : Nat) (k : Nat) :
    ∀ (i : Nat) (map : PagesRefMap), pdf.numPages + 1 - i = k →
      ((loadLoop pdf i map).lookup key = some p ↔
        ((i ≤ p ∧ p ≤ pdf.numPages ∧ refKey (pdf.pageRef p).num (pdf.pageRef p).gen = key ∧
            ∀ j, p < j → j ≤ pdf.numPages →
              refKey (pdf.pageRef j).num (pdf.pageRef j).gen ≠ key) ∨
          ((∀ j, i ≤ j → j ≤ pdf.numPages →
              refKey (pdf.pageRef j).num (pdf.pageRef j).gen ≠ key) ∧
            map.lookup key = some p))) := by
  induction k with
  | zero =>
    intro i map hk
    have hi : ¬ i ≤ pdf.numPages := by omega
    rw [loadLoop, if_neg hi]
    constructor
    · intro h
      exact Or.inr ⟨fun j h1 h2 => absurd (Nat.le_trans h1 h2) hi, h⟩
    · rintro (⟨h1, h2, _⟩ | ⟨_, h⟩)
      · exact absurd (Nat.le_trans h1 h2) hi
      · exact h
  | succ k ih =>
    intro i map hk
    have hi : i ≤ pdf.numPages := by omega
    rw [loadLoop, if_pos hi, ih (i + 1) _ (by omega)]
    by_cases hkey : refKey (pdf.pageRef i).num (pdf.pageRef i).gen = key
    · have hl : List.lookup key
          ((refKey (pdf.pageRef i).num (pdf.pageRef i).gen, i) :: map) = some i := by
        simp [List.lookup, hkey]
      rw [hl]
      constructor
      · rintro (⟨h1, h2, h3, h4⟩ | ⟨h1, h2⟩)
        · exact Or.inl ⟨by omega, h2, h3, h4⟩
        · have hp : i = p := Option.some.inj h2
          subst hp
          exact Or.inl ⟨Nat.le_refl _, hi, hkey, fun j hj1 hj2 => h1 j (by omega) hj2⟩
      · rintro (⟨h1, h2, h3, h4⟩ | ⟨h1, _⟩)
        · rcases Nat.eq_or_lt_of_le h1 with heq | hlt
          · subst heq
            exact Or.inr ⟨fun j hj1 hj2 => h4 j (by omega) hj2, rfl⟩
          · exact Or.inl ⟨by omega, h2, h3, h4⟩
        · exact absurd hkey (h1 i (Nat.le_refl _) hi)
    · have hl : List.lookup key
          ((refKey (pdf.pageRef i).num (pdf.pageRef i).gen, i) :: map) = map.lookup key := by
        have hne : (key == refKey (pdf.pageRef i).num (pdf.pageRef i).gen) = false := by
          simpa using fun h => hkey h.symm
        simp [List.lookup, hne]
      rw [hl]
      constructor
      · rintro (⟨h1, h2, h3, h4⟩ | ⟨h1, h2⟩)
        · exact Or.inl ⟨by omega, h2, h3, h4⟩
        · refine Or.inr ⟨fun j hj1 hj2 => ?_, h2⟩
          rcases Nat.eq_or_lt_of_le hj1 with heq | hlt
          · subst heq
            exact hkey
          · exact h1 j (by omega) hj2
      · rintro (⟨h1, h2, h3, h4⟩ | ⟨h1, h2⟩)
        · rcases Nat.eq_or_lt_of_le h1 with heq | hlt
          · subst heq
            exact absurd h3 hkey
          · exact Or.inl ⟨by omega, h2, h3, h4⟩
        · exact Or.inr ⟨fun j hj1 hj2 => h1 j (by omega) hj2, h2⟩

/-- The page number `navigateTo` assigns for a destination array that starts
with a reference is the number stored under the key of the reference. -/
theorem navigateTo_object (view : PDFView) (num gen i : Nat) (hi : i ≠ 0)
    (h : view.pagesRefMap.lookup (refKey num gen) = some i) :
    view.navigateTo (Dest.array (some (DestRef.object num gen))) = some (i : Int) := by
  have hne : (i : Int) ≠ 0 := by omega
  simp [PDFView.navigateTo, pageNumberOf, h, hne]

/-- For a destination array that starts with a reference whose key is not
stored, `navigateTo` assigns nothing. -/
theorem navigateTo_object_none (view : PDFView) (num gen : Nat)
    (h : view.pagesRefMap.lookup (refKey num gen) = none) :
    view.navigateTo (Dest.array (some (DestRef.object num gen))) = none := by
  simp [PDFView.navigateTo, pageNumberOf, h]

/-- C11, as stated, fails: in a document whose pages 1 and 2 both have the
reference `5 0 R`, `navigateTo` with that reference goes to page 2, although
the reference of page 1 has the same `num` and the same `gen`. -/
theorem navigateTo_counterexample :
    ((PDFView.load { numPages := 2, pageRef := fun _ => { num := 5, gen := 0 } } []).navigateTo
        (Dest.array (some (DestRef.object 5 0))) = some 2) ∧
    (({ numPages := 2, pageRef := fun _ => { num := 5, gen := 0 } } : PDFDoc).pageRef 1
        = { num := 5, gen := 0 }) ∧
    ((PDFView.load { numPages := 2, pageRef := fun _ => { num := 5, gen := 0 } } []).navigateTo
        (Dest.array (some (DestRef.object 5 0))) ≠ some 1) := by
  have h : (PDFView.load { numPages := 2, pageRef := fun _ => { num := 5, gen := 0 } }
      []).navigateTo (Dest.array (some (DestRef.object 5 0))) = some 2 := by
    apply navigateTo_object _ 5 0 2 (by decide)
    simp [PDFView.load, loadLoop, List.lookup]
  refine ⟨h, rfl, ?_⟩
  rw [h]
  decide

/-- C11 (amended): the key `num + ' ' + gen + ' R'` is injective on pairs of
non-negative integers, so for every destination whose first element is a
reference `(num, gen)`, `navigateTo` goes to page `i` exactly when page `i` is
the last page whose reference has the same `num` and the same `gen`, and goes
nowhere exactly when no page has that reference; when the references of the
pages are pairwise different, it goes to page `i` exactly when the reference of
page `i` has the same `num` and the same `gen`. -/
theorem navigateTo_reference_by_both_fields (pdf : PDFDoc)
    (destinations : List (String × Dest)) (num gen : Nat) (i : Nat) :
    (∀ num1 gen1 num2 gen2 : Nat,
      refKey num1 gen1 = refKey num2 gen2 ↔ num1 = num2 ∧ gen1 = gen2) ∧
    ((PDFView.load pdf destinations).navigateTo (Dest.array (some (DestRef.object num gen)))
        = some (i : Int) ↔
      (1 ≤ i ∧ i ≤ pdf.numPages ∧ pdf.pageRef i = { num := num, gen := gen } ∧
        ∀ j, i < j → j ≤ pdf.numPages → pdf.pageRef j ≠ { num := num, gen := gen })) ∧
    ((PDFView.load pdf destinations).navigateTo (Dest.array (some (DestRef.object num gen)))
        = none ↔
      ∀ j, 1 ≤ j → j ≤ pdf.numPages → pdf.pageRef j ≠ { num := num, gen := gen }) ∧
    ((∀ j k, 1 ≤ j → j ≤ pdf.numPages → 1 ≤ k → k ≤ pdf.numPages →
        pdf.pageRef j = pdf.pageRef k → j = k) →
      ((PDFView.load pdf destinations).navigateTo (Dest.array (some (DestRef.object num gen)))
          = some (i : Int) ↔
        (1 ≤ i ∧ i ≤ pdf.numPages ∧ pdf.pageRef i = { num := num, gen := gen }))) := by
  have hkey : ∀ j : Nat, refKey (pdf.pageRef j).num (pdf.pageRef j).gen = refKey num gen ↔
      pdf.pageRef j = { num := num, gen := gen } := by
    intro j
    rw [refKey_injective]
    constructor
    · rintro ⟨h1, h2⟩
      cases hr : pdf.pageRef j with
      | mk n g =>
        rw [hr] at h1 h2
        simp only at h1 h2
        rw [h1, h2]
    · intro h
      rw [h]
      exact ⟨rfl, rfl⟩
  have hlook : ∀ p : Nat, (loadLoop pdf 1 []).lookup (refKey num gen) = some p ↔
      (1 ≤ p ∧ p ≤ pdf.numPages ∧ pdf.pageRef p = { num := num, gen := gen } ∧
        ∀ j, p < j → j ≤ pdf.numPages → pdf.pageRef j ≠ { num := num, gen := gen }) := by
    intro p
    rw [loadLoop_lookup pdf (refKey num gen) p (pdf.numPages + 1 - 1) 1 [] rfl]
    simp [List.lookup, hkey]
  have hnav : ∀ p : Nat,
      (PDFView.load pdf destinations).navigateTo (Dest.array (some (DestRef.object num gen)))
        = some (p : Int) ↔ (loadLoop pdf 1 []).lookup (refKey num gen) = some p := by
    intro p
    constructor
    · intro h
      cases hl : (loadLoop pdf 1 []).lookup (refKey num gen) with
      | none =>
        rw [navigateTo_object_none _ num gen (by simpa [PDFView.load] using hl)] at h
        cases h
      | some q =>
        have hq : q ≠ 0 := by
          have := ((hlook q).mp hl).1
          omega
        rw [navigateTo_object _ num gen q hq (by simpa [PDFView.load] using hl)] at h
        have : (q : Int) = (p : Int) := Option.some.inj h
        have hqp : q = p := by omega
        rw [hqp]
    · intro h
      have hp : p ≠ 0 := by
        have := ((hlook p).mp h).1
        omega
      exact navigateTo_object _ num gen p hp (by simpa [PDFView.load] using h)
  have hnone : (PDFView.load pdf destinations).navigateTo
        (Dest.array (some (DestRef.object num gen))) = none ↔
      ∀ j, 1 ≤ j → j ≤ pdf.numPages → pdf.pageRef j ≠ { num := num, gen := gen } := by
    constructor
    · intro h j hj1 hj2 hjr
      have hex : ∃ p, (loadLoop pdf 1 []).lookup (refKey num gen) = some p := by
        cases hl : (loadLoop pdf 1 []).lookup (refKey num gen) with
        | some p => exact ⟨p, rfl⟩
        | none =>
          exfalso
          have hall : ∀ p : Nat, ¬ (1 ≤ p ∧ p ≤ pdf.numPages ∧
              pdf.pageRef p = { num := num, gen := gen } ∧
              ∀ j, p < j → j ≤ pdf.numPages → pdf.pageRef j ≠ { num := num, gen := gen }) := by
            intro p hp
            have := (hlook p).mpr hp
            rw [hl] at this
            cases this
          have hdown : ∀ d : Nat, d ≤ pdf.numPages - j →
              ∀ m, pdf.numPages - d < m → m ≤ pdf.numPages →
                pdf.pageRef m ≠ { num := num, gen := gen } := by
            intro d
            induction d with
            | zero =>
              intro _ m hm1 hm2
              omega
            | succ d ihd =>
              intro hd m hm1 hm2
              by_cases hmd : pdf.numPages - d < m
              · exact ihd (by omega) m hmd hm2
              · have hme : m = pdf.numPages - d := by omega
                intro hmr
                exact hall m ⟨by omega, hm2, hmr, fun j2 hj21 hj22 =>
                  ihd (by omega) j2 (by omega) hj22⟩
          exact hall j ⟨hj1, hj2, hjr, fun j2 hj21 hj22 =>
            hdown (pdf.numPages - j) (Nat.le_refl _) j2 (by omega) hj22⟩
      obtain ⟨p, hp⟩ := hex
      rw [(hnav p).mpr hp] at h
      cases h
    · intro h
      apply navigateTo_object_none
      cases hl : (loadLoop pdf 1 []).lookup (refKey num gen) with
      | none => simpa [PDFView.load] using hl
      | some p =>
        have hp := (hlook p).mp hl
        exact absurd hp.2.2.1 (h p hp.1 hp.2.1)
  refine ⟨fun a b c d => refKey_injective a b c d, ?_, hnone, ?_⟩
  · rw [hnav i, hlook i]
  · intro hinj
    rw [hnav i, hlook i]
    constructor
    · rintro ⟨h1, h2, h3, _⟩
      exact ⟨h1, h2, h3⟩
    · rintro ⟨h1, h2, h3⟩
      refine ⟨h1, h2, h3, ?_⟩
      intro j hj1 hj2 hjr
      have := hinj j i (by omega) hj2 h1 h2 (by rw [hjr, h3])
      omega

/-- Witness for C11 (amended): in a document of three pages with the references
`3 0 R`, `5 0 R` and `7 0 R`, which are pairwise different, `navigateTo` with
the reference `5 0 R` goes to page 2 exactly because page 2 has it. -/
theorem navigateTo_reference_by_both_fields_witness :
    (PDFView.load { numPages := 3, pageRef := fun i => { num := 2 * i + 1, gen := 0 } }
        []).navigateTo (Dest.array (some (DestRef.object 5 0))) = some ((2 : Nat) : Int) ↔
      (1 ≤ 2 ∧ 2 ≤ ({ numPages := 3, pageRef := fun i => { num := 2 * i + 1, gen := 0 } } :
          PDFDoc).numPages ∧
        ({ numPages := 3, pageRef := fun i => { num := 2 * i + 1, gen := 0 } } :
          PDFDoc).pageRef 2 = { num := 5, gen := 0 }) :=
  (navigateTo_reference_by_both_fields
    { numPages := 3, pageRef := fun i => { num := 2 * i + 1, gen := 0 } } [] 5 0 2).2.2.2
    (fun j k _ _ _ _ h => by
      have h1 : 2 * j + 1 = 2 * k + 1 := congrArg Ref.num h
      omega)

end Viewer

namespace DisplayUtils

/-- The normalised rotation is the rotation reduced to the range from 0 to
359. -/
theorem normalizeRotation_eq_emod (rotation : Int) : normalizeRotation rotation = rotation % 360 := by
  unfold normalizeRotation
  cases rotation with
  | ofNat n =>
    have h1 : Int.tmod (Int.ofNat n) 360 = ((n % 360 : Nat) : Int) := rfl
    simp only [h1]
    have h2 : Int.ofNat n = (n : Int) := rfl
    rw [h2]
    split <;> omega
  | negSucc m =>
    have h1 : Int.tmod (Int.negSucc m) 360 = -(((m + 1) % 360 : Nat) : Int) := rfl
    simp only [h1]
    have h2 : Int.negSucc m = -((m : Int) + 1) := Int.negSucc_eq m
    rw [h2]
    split <;> omega

/-- A rotation is a multiple of 90 exactly when its normalised value is one of
0, 90, 180 and 270. -/
theorem normalizeRotation_cases (rotation : Int) :
    (90 ∣ rotation) ↔
      (normalizeRotation rotation = 0 ∨ normalizeRotation rotation = 90 ∨
       normalizeRotation rotation = 180 ∨ normalizeRotation rotation = 270) := by
  rw [normalizeRotation_eq_emod]
  omega

/-- The `switch` throws exactly for the values other than 0, 90, 180, 270. -/
theorem rotationMatrix_error_iff (rotation : Int) :
    rotationMatrix rotation = Except.error invalidRotationMessage ↔
      ¬ (rotation = 0 ∨ rotation = 90 ∨ rotation = 180 ∨ rotation = 270) := by
  unfold rotationMatrix
  split_ifs <;> simp_all

/-- The constructor throws exactly when the `switch` does, and then with the
same message. -/
theorem new_error_iff (params : PageViewportParameters) (message : String) :
    PageViewport.new params = Except.error message ↔
      rotationMatrix (normalizeRotation params.rotation) = Except.error message := by
  unfold PageViewport.new
  simp only []
  split
  · rename_i m h
    rw [h]
    simp
  · rename_i a b c d h
    rw [h]
    simp

/-- The only message the `switch` throws with. -/
theorem rotationMatrix_error_message (rotation : Int) (message : String)
    (h : rotationMatrix rotation = Except.error message) : message = invalidRotationMessage := by
  unfold rotationMatrix at h
  split_ifs at h
  simp only [Except.error.injEq] at h
  exact h.symm

/-- C13: for every integer rotation the constructor throws "PageViewport:
Invalid rotation, must be a multiple of 90 degrees." if and only if the
rotation is not divisible by 90; it throws nothing else, and returns a
viewport if and only if the rotation is divisible by 90. -/
theorem pageViewport_rotation_accepted (params : PageViewportParameters) :
    (PageViewport.new params
        = Except.error "PageViewport: Invalid rotation, must be a multiple of 90 degrees."
      ↔ ¬ (90 ∣ params.rotation)) ∧
    ((∃ v, PageViewport.new params = Except.ok v) ↔ 90 ∣ params.rotation) ∧
    (∀ message, PageViewport.new params = Except.error message →
      message = "PageViewport: Invalid rotation, must be a multiple of 90 degrees.") := by
  have h1 : PageViewport.new params = Except.error invalidRotationMessage
      ↔ ¬ (90 ∣ params.rotation) := by
    rw [new_error_iff, rotationMatrix_error_iff, normalizeRotation_cases]
  have h3 : ∀ message, PageViewport.new params = Except.error message →
      message = invalidRotationMessage := by
    intro message hm
    exact rotationMatrix_error_message _ _ ((new_error_iff params message).mp hm)
  refine ⟨h1, ?_, h3⟩
  constructor
  · rintro ⟨v, hv⟩
    by_contra hn
    rw [h1.mpr hn] at hv
    cases hv
  · intro hd
    cases hnew : PageViewport.new params with
    | ok v => exact ⟨v, rfl⟩
    | error message =>
      have hm := h3 message hnew
      rw [hm] at hnew
      exact absurd hd (h1.mp hnew)

/-- The viewport built for a rotation that normalises to one of the four
accepted values, in terms of the four entries of the `switch`. -/
theorem new_of_matrix (params : PageViewportParameters) (a b c d : ℚ)
    (h : rotationMatrix (normalizeRotation params.rotation) = Except.ok (a, b, c, d)) :
    PageViewport.new params =
      Except.ok
        { viewBox := params.viewBox
          scale := params.scale
          rotation := params.rotation
          offsetX := params.offsetX.getD 0
          offsetY := params.offsetY.getD 0
          transform :=
            { m0 := a * params.scale
              m1 := b * params.scale
              m2 := (if params.dontFlip.getD false then -c else c) * params.scale
              m3 := (if params.dontFlip.getD false then -d else d) * params.scale
              m4 := (if a = 0 then
                        |(params.viewBox.v3 + params.viewBox.v1) / 2 - params.viewBox.v1|
                          * params.scale + params.offsetX.getD 0
                      else
                        |(params.viewBox.v2 + params.viewBox.v0) / 2 - params.viewBox.v0|
                          * params.scale + params.offsetX.getD 0)
                    - a * params.scale * ((params.viewBox.v2 + params.viewBox.v0) / 2)
                    - (if params.dontFlip.getD false then -c else c) * params.scale
                        * ((params.viewBox.v3 + params.viewBox.v1) / 2)
              m5 := (if a = 0 then
                        |(params.viewBox.v2 + params.viewBox.v0) / 2 - params.viewBox.v0|
                          * params.scale + params.offsetY.getD 0
                      else
                        |(params.viewBox.v3 + params.viewBox.v1) / 2 - params.viewBox.v1|
                          * params.scale + params.offsetY.getD 0)
                    - b * params.scale * ((params.viewBox.v2 + params.viewBox.v0) / 2)
                    - (if params.dontFlip.getD false then -d else d) * params.scale
                        * ((params.viewBox.v3 + params.viewBox.v1) / 2) }
          width := if a = 0 then (params.viewBox.v3 - params.viewBox.v1) * params.scale
                   else (params.viewBox.v2 - params.viewBox.v0) * params.scale
          height := if a = 0 then (params.viewBox.v2 - params.viewBox.v0) * params.scale
                    else (params.viewBox.v3 - params.viewBox.v1) * params.scale } := by
  unfold PageViewport.new
  simp only [h]

/-- The four entries of the `switch` for a rotation that is a multiple of 90:
one of four matrices, each with determinant `-1`. -/
theorem rotationMatrix_of_dvd (rotation : Int) (h : 90 ∣ rotation) :
    ∃ a b c d : ℚ,
      rotationMatrix (normalizeRotation rotation) = Except.ok (a, b, c, d) ∧
      a * d - b * c = -1 := by
  rcases (normalizeRotation_cases rotation).mp h with h0 | h0 | h0 | h0
  · exact ⟨1, 0, 0, -1, by rw [h0]; rfl, by norm_num⟩
  · exact ⟨0, 1, 1, 0, by rw [h0]; rfl, by norm_num⟩
  · exact ⟨-1, 0, 0, 1, by rw [h0]; rfl, by norm_num⟩
  · exact ⟨0, -1, -1, 0, by rw [h0]; rfl, by norm_num⟩

/-- The inverse affine map undoes the affine map, and the other way round,
when the determinant of the transform is not zero. -/
theorem applyInverseTransform_applyTransform (m : Transform) (x y : ℚ)
    (hdet : m.m0 * m.m3 - m.m1 * m.m2 ≠ 0) :
    applyInverseTransform (applyTransform (x, y) m) m = (x, y) ∧
    applyTransform (applyInverseTransform (x, y) m) m = (x, y) := by
  constructor
  · simp only [applyInverseTransform, applyTransform, Prod.mk.injEq]
    constructor
    · field_simp
      ring
    · field_simp
      ring
  · simp only [applyInverseTransform, applyTransform, Prod.mk.injEq]
    constructor
    · field_simp
      ring
    · field_simp
      ring

/-- C12: for every viewport built with a rotation that is a multiple of 90,
any viewBox, offsets and dontFlip, and a non-zero scale, and for every point
`(x, y)`, `convertToPdfPoint` applied to `convertToViewportPoint(x, y)` returns
`(x, y)`, and `convertToViewportPoint` applied to `convertToPdfPoint(x, y)`
returns `(x, y)` (exact arithmetic). -/
theorem convertToPdfPoint_undoes_convertToViewportPoint (params : PageViewportParameters)
    (x y : ℚ) (hrot : 90 ∣ params.rotation) (hscale : params.scale ≠ 0) :
    ∃ v : PageViewport,
      PageViewport.new params = Except.ok v ∧
      v.convertToPdfPoint (v.convertToViewportPoint x y).1 (v.convertToViewportPoint x y).2
        = (x, y) ∧
      v.convertToViewportPoint (v.convertToPdfPoint x y).1 (v.convertToPdfPoint x y).2
        = (x, y) := by
  obtain ⟨a, b, c, d, hm, hdet⟩ := rotationMatrix_of_dvd params.rotation hrot
  refine ⟨_, new_of_matrix params a b c d hm, ?_⟩
  simp only [PageViewport.convertToPdfPoint, PageViewport.convertToViewportPoint]
  apply applyInverseTransform_applyTransform
  simp only []
  have hs : params.scale * params.scale ≠ 0 := mul_ne_zero hscale hscale
  cases params.dontFlip.getD false
  · have e : a * params.scale * (d * params.scale) - b * params.scale * (c * params.scale)
        = (a * d - b * c) * (params.scale * params.scale) := by ring
    simp only [Bool.false_eq_true, if_false]
    rw [e, hdet]
    simpa using hs
  · have e : a * params.scale * (-d * params.scale) - b * params.scale * (-c * params.scale)
        = -(a * d - b * c) * (params.scale * params.scale) := by ring
    simp only [if_true]
    rw [e, hdet]
    simpa using hs

/-- Witness for C12: the viewport of an A4 page at scale 3/2, rotated by -90
degrees, and the point (10, 20). -/
theorem convertToPdfPoint_undoes_convertToViewportPoint_witness :
    ∃ v : PageViewport,
      PageViewport.new
          { viewBox := { v0 := 0, v1 := 0, v2 := 595, v3 := 842 }, scale := 3 / 2,
            rotation := -90, offsetX := none, offsetY := some 5, dontFlip := none }
        = Except.ok v ∧
      v.convertToPdfPoint (v.convertToViewportPoint 10 20).1 (v.convertToViewportPoint 10 20).2
        = (10, 20) ∧
      v.convertToViewportPoint (v.convertToPdfPoint 10 20).1 (v.convertToPdfPoint 10 20).2
        = (10, 20) :=
  convertToPdfPoint_undoes_convertToViewportPoint
    { viewBox := { v0 := 0, v1 := 0, v2 := 595, v3 := 842 }, scale := 3 / 2,
      rotation := -90, offsetX := none, offsetY := some 5, dontFlip := none }
    10 20 (by decide) (by norm_num)

/-- Witness for C13: the rotation 45 is rejected and the rotation -270 is
accepted. -/
theorem pageViewport_rotation_accepted_witness :
    (PageViewport.new
        { viewBox := { v0 := 0, v1 := 0, v2 := 595, v3 := 842 }, scale := 1,
          rotation := 45, offsetX := none, offsetY := none, dontFlip := none }
      = Except.error "PageViewport: Invalid rotation, must be a multiple of 90 degrees.") ∧
    (∃ v, PageViewport.new
        { viewBox := { v0 := 0, v1 := 0, v2 := 595, v3 := 842 }, scale := 1,
          rotation := -270, offsetX := none, offsetY := none, dontFlip := none }
      = Except.ok v) :=
  ⟨(pageViewport_rotation_accepted
      { viewBox := { v0 := 0, v1 := 0, v2 := 595, v3 := 842 }, scale := 1,
        rotation := 45, offsetX := none, offsetY := none, dontFlip := none }).1.mpr (by decide),
   (pageViewport_rotation_accepted
      { viewBox := { v0 := 0, v1 := 0, v2 := 595, v3 := 842 }, scale := 1,
        rotation := -270, offsetX := none, offsetY := none, dontFlip := none }).2.1.mpr
      (by decide)⟩

/-- C14: for every integer `k` and every rotation `r` that is a multiple of 90,
the viewport built with rotation `r + 360 * k` has the same transform, width
and height as the one built with rotation `r` and otherwise equal parameters
(both are built). -/
theorem rotation_normalised_mod_360 (params : PageViewportParameters) (k : Int)
    (hrot : 90 ∣ params.rotation) :
    ∃ v w : PageViewport,
      PageViewport.new params = Except.ok v ∧
      PageViewport.new { params with rotation := params.rotation + 360 * k } = Except.ok w ∧
      w.transform = v.transform ∧ w.width = v.width ∧ w.height = v.height ∧
      w.viewBox = v.viewBox ∧ w.scale = v.scale ∧ w.offsetX = v.offsetX ∧
      w.offsetY = v.offsetY := by
  obtain ⟨a, b, c, d, hm, _⟩ := rotationMatrix_of_dvd params.rotation hrot
  have hn : normalizeRotation (params.rotation + 360 * k) = normalizeRotation params.rotation := by
    rw [normalizeRotation_eq_emod, normalizeRotation_eq_emod]
    omega
  have hm2 : rotationMatrix
      (normalizeRotation ({ params with rotation := params.rotation + 360 * k }).rotation)
      = Except.ok (a, b, c, d) := by
    simp only [hn, hm]
  refine ⟨_, _, new_of_matrix params a b c d hm, new_of_matrix _ a b c d hm2, ?_⟩
  exact ⟨rfl, rfl, rfl, rfl, rfl, rfl, rfl⟩

/-- Witness for C14: the rotations 90 and 90 + 360 * (-2) = -630. -/
theorem rotation_normalised_mod_360_witness :
    ∃ v w : PageViewport,
      PageViewport.new
          { viewBox := { v0 := 0, v1 := 0, v2 := 595, v3 := 842 }, scale := 2,
            rotation := 90, offsetX := none, offsetY := none, dontFlip := none }
        = Except.ok v ∧
      PageViewport.new
          { viewBox := { v0 := 0, v1 := 0, v2 := 595, v3 := 842 }, scale := 2,
            rotation := 90 + 360 * (-2), offsetX := none, offsetY := none, dontFlip := none }
        = Except.ok w ∧
      w.transform = v.transform ∧ w.width = v.width ∧ w.height = v.height ∧
      w.viewBox = v.viewBox ∧ w.scale = v.scale ∧ w.offsetX = v.offsetX ∧
      w.offsetY = v.offsetY :=
  rotation_normalised_mod_360
    { viewBox := { v0 := 0, v1 := 0, v2 := 595, v3 := 842 }, scale := 2,
      rotation := 90, offsetX := none, offsetY := none, dontFlip := none }
    (-2) (by decide)

/-- A viewport that was built comes from one of the four matrices of the
`switch`. -/
theorem matrix_of_new_ok (params : PageViewportParameters) (v : PageViewport)
    (hv : PageViewport.new params = Except.ok v) :
    ∃ a b c d : ℚ, rotationMatrix (normalizeRotation params.rotation) = Except.ok (a, b, c, d) := by
  cases hm : rotationMatrix (normalizeRotation params.rotation) with
  | error message =>
    rw [(new_error_iff params message).mpr hm] at hv
    cases hv
  | ok m =>
    obtain ⟨a, b, c, d⟩ := m
    exact ⟨a, b, c, d, rfl⟩

/-- C15, as stated, fails: the viewport built for the viewBox `[0, 0, 100, 200]`
at scale 1, rotation 0 and `dontFlip: true` has the transform
`[1, 0, 0, 1, 0, 0]`, and its `clone()` has the transform
`[1, 0, 0, -1, 0, 200]`. -/
theorem clone_default_counterexample :
    ∃ v w : PageViewport,
      PageViewport.new
          { viewBox := { v0 := 0, v1 := 0, v2 := 100, v3 := 200 }, scale := 1,
            rotation := 0, offsetX := none, offsetY := none, dontFlip := some true }
        = Except.ok v ∧
      v.cloneDefault = Except.ok w ∧
      v.transform = { m0 := 1, m1 := 0, m2 := 0, m3 := 1, m4 := 0, m5 := 0 } ∧
      w.transform = { m0 := 1, m1 := 0, m2 := 0, m3 := -1, m4 := 0, m5 := 200 } ∧
      w.transform ≠ v.transform := by
  have hm : rotationMatrix (normalizeRotation 0) = Except.ok (1, 0, 0, -1) := rfl
  have h1 := new_of_matrix
    { viewBox := { v0 := 0, v1 := 0, v2 := 100, v3 := 200 }, scale := 1, rotation := 0,
      offsetX := none, offsetY := none, dontFlip := some true } 1 0 0 (-1) hm
  have h2 := new_of_matrix
    { viewBox := { v0 := 0, v1 := 0, v2 := 100, v3 := 200 }, scale := 1, rotation := 0,
      offsetX := some 0, offsetY := some 0, dontFlip := some false } 1 0 0 (-1) hm
  refine ⟨_, _, h1, h2, ?_, ?_, ?_⟩
  · simp only [Option.getD_some, Option.getD_none, if_true]
    norm_num [abs_of_nonneg]
  · simp only [Option.getD_some, Option.getD_none, Bool.false_eq_true, if_false]
    norm_num [abs_of_nonneg]
  · simp only [Option.getD_some, Option.getD_none, Bool.false_eq_true, if_false, if_true]
    norm_num

/-- C15 (amended): for every `PageViewport` `v`, `v.clone()` is built and has the
same viewBox contents, scale, rotation, offsetX, offsetY, width and height as
`v`; it has the same transform when `v` was built without `dontFlip`, because
`clone()` builds with `dontFlip = false`. -/
theorem clone_default_same_fields (params : PageViewportParameters) (v : PageViewport)
    (hv : PageViewport.new params = Except.ok v) :
    ∃ w : PageViewport,
      v.cloneDefault = Except.ok w ∧
      w.viewBox = v.viewBox ∧ w.scale = v.scale ∧ w.rotation = v.rotation ∧
      w.offsetX = v.offsetX ∧ w.offsetY = v.offsetY ∧
      w.width = v.width ∧ w.height = v.height ∧
      (params.dontFlip.getD false = false → w.transform = v.transform ∧ w = v) := by
  obtain ⟨a, b, c, d, hm⟩ := matrix_of_new_ok params v hv
  have hv2 := new_of_matrix params a b c d hm
  rw [hv] at hv2
  simp only [Except.ok.injEq] at hv2
  subst hv2
  have hm2 : rotationMatrix (normalizeRotation
      ({ viewBox := params.viewBox, scale := params.scale, rotation := params.rotation,
         offsetX := some (params.offsetX.getD 0), offsetY := some (params.offsetY.getD 0),
         dontFlip := some false } : PageViewportParameters).rotation)
      = Except.ok (a, b, c, d) := hm
  refine ⟨_, new_of_matrix _ a b c d hm2, rfl, rfl, rfl, rfl, rfl, rfl, rfl, ?_⟩
  intro hflip
  simp only [Option.getD_some, Option.getD_none, hflip, Bool.false_eq_true, if_false,
    and_self]

/-- Witness for C15 (amended): the clone of the viewport of an A4 page at scale
2 and rotation 90, built without `dontFlip`. -/
theorem clone_default_same_fields_witness :
    ∃ w : PageViewport,
      PageViewport.cloneDefault
          { viewBox := { v0 := 0, v1 := 0, v2 := 595, v3 := 842 }, scale := 2, rotation := 90,
            offsetX := 0, offsetY := 0,
            transform := { m0 := 0, m1 := 2, m2 := 2, m3 := 0, m4 := 0, m5 := 0 },
            width := 1684, height := 1190 }
        = Except.ok w ∧
      w.width = 1684 ∧ w.height = 1190 ∧
      w.transform = { m0 := 0, m1 := 2, m2 := 2, m3 := 0, m4 := 0, m5 := 0 } := by
  have hnew : PageViewport.new
      { viewBox := { v0 := 0, v1 := 0, v2 := 595, v3 := 842 }, scale := 2, rotation := 90,
        offsetX := none, offsetY := none, dontFlip := none }
      = Except.ok
          { viewBox := { v0 := 0, v1 := 0, v2 := 595, v3 := 842 }, scale := 2, rotation := 90,
            offsetX := 0, offsetY := 0,
            transform := { m0 := 0, m1 := 2, m2 := 2, m3 := 0, m4 := 0, m5 := 0 },
            width := 1684, height := 1190 } := by
    have hm : rotationMatrix (normalizeRotation 90) = Except.ok (0, 1, 1, 0) := rfl
    rw [new_of_matrix
      { viewBox := { v0 := 0, v1 := 0, v2 := 595, v3 := 842 }, scale := 2, rotation := 90,
        offsetX := none, offsetY := none, dontFlip := none } 0 1 1 0 hm]
    simp only [Option.getD_none, Bool.false_eq_true, if_false, if_true]
    norm_num [abs_of_nonneg]
  obtain ⟨w, hw, _, _, _, _, _, h6, h7, h8⟩ := clone_default_same_fields _ _ hnew
  exact ⟨w, hw, h6, h7, (h8 rfl).1⟩

end DisplayUtils

namespace DisplayUtils

/-- Taking `n` digits succeeds exactly on inputs that start with `n` decimal
digits, and splits the input there. -/
theorem takeDigits_eq_some (n : Nat) (cs ds rest : List Char) :
    takeDigits n cs = some (ds, rest) ↔
      cs = ds ++ rest ∧ ds.length = n ∧ ds.all Char.isDigit = true := by
  induction n generalizing cs ds rest with
  | zero =>
    simp only [takeDigits, Option.some.injEq, Prod.mk.injEq]
    constructor
    · rintro ⟨rfl, rfl⟩
      simp
    · rintro ⟨h1, h2, _⟩
      have : ds = [] := List.length_eq_zero.mp h2
      subst this
      exact ⟨rfl, by simpa using h1⟩
  | succ n ih =>
    cases cs with
    | nil =>
      simp only [takeDigits]
      constructor
      · intro h
        cases h
      · rintro ⟨h1, h2, _⟩
        have hds : ds = [] := by
          cases ds with
          | nil => rfl
          | cons d ds => simp at h1
        subst hds
        simp at h2
    | cons c cs =>
      simp only [takeDigits]
      by_cases hc : c.isDigit = true
      · rw [if_pos hc]
        cases ht : takeDigits n cs with
        | none =>
          simp only []
          constructor
          · intro h
            cases h
          · rintro ⟨h1, h2, h3⟩
            cases ds with
            | nil => simp at h2
            | cons d ds =>
              simp only [List.cons_append, List.cons.injEq] at h1
              simp only [List.length_cons, Nat.add_right_cancel_iff] at h2
              simp only [List.all_cons, Bool.and_eq_true] at h3
              have := (ih cs ds rest).mpr ⟨h1.2, h2, h3.2⟩
              rw [ht] at this
              cases this
        | some p =>
          obtain ⟨ds1, rest1⟩ := p
          have hp := (ih cs ds1 rest1).mp ht
          simp only [Option.some.injEq, Prod.mk.injEq]
          constructor
          · rintro ⟨rfl, rfl⟩
            refine ⟨by rw [hp.1]; rfl, by simp [hp.2.1], by simp [hc, hp.2.2]⟩
          · rintro ⟨h1, h2, h3⟩
            cases ds with
            | nil => simp at h2
            | cons d ds =>
              simp only [List.cons_append, List.cons.injEq] at h1
              simp only [List.length_cons, Nat.add_right_cancel_iff] at h2
              simp only [List.all_cons, Bool.and_eq_true] at h3
              have h4 := (ih cs ds rest).mpr ⟨h1.2, h2, h3.2⟩
              rw [ht] at h4
              simp only [Option.some.injEq, Prod.mk.injEq] at h4
              exact ⟨by rw [h1.1, h4.1], h4.2⟩
      · rw [if_neg hc]
        constructor
        · intro h
          cases h
        · rintro ⟨h1, h2, h3⟩
          cases ds with
          | nil => simp at h2
          | cons d ds =>
            simp only [List.cons_append, List.cons.injEq] at h1
            simp only [List.all_cons, Bool.and_eq_true] at h3
            rw [h1.1] at hc
            exact absurd h3.1 hc

/-- A sequence of optional items matches every input. -/
theorem exec_allOptional (items : List Item) (h : ∀ item ∈ items, item.optional = true)
    (input : List Char) : ∃ captures, exec items input = some captures := by
  induction items generalizing input with
  | nil => exact ⟨[], rfl⟩
  | cons item items ih =>
    have hopt : item.optional = true := h item (List.mem_cons_self _ _)
    have hrest : ∀ it ∈ items, it.optional = true :=
      fun it hit => h it (List.mem_cons_of_mem _ hit)
    obtain ⟨c0, hc0⟩ := ih hrest input
    simp only [exec, hopt, if_true, hc0, Option.map_some']
    cases hm : matchAtom item.atom input with
    | none => exact ⟨_, rfl⟩
    | some p =>
      obtain ⟨text, rest⟩ := p
      obtain ⟨c1, hc1⟩ := ih hrest rest
      simp only [hc1]
      exact ⟨_, rfl⟩

/-- An item that matches is kept when the rest matches after it. -/
theorem exec_cons_match (item : Item) (items : List Item) (input text rest : List Char)
    (captures : List (Option (List Char)))
    (hm : matchAtom item.atom input = some (text, rest))
    (hr : exec items rest = some captures) :
    exec (item :: items) input = some (addCapture item (some text) captures) := by
  simp only [exec, hm, hr]

/-- An optional item that does not match is left out. -/
theorem exec_cons_skip (item : Item) (items : List Item) (input : List Char)
    (hopt : item.optional = true) (hm : matchAtom item.atom input = none) :
    exec (item :: items) input = (exec items input).map (addCapture item none) := by
  simp only [exec, hm, hopt, if_true]

/-- A mandatory item that does not match makes the whole match fail. -/
theorem exec_cons_fail (item : Item) (items : List Item) (input : List Char)
    (hopt : item.optional = false) (hm : matchAtom item.atom input = none) :
    exec (item :: items) input = none := by
  simp only [exec, hm, hopt, Bool.false_eq_true, if_false]

/-- A mandatory item must match, and the rest must match after it. -/
theorem exec_cons_mandatory (item : Item) (items : List Item) (input : List Char)
    (hopt : item.optional = false) :
    exec (item :: items) input =
      match matchAtom item.atom input with
      | some (text, rest) => (exec items rest).map (addCapture item (some text))
      | none => none := by
  simp only [exec, hopt, Bool.false_eq_true, if_false]
  cases matchAtom item.atom input with
  | none => rfl
  | some p =>
    obtain ⟨text, rest⟩ := p
    simp only []
    cases exec items rest <;> rfl

/-- Matching a literal character. -/
theorem matchAtom_char (c : Char) (input : List Char) :
    matchAtom (Atom.char c) input =
      match input with
      | c1 :: rest => if c1 = c then some ([c1], rest) else none
      | [] => none := by
  cases input <;> rfl

/-- The regular expression is its three mandatory items followed by the
optional ones. -/
theorem pdfDateStringRegex_split :
    pdfDateStringRegex =
      { atom := Atom.char 'D', optional := false, capture := false } ::
      { atom := Atom.char ':', optional := false, capture := false } ::
      { atom := Atom.digits 4, optional := false, capture := true } :: optionalItems := rfl

/-- Every item after the year is optional. -/
theorem optionalItems_optional : ∀ item ∈ optionalItems, item.optional = true := by
  decide

/-- The match of the regular expression in terms of its optional part: the
input must begin with `D:` and four digits. -/
theorem exec_pdfDateStringRegex_eq (input : List Char) :
    exec pdfDateStringRegex input =
      match input with
      | c1 :: c2 :: cs =>
        if c1 = 'D' ∧ c2 = ':' then
          match takeDigits 4 cs with
          | some (year, rest) => (exec optionalItems rest).map (fun more => some year :: more)
          | none => none
        else none
      | _ => none := by
  rw [pdfDateStringRegex_split, exec_cons_mandatory _ _ _ rfl, matchAtom_char]
  match input with
  | [] => rfl
  | [c1] =>
    simp only []
    by_cases hc1 : c1 = 'D'
    · rw [if_pos hc1]
      simp only [Option.map_eq_none']
      rw [exec_cons_mandatory _ _ _ rfl, matchAtom_char]
    · rw [if_neg hc1]
  | c1 :: c2 :: cs =>
    simp only []
    by_cases hc1 : c1 = 'D'
    · rw [if_pos hc1]
      simp only []
      rw [exec_cons_mandatory _ _ _ rfl, matchAtom_char]
      simp only []
      by_cases hc2 : c2 = ':'
      · rw [if_pos hc2, if_pos ⟨hc1, hc2⟩]
        simp only []
        rw [exec_cons_mandatory _ _ _ rfl]
        simp only [matchAtom]
        cases takeDigits 4 cs with
        | none => rfl
        | some p =>
          obtain ⟨year, rest⟩ := p
          simp only []
          cases exec optionalItems rest <;> rfl
      · rw [if_neg hc2, if_neg (fun h => hc2 h.2)]
        rfl
    · rw [if_neg hc1, if_neg (fun h => hc1 h.1)]

/-- The regular expression matches exactly the inputs that begin with `D:` and
four decimal digits; the first capture is these four digits, the others are
those of the optional part on the rest of the input. -/
theorem exec_pdfDateStringRegex (input : List Char) :
    (∀ captures, exec pdfDateStringRegex input = some captures →
      ∃ d1 d2 d3 d4 rest more,
        input = 'D' :: ':' :: d1 :: d2 :: d3 :: d4 :: rest ∧
        d1.isDigit = true ∧ d2.isDigit = true ∧ d3.isDigit = true ∧ d4.isDigit = true ∧
        exec optionalItems rest = some more ∧
        captures = some [d1, d2, d3, d4] :: more) ∧
    (∀ d1 d2 d3 d4 rest,
      input = 'D' :: ':' :: d1 :: d2 :: d3 :: d4 :: rest →
      d1.isDigit = true → d2.isDigit = true → d3.isDigit = true → d4.isDigit = true →
      ∃ more, exec optionalItems rest = some more ∧
        exec pdfDateStringRegex input = some (some [d1, d2, d3, d4] :: more)) := by
  constructor
  · intro captures h
    rw [exec_pdfDateStringRegex_eq] at h
    match input, h with
    | [], h => cases h
    | [c1], h => cases h
    | c1 :: c2 :: cs, h =>
      simp only [] at h
      by_cases hc : c1 = 'D' ∧ c2 = ':'
      · rw [if_pos hc] at h
        obtain ⟨hc1, hc2⟩ := hc
        subst hc1 hc2
        cases ht : takeDigits 4 cs with
        | none =>
          rw [ht] at h
          cases h
        | some p =>
          obtain ⟨ds, rest⟩ := p
          rw [ht] at h
          simp only [] at h
          obtain ⟨more, hmore⟩ := exec_allOptional optionalItems optionalItems_optional rest
          rw [hmore] at h
          simp only [Option.map_some', Option.some.injEq] at h
          obtain ⟨hcs, hlen, hall⟩ := (takeDigits_eq_some 4 cs ds rest).mp ht
          match ds, hlen, hall, h with
          | [d1, d2, d3, d4], _, hall, h =>
            simp only [List.all_cons, List.all_nil, Bool.and_true, Bool.and_eq_true] at hall
            refine ⟨d1, d2, d3, d4, rest, more, ?_, hall.1, hall.2.1, hall.2.2.1, hall.2.2.2,
              hmore, h.symm⟩
            rw [hcs]
            rfl
      · rw [if_neg hc] at h
        cases h
  · intro d1 d2 d3 d4 rest hin h1 h2 h3 h4
    obtain ⟨more, hmore⟩ := exec_allOptional optionalItems optionalItems_optional rest
    refine ⟨more, hmore, ?_⟩
    have ht : takeDigits 4 (d1 :: d2 :: d3 :: d4 :: rest) = some ([d1, d2, d3, d4], rest) :=
      (takeDigits_eq_some 4 _ _ _).mpr ⟨rfl, rfl, by simp [h1, h2, h3, h4]⟩
    rw [hin, exec_pdfDateStringRegex_eq]
    simp only [and_self, if_true, ht, hmore, Option.map_some']

end DisplayUtils

namespace DisplayUtils

/-- The day number of a year's first day grows by the length of the year. -/
theorem dayFromYear_succ (y : Int) : dayFromYear (y + 1) = dayFromYear y + daysInYear y := by
  unfold dayFromYear daysInYear
  split_ifs <;> omega

/-- Later years start on later days. -/
theorem dayFromYear_mono (a b : Int) (h : a ≤ b) : dayFromYear a ≤ dayFromYear b := by
  unfold dayFromYear
  omega

/-- The first day of a year given by its place in the 400-year cycle. -/
theorem dayFromYear_cycle (q400 q100 q4 q1 : Int) (h100 : 0 ≤ q100 ∧ q100 ≤ 3)
    (h4 : 0 ≤ q4 ∧ q4 ≤ 24) (h1 : 0 ≤ q1 ∧ q1 ≤ 3) :
    dayFromYear (1601 + 400 * q400 + 100 * q100 + 4 * q4 + q1) =
      146097 * q400 + 36524 * q100 + 1461 * q4 + 365 * q1 - 134774 := by
  unfold dayFromYear
  omega

/-- The length of a year given by its place in the 400-year cycle. -/
theorem daysInYear_cycle (q400 q100 q4 q1 : Int) (h100 : 0 ≤ q100 ∧ q100 ≤ 3)
    (h4 : 0 ≤ q4 ∧ q4 ≤ 24) (h1 : 0 ≤ q1 ∧ q1 ≤ 3) :
    daysInYear (1601 + 400 * q400 + 100 * q100 + 4 * q4 + q1) =
      if q1 = 3 ∧ (q4 ≠ 24 ∨ q100 = 3) then 366 else 365 := by
  unfold daysInYear
  split_ifs <;> omega

/-- The place of a day in the 400-year cycle, as `yearFromDay` computes it. -/
theorem yearFromDay_cycle (d : Int) :
    ∃ q400 q100 q4 q1 r1 : Int,
      (0 ≤ q100 ∧ q100 ≤ 3) ∧ (0 ≤ q4 ∧ q4 ≤ 24) ∧ (0 ≤ q1 ∧ q1 ≤ 3) ∧
      0 ≤ r1 ∧ r1 ≤ 365 ∧ (r1 = 365 → q1 = 3 ∧ (q4 ≠ 24 ∨ q100 = 3)) ∧
      d + 134774 = 146097 * q400 + 36524 * q100 + 1461 * q4 + 365 * q1 + r1 ∧
      yearFromDay d = 1601 + 400 * q400 + 100 * q100 + 4 * q4 + q1 := by
  have hn : (d + 134774) % 146097 + 146097 * ((d + 134774) / 146097) = d + 134774 :=
    Int.emod_add_ediv _ _
  have hr0 : 0 ≤ (d + 134774) % 146097 := Int.emod_nonneg _ (by decide)
  have hr1 : (d + 134774) % 146097 < 146097 := Int.emod_lt_of_pos _ (by decide)
  obtain ⟨q100, hq100, hq100a, hq100b, hq100c⟩ :
      ∃ q100 : Int, q100 = (if (d + 134774) % 146097 / 36524 ≥ 4 then 3
          else (d + 134774) % 146097 / 36524) ∧ (0 ≤ q100 ∧ q100 ≤ 3) ∧
        (0 ≤ (d + 134774) % 146097 - q100 * 36524 ∧
          (d + 134774) % 146097 - q100 * 36524 ≤ 36524) ∧
        ((d + 134774) % 146097 - q100 * 36524 = 36524 → q100 = 3) := by
    refine ⟨_, rfl, ?_, ?_, ?_⟩ <;> split_ifs <;> omega
  obtain ⟨r100, hr100⟩ : ∃ r100 : Int, r100 = (d + 134774) % 146097 - q100 * 36524 :=
    ⟨_, rfl⟩
  rw [← hr100] at hq100b hq100c
  have hy : yearFromDay d = 1601 + 400 * ((d + 134774) / 146097) + 100 * q100 +
      4 * (r100 / 1461) + (if r100 % 1461 / 365 ≥ 4 then 3 else r100 % 1461 / 365) := by
    rw [hr100, hq100]
    rfl
  have h4 : r100 % 1461 + 1461 * (r100 / 1461) = r100 := Int.emod_add_ediv _ _
  have h4a : 0 ≤ r100 % 1461 := Int.emod_nonneg _ (by decide)
  have h4b : r100 % 1461 < 1461 := Int.emod_lt_of_pos _ (by decide)
  have h4c : 0 ≤ r100 / 1461 ∧ r100 / 1461 ≤ 24 := by omega
  obtain ⟨q1, hq1, hq1a, hq1b, hq1c⟩ :
      ∃ q1 : Int, q1 = (if r100 % 1461 / 365 ≥ 4 then 3 else r100 % 1461 / 365) ∧
        (0 ≤ q1 ∧ q1 ≤ 3) ∧
        (0 ≤ r100 % 1461 - 365 * q1 ∧ r100 % 1461 - 365 * q1 ≤ 365) ∧
        (r100 % 1461 - 365 * q1 = 365 → q1 = 3) := by
    refine ⟨_, rfl, ?_, ?_, ?_⟩ <;> split_ifs <;> omega
  rw [← hq1] at hy
  refine ⟨(d + 134774) / 146097, q100, r100 / 1461, q1, r100 % 1461 - 365 * q1,
    hq100a, h4c, hq1a, hq1b.1, hq1b.2, ?_, ?_, hy⟩
  · intro h
    have h3 := hq1c h
    refine ⟨h3, ?_⟩
    by_contra hcon
    push_neg at hcon
    omega
  · omega

/-- The year computed for a day number is the year the day lies in: it is the
largest year that starts on or before that day, as ECMAScript defines
`YearFromTime`. -/
theorem yearFromDay_spec (d : Int) :
    dayFromYear (yearFromDay d) ≤ d ∧ d < dayFromYear (yearFromDay d + 1) := by
  obtain ⟨q400, q100, q4, q1, r1, h100, h4, h1, hr0, hr1, hleap, hd, hy⟩ := yearFromDay_cycle d
  rw [dayFromYear_succ, hy, dayFromYear_cycle q400 q100 q4 q1 h100 h4 h1,
    daysInYear_cycle q400 q100 q4 q1 h100 h4 h1]
  constructor
  · omega
  · by_cases h : q1 = 3 ∧ (q4 ≠ 24 ∨ q100 = 3)
    · rw [if_pos h]
      omega
    · rw [if_neg h]
      have : r1 ≠ 365 := fun h365 => h (hleap h365)
      omega

/-- The year of a day: the only year that starts on or before the day and
whose successor starts after it. -/
theorem yearFromDay_unique (d y : Int) (h0 : dayFromYear y ≤ d)
    (h1 : d < dayFromYear (y + 1)) : yearFromDay d = y := by
  obtain ⟨h2, h3⟩ := yearFromDay_spec d
  by_contra hne
  rcases lt_or_gt_of_ne hne with h | h
  · have := dayFromYear_mono (yearFromDay d + 1) y (by omega)
    omega
  · have := dayFromYear_mono (y + 1) (yearFromDay d) (by omega)
    omega

end DisplayUtils

namespace DisplayUtils

/-- The day of a time value made from a day number and a time within the day. -/
theorem day_makeDate (dy tm : Int) (h : 0 ≤ tm ∧ tm < msPerDay) : day (makeDate dy tm) = dy := by
  unfold msPerDay at h
  unfold day makeDate msPerDay
  omega

/-- The time made from an hour, a minute and a second lies within one day. -/
theorem makeTime_bounds (h mi s : Int) (hh : 0 ≤ h ∧ h ≤ 23) (hmi : 0 ≤ mi ∧ mi ≤ 59)
    (hs : 0 ≤ s ∧ s ≤ 59) : 0 ≤ makeTime h mi s 0 ∧ makeTime h mi s 0 < msPerDay := by
  unfold makeTime msPerDay
  omega

/-- The hour, minute and second of a time value made from them. -/
theorem timeFields_makeDate (dy h mi s : Int) (hh : 0 ≤ h ∧ h ≤ 23) (hmi : 0 ≤ mi ∧ mi ≤ 59)
    (hs : 0 ≤ s ∧ s ≤ 59) :
    hourFromTime (makeDate dy (makeTime h mi s 0)) = h ∧
    minFromTime (makeDate dy (makeTime h mi s 0)) = mi ∧
    secFromTime (makeDate dy (makeTime h mi s 0)) = s := by
  unfold hourFromTime minFromTime secFromTime makeDate makeTime msPerDay
  omega

/-- The year of a time value that lies `w` days into year `y`. -/
theorem yearFromTime_makeDate (y w tm : Int) (hw : 0 ≤ w ∧ w < daysInYear y)
    (htm : 0 ≤ tm ∧ tm < msPerDay) :
    yearFromTime (makeDate (dayFromYear y + w) tm) = y := by
  unfold yearFromTime
  rw [day_makeDate _ _ htm]
  apply yearFromDay_unique
  · omega
  · rw [dayFromYear_succ]
    omega

/-- A year has 365 or 366 days. -/
theorem daysInYear_cases (y : Int) : daysInYear y = 365 ∨ daysInYear y = 366 := by
  unfold daysInYear
  split_ifs <;> simp

/-- The day number `MakeDay` gives for a month from 0 to 11. -/
theorem makeDay_eq (y m dt : Int) (hm : 0 ≤ m ∧ m ≤ 11) :
    makeDay y m dt =
      dayFromYear y + (daysBeforeMonth m (if daysInYear y = 366 then 1 else 0) + dt - 1) := by
  unfold makeDay
  have h1 : m / 12 = 0 := by omega
  have h2 : m % 12 = m := by omega
  simp only [h1, h2, add_zero]
  omega

/-- The leap flag of a year is 0 or 1, and the year has 365 days plus the
flag. -/
theorem leapFlag_spec (y : Int) :
    ((if daysInYear y = 366 then (1 : Int) else 0) = 0 ∨
      (if daysInYear y = 366 then (1 : Int) else 0) = 1) ∧
    daysInYear y = 365 + (if daysInYear y = 366 then (1 : Int) else 0) := by
  rcases daysInYear_cases y with h | h <;> simp [h]

/-- The days before each month, month by month. -/
theorem daysBeforeMonth_cases (m l : Int) (hm : 0 ≤ m ∧ m ≤ 11) :
    (m = 0 ∧ daysBeforeMonth m l = 0) ∨ (m = 1 ∧ daysBeforeMonth m l = 31) ∨
    (m = 2 ∧ daysBeforeMonth m l = 59 + l) ∨ (m = 3 ∧ daysBeforeMonth m l = 90 + l) ∨
    (m = 4 ∧ daysBeforeMonth m l = 120 + l) ∨ (m = 5 ∧ daysBeforeMonth m l = 151 + l) ∨
    (m = 6 ∧ daysBeforeMonth m l = 181 + l) ∨ (m = 7 ∧ daysBeforeMonth m l = 212 + l) ∨
    (m = 8 ∧ daysBeforeMonth m l = 243 + l) ∨ (m = 9 ∧ daysBeforeMonth m l = 273 + l) ∨
    (m = 10 ∧ daysBeforeMonth m l = 304 + l) ∨ (m = 11 ∧ daysBeforeMonth m l = 334 + l) := by
  obtain ⟨hm0, hm1⟩ := hm
  interval_cases m <;> simp [daysBeforeMonth]

/-- A day from 1 to 31 of a month from 0 to 11 lies within the year: counted
from the start of the year it stays below the length of the year. -/
theorem daysBeforeMonth_bounds (m l dt : Int) (hm : 0 ≤ m ∧ m ≤ 11) (hl : l = 0 ∨ l = 1)
    (hdt : 1 ≤ dt ∧ dt ≤ 31) :
    0 ≤ daysBeforeMonth m l + dt - 1 ∧ daysBeforeMonth m l + dt - 1 < 365 + l := by
  rcases daysBeforeMonth_cases m l hm with h | h | h | h | h | h | h | h | h | h | h | h <;>
    rw [h.2] <;> omega

/-- Reading a two-way choice whose test is settled. -/
theorem ite_int_eq (c : Prop) [Decidable c] (a b k : Int) (h1 : c → a = k) (h2 : ¬ c → b = k) :
    (if c then a else b) = k := by
  by_cases h : c
  · rw [if_pos h]
    exact h1 h
  · rw [if_neg h]
    exact h2 h

/-- The month table of `MonthFromTime`, read at a day of a month that has
that day. -/
theorem monthTable_spec (m l dt : Int) (hm : 0 ≤ m ∧ m ≤ 11) (hl : l = 0 ∨ l = 1)
    (hdt : 1 ≤ dt)
    (hdim : dt ≤ if m = 1 then 28 + l
      else if m = 3 ∨ m = 5 ∨ m = 8 ∨ m = 10 then 30 else 31) :
    (if daysBeforeMonth m l + dt - 1 < 31 then (0 : Int)
      else if daysBeforeMonth m l + dt - 1 < 59 + l then 1
      else if daysBeforeMonth m l + dt - 1 < 90 + l then 2
      else if daysBeforeMonth m l + dt - 1 < 120 + l then 3
      else if daysBeforeMonth m l + dt - 1 < 151 + l then 4
      else if daysBeforeMonth m l + dt - 1 < 181 + l then 5
      else if daysBeforeMonth m l + dt - 1 < 212 + l then 6
      else if daysBeforeMonth m l + dt - 1 < 243 + l then 7
      else if daysBeforeMonth m l + dt - 1 < 273 + l then 8
      else if daysBeforeMonth m l + dt - 1 < 304 + l then 9
      else if daysBeforeMonth m l + dt - 1 < 334 + l then 10
      else 11) = m := by
  have hd : dt ≤ 31 ∧ (m = 1 → dt ≤ 28 + l) ∧
      (m = 3 ∨ m = 5 ∨ m = 8 ∨ m = 10 → dt ≤ 30) := by
    by_cases h1 : m = 1
    · rw [if_pos h1] at hdim
      exact ⟨by omega, fun _ => hdim, fun h => by omega⟩
    · rw [if_neg h1] at hdim
      by_cases h2 : m = 3 ∨ m = 5 ∨ m = 8 ∨ m = 10
      · rw [if_pos h2] at hdim
        exact ⟨by omega, fun h => absurd h h1, fun _ => hdim⟩
      · rw [if_neg h2] at hdim
        exact ⟨hdim, fun h => absurd h h1, fun h => absurd h h2⟩
  obtain ⟨hd1, hd2, hd3⟩ := hd
  have hc := daysBeforeMonth_cases m l hm
  generalize daysBeforeMonth m l = b at hc ⊢
  clear hdim
  refine ite_int_eq _ _ _ _ (fun c => by omega) (fun c => ?_)
  refine ite_int_eq _ _ _ _ (fun c => by omega) (fun c => ?_)
  refine ite_int_eq _ _ _ _ (fun c => by omega) (fun c => ?_)
  refine ite_int_eq _ _ _ _ (fun c => by omega) (fun c => ?_)
  refine ite_int_eq _ _ _ _ (fun c => by omega) (fun c => ?_)
  refine ite_int_eq _ _ _ _ (fun c => by omega) (fun c => ?_)
  refine ite_int_eq _ _ _ _ (fun c => by omega) (fun c => ?_)
  refine ite_int_eq _ _ _ _ (fun c => by omega) (fun c => ?_)
  refine ite_int_eq _ _ _ _ (fun c => by omega) (fun c => ?_)
  refine ite_int_eq _ _ _ _ (fun c => by omega) (fun c => ?_)
  refine ite_int_eq _ _ _ _ (fun c => by omega) (fun c => ?_)
  omega

/-- The calendar fields of a time value made from a year, a month from 0 to 11
and a day of the month from 1 to 31: the year is the one given, and so are the
month and the day when the month has that day. -/
theorem dateFields_makeDate (y m dt tm : Int) (hm : 0 ≤ m ∧ m ≤ 11) (hdt : 1 ≤ dt ∧ dt ≤ 31)
    (htm : 0 ≤ tm ∧ tm < msPerDay) :
    yearFromTime (makeDate (makeDay y m dt) tm) = y ∧
    (dt ≤ daysInMonth y m →
      monthFromTime (makeDate (makeDay y m dt) tm) = m ∧
      dateFromTime (makeDate (makeDay y m dt) tm) = dt) := by
  obtain ⟨hl, hlen⟩ := leapFlag_spec y
  have hb := daysBeforeMonth_bounds m _ dt hm hl hdt
  have hy : yearFromTime (makeDate (makeDay y m dt) tm) = y := by
    rw [makeDay_eq y m dt hm]
    exact yearFromTime_makeDate y _ tm ⟨hb.1, by omega⟩ htm
  refine ⟨hy, ?_⟩
  intro hdim
  have hw : dayWithinYear (makeDate (makeDay y m dt) tm) =
      daysBeforeMonth m (if daysInYear y = 366 then 1 else 0) + dt - 1 := by
    unfold dayWithinYear
    rw [hy, day_makeDate _ _ htm, makeDay_eq y m dt hm]
    omega
  have hleap : inLeapYear (makeDate (makeDay y m dt) tm) =
      if daysInYear y = 366 then 1 else 0 := by
    unfold inLeapYear
    rw [hy]
  have hdim1 : dt ≤ if m = 1 then 28 + (if daysInYear y = 366 then (1 : Int) else 0)
      else if m = 3 ∨ m = 5 ∨ m = 8 ∨ m = 10 then 30 else 31 := by
    unfold daysInMonth at hdim
    rcases daysInYear_cases y with h | h <;> simpa [h] using hdim
  have hmonth : monthFromTime (makeDate (makeDay y m dt) tm) = m := by
    unfold monthFromTime
    simp only [hw, hleap]
    exact monthTable_spec m _ dt hm hl hdt.1 hdim1
  refine ⟨hmonth, ?_⟩
  unfold dateFromTime
  rw [hmonth, hw, hleap]
  omega

end DisplayUtils

namespace DisplayUtils

/-- A decimal digit character stands for a value from 0 to 9. -/
theorem digit_value_le (c : Char) (h : c.isDigit = true) : c.toNat - 48 ≤ 9 := by
  unfold Char.isDigit at h
  simp only [Bool.and_eq_true, decide_eq_true_eq] at h
  have h2 : c.val.toNat ≤ 57 := h.2
  unfold Char.toNat
  omega

/-- The year read from four digits is between 0 and 9999. -/
theorem parseInt10_year (d1 d2 d3 d4 : Char) (h1 : d1.isDigit = true) (h2 : d2.isDigit = true)
    (h3 : d3.isDigit = true) (h4 : d4.isDigit = true) :
    ∃ year : Int, parseInt10 (some [d1, d2, d3, d4]) = some year ∧ 0 ≤ year ∧ year ≤ 9999 := by
  refine ⟨_, rfl, Int.natCast_nonneg _, ?_⟩
  have := digit_value_le d1 h1
  have := digit_value_le d2 h2
  have := digit_value_le d3 h3
  have := digit_value_le d4 h4
  simp only [List.foldl_cons, List.foldl_nil]
  omega

/-- A value checked against a range lies in the range when the fallback
does. -/
theorem inRangeOr_bounds (x : Option Int) (low high fallback : Int)
    (h : low ≤ fallback ∧ fallback ≤ high) :
    low ≤ inRangeOr x low high fallback ∧ inRangeOr x low high fallback ≤ high := by
  unfold inRangeOr
  cases x with
  | none => exact h
  | some v =>
    simp only []
    by_cases hv : low ≤ v ∧ v ≤ high
    · rw [if_pos hv]
      exact hv
    · rw [if_neg hv]
      exact h

/-- The month passed to `Date.UTC` is the month given, counted from 0, when
it is in range, and 0 otherwise. -/
theorem month_eq_inRangeOr (x : Option Int) :
    (match x with
      | some m => if 1 ≤ m ∧ m ≤ 12 then m - 1 else 0
      | none => 0) = inRangeOr x 1 12 1 - 1 := by
  unfold inRangeOr
  cases x with
  | none => rfl
  | some v =>
    simp only []
    by_cases hv : 1 ≤ v ∧ v ≤ 12
    · rw [if_pos hv, if_pos hv]
    · rw [if_neg hv, if_neg hv]
      rfl

/-- The year `Date.UTC` works with, for a year of four digits. -/
theorem fullYear_bounds (year : Int) (h : 0 ≤ year ∧ year ≤ 9999) :
    100 ≤ fullYear year ∧ fullYear year ≤ 9999 := by
  unfold fullYear
  split_ifs <;> omega

/-- The time value of a date with a year of four digits and fields in range is
within the range of time values. -/
theorem timeClip_makeDate (y m dt h mi s : Int) (hy : 0 ≤ y ∧ y ≤ 9999) (hm : 0 ≤ m ∧ m ≤ 11)
    (hdt : 1 ≤ dt ∧ dt ≤ 31) (hh : -23 ≤ h ∧ h ≤ 46) (hmi : -59 ≤ mi ∧ mi ≤ 118)
    (hs : 0 ≤ s ∧ s ≤ 59) :
    timeClip (makeDate (makeDay y m dt) (makeTime h mi s 0)) =
      some (makeDate (makeDay y m dt) (makeTime h mi s 0)) := by
  obtain ⟨hl, _⟩ := leapFlag_spec y
  have hb := daysBeforeMonth_bounds m _ dt hm hl hdt
  have hday : -720000 ≤ makeDay y m dt ∧ makeDay y m dt ≤ 2940000 := by
    rw [makeDay_eq y m dt hm]
    have h0 : -719528 ≤ dayFromYear y ∧ dayFromYear y ≤ 2932532 := by
      unfold dayFromYear
      omega
    omega
  unfold timeClip
  rw [if_neg]
  unfold makeDate makeTime msPerDay
  omega

/-- The date `Date.UTC` gives for fields in range. -/
theorem dateUTC_eq (year m dt h mi s : Int) (hy : 0 ≤ year ∧ year ≤ 9999)
    (hm : 0 ≤ m ∧ m ≤ 11) (hdt : 1 ≤ dt ∧ dt ≤ 31) (hh : -23 ≤ h ∧ h ≤ 46)
    (hmi : -59 ≤ mi ∧ mi ≤ 118) (hs : 0 ≤ s ∧ s ≤ 59) :
    dateUTC year m dt h mi s =
      some (makeDate (makeDay (fullYear year) m dt) (makeTime h mi s 0)) := by
  have hf := fullYear_bounds year hy
  exact timeClip_makeDate (fullYear year) m dt h mi s ⟨by omega, hf.2⟩ hm hdt hh hmi hs

end DisplayUtils

namespace DisplayUtils

/-- The time value of the date built from the captures, once the year is
read: the call of `Date.UTC` at the end of `toDateObject`. -/
theorem dateOfMatches_time (captures : List (Option (List Char))) (year : Int)
    (hy : parseInt10 (captures.getD 0 none) = some year) :
    (dateOfMatches captures).time =
      dateUTC year (inRangeOr (parseInt10 (captures.getD 1 none)) 1 12 1 - 1)
        (inRangeOr (parseInt10 (captures.getD 2 none)) 1 31 1)
        (if (captures.getD 6 none).getD ['Z'] = ['-'] then
            inRangeOr (parseInt10 (captures.getD 3 none)) 0 23 0 +
              inRangeOr (parseInt10 (captures.getD 7 none)) 0 23 0
          else if (captures.getD 6 none).getD ['Z'] = ['+'] then
            inRangeOr (parseInt10 (captures.getD 3 none)) 0 23 0 -
              inRangeOr (parseInt10 (captures.getD 7 none)) 0 23 0
          else inRangeOr (parseInt10 (captures.getD 3 none)) 0 23 0)
        (if (captures.getD 6 none).getD ['Z'] = ['-'] then
            inRangeOr (parseInt10 (captures.getD 4 none)) 0 59 0 +
              inRangeOr (parseInt10 (captures.getD 8 none)) 0 59 0
          else if (captures.getD 6 none).getD ['Z'] = ['+'] then
            inRangeOr (parseInt10 (captures.getD 4 none)) 0 59 0 -
              inRangeOr (parseInt10 (captures.getD 8 none)) 0 59 0
          else inRangeOr (parseInt10 (captures.getD 4 none)) 0 59 0)
        (inRangeOr (parseInt10 (captures.getD 5 none)) 0 59 0) := by
  unfold dateOfMatches
  simp only [hy, month_eq_inRangeOr]

/-- The result of `toDateObject` for a string that the regular expression
matches. -/
theorem toDateObject_of_exec (s : String) (captures : List (Option (List Char)))
    (hexec : exec pdfDateStringRegex s.data = some captures) :
    toDateObject (DateInput.string s) = some (dateOfMatches captures) := by
  have hne : s ≠ "" := by
    intro h
    rw [h] at hexec
    cases hexec
  unfold toDateObject
  simp only [hne, if_false, hexec]

/-- C16: `PDFDateString.toDateObject` returns `null` exactly when the input is
not a (non-empty) string that begins with `D:` followed by four decimal
digits, and it returns a `Date` for every other input; the function is total,
so it never throws. -/
theorem toDateObject_null_iff (input : DateInput) :
    (toDateObject input = none ↔
      ¬ ∃ s d1 d2 d3 d4 rest, input = DateInput.string s ∧
        s.data = 'D' :: ':' :: d1 :: d2 :: d3 :: d4 :: rest ∧
        d1.isDigit = true ∧ d2.isDigit = true ∧ d3.isDigit = true ∧ d4.isDigit = true) ∧
    ((∃ date, toDateObject input = some date) ↔
      ∃ s d1 d2 d3 d4 rest, input = DateInput.string s ∧
        s.data = 'D' :: ':' :: d1 :: d2 :: d3 :: d4 :: rest ∧
        d1.isDigit = true ∧ d2.isDigit = true ∧ d3.isDigit = true ∧ d4.isDigit = true) := by
  have key : (∃ date, toDateObject input = some date) ↔
      ∃ s d1 d2 d3 d4 rest, input = DateInput.string s ∧
        s.data = 'D' :: ':' :: d1 :: d2 :: d3 :: d4 :: rest ∧
        d1.isDigit = true ∧ d2.isDigit = true ∧ d3.isDigit = true ∧ d4.isDigit = true := by
    constructor
    · rintro ⟨date, hdate⟩
      cases input with
      | other => cases hdate
      | string s =>
        cases hex : exec pdfDateStringRegex s.data with
        | none =>
          unfold toDateObject at hdate
          simp only [hex] at hdate
          split_ifs at hdate
        | some captures =>
          obtain ⟨d1, d2, d3, d4, rest, more, hin, h1, h2, h3, h4, _, _⟩ :=
            (exec_pdfDateStringRegex s.data).1 captures hex
          exact ⟨s, d1, d2, d3, d4, rest, rfl, hin, h1, h2, h3, h4⟩
    · rintro ⟨s, d1, d2, d3, d4, rest, hin, hdata, h1, h2, h3, h4⟩
      obtain ⟨more, _, hex⟩ := (exec_pdfDateStringRegex s.data).2 d1 d2 d3 d4 rest hdata h1 h2 h3 h4
      rw [hin]
      exact ⟨_, toDateObject_of_exec s _ hex⟩
  refine ⟨?_, key⟩
  rw [← key]
  cases toDateObject input with
  | none => simp
  | some d => simp

end DisplayUtils

namespace DisplayUtils

/-- C17 (counterexample): the string `D:20230231` is accepted and carries no
offset; its month 02 and day 31 are both in the ranges the code tests, yet the
returned `Date` has UTC month March (2, counted from 0) and UTC day 3, not
February 31.  The string `D:0050` gives UTC year 1950, not the year 50 that
is written. -/
theorem toDateObject_utc_fields_counterexample :
    (∃ date, toDateObject (DateInput.string "D:20230231") = some date ∧
      exec pdfDateStringRegex "D:20230231".data =
        some [some ['2', '0', '2', '3'], some ['0', '2'], some ['3', '1'], none, none, none,
          none, none, none] ∧
      date.getUTCFullYear = some 2023 ∧ date.getUTCMonth = some 2 ∧ date.getUTCDate = some 3 ∧
      ¬ (date.getUTCMonth = some (2 - 1) ∧ date.getUTCDate = some 31)) ∧
    (∃ date, toDateObject (DateInput.string "D:0050") = some date ∧
      parseInt10 (some ['0', '0', '5', '0']) = some 50 ∧
      date.getUTCFullYear = some 1950 ∧ date.getUTCFullYear ≠ some 50) := by
  refine ⟨⟨_, rfl, rfl, rfl, rfl, rfl, ?_⟩, ⟨_, rfl, rfl, rfl, ?_⟩⟩
  · decide
  · decide

end DisplayUtils

namespace DisplayUtils

/-- C17 (amended): for a date string accepted by `toDateObject` whose relation
to universal time is neither `-` nor `+`, the returned `Date` is the instant
`Date.UTC(year, month - 1, day, hour, minute, second)` where the year is the
one given and each other field is the value given when it is in range and its
default otherwise (month 1, day 1, hour 0, minute 0, second 0).  Its UTC hour,
minute and second are these values; its UTC year is the year that `Date.UTC`
works with, which is the year given when that is at least 100; its UTC month
and day are these values when the month of that year has the day. -/
theorem toDateObject_utc_fields (s : String) (captures : List (Option (List Char)))
    (hexec : exec pdfDateStringRegex s.data = some captures)
    (hrel : captures.getD 6 none ≠ some ['-'] ∧ captures.getD 6 none ≠ some ['+']) :
    ∃ (year : Int) (date : JSDate),
      parseInt10 (captures.getD 0 none) = some year ∧
      toDateObject (DateInput.string s) = some date ∧
      date.time = dateUTC year (inRangeOr (parseInt10 (captures.getD 1 none)) 1 12 1 - 1)
        (inRangeOr (parseInt10 (captures.getD 2 none)) 1 31 1)
        (inRangeOr (parseInt10 (captures.getD 3 none)) 0 23 0)
        (inRangeOr (parseInt10 (captures.getD 4 none)) 0 59 0)
        (inRangeOr (parseInt10 (captures.getD 5 none)) 0 59 0) ∧
      date.getUTCHours = some (inRangeOr (parseInt10 (captures.getD 3 none)) 0 23 0) ∧
      date.getUTCMinutes = some (inRangeOr (parseInt10 (captures.getD 4 none)) 0 59 0) ∧
      date.getUTCSeconds = some (inRangeOr (parseInt10 (captures.getD 5 none)) 0 59 0) ∧
      date.getUTCFullYear = some (fullYear year) ∧
      (100 ≤ year → date.getUTCFullYear = some year) ∧
      (inRangeOr (parseInt10 (captures.getD 2 none)) 1 31 1 ≤
          daysInMonth (fullYear year) (inRangeOr (parseInt10 (captures.getD 1 none)) 1 12 1 - 1) →
        date.getUTCMonth = some (inRangeOr (parseInt10 (captures.getD 1 none)) 1 12 1 - 1) ∧
        date.getUTCDate = some (inRangeOr (parseInt10 (captures.getD 2 none)) 1 31 1)) := by
  obtain ⟨d1, d2, d3, d4, rest, more, _, h1, h2, h3, h4, _, hcap⟩ :=
    (exec_pdfDateStringRegex s.data).1 captures hexec
  obtain ⟨year, hyear, hy0, hy1⟩ := parseInt10_year d1 d2 d3 d4 h1 h2 h3 h4
  have hy : parseInt10 (captures.getD 0 none) = some year := by
    rw [hcap]
    exact hyear
  have hr1 : ¬ (captures.getD 6 none).getD ['Z'] = ['-'] := by
    cases hc : captures.getD 6 none with
    | none => decide
    | some v =>
      intro h
      exact hrel.1 (by rw [hc]; exact congrArg some h)
  have hr2 : ¬ (captures.getD 6 none).getD ['Z'] = ['+'] := by
    cases hc : captures.getD 6 none with
    | none => decide
    | some v =>
      intro h
      exact hrel.2 (by rw [hc]; exact congrArg some h)
  have htime := dateOfMatches_time captures year hy
  rw [if_neg hr1, if_neg hr2, if_neg hr1, if_neg hr2] at htime
  have hmo := inRangeOr_bounds (parseInt10 (captures.getD 1 none)) 1 12 1 (by decide)
  have hda := inRangeOr_bounds (parseInt10 (captures.getD 2 none)) 1 31 1 (by decide)
  have hho := inRangeOr_bounds (parseInt10 (captures.getD 3 none)) 0 23 0 (by decide)
  have hmi := inRangeOr_bounds (parseInt10 (captures.getD 4 none)) 0 59 0 (by decide)
  have hse := inRangeOr_bounds (parseInt10 (captures.getD 5 none)) 0 59 0 (by decide)
  generalize inRangeOr (parseInt10 (captures.getD 1 none)) 1 12 1 = mo at hmo htime ⊢
  generalize inRangeOr (parseInt10 (captures.getD 2 none)) 1 31 1 = da at hda htime ⊢
  generalize inRangeOr (parseInt10 (captures.getD 3 none)) 0 23 0 = ho at hho htime ⊢
  generalize inRangeOr (parseInt10 (captures.getD 4 none)) 0 59 0 = mi at hmi htime ⊢
  generalize inRangeOr (parseInt10 (captures.getD 5 none)) 0 59 0 = se at hse htime ⊢
  have hm0 : 0 ≤ mo - 1 ∧ mo - 1 ≤ 11 := by omega
  have hutc := dateUTC_eq year (mo - 1) da ho mi se ⟨hy0, hy1⟩ hm0 hda ⟨by omega, by omega⟩
    ⟨by omega, by omega⟩ hse
  have htf := timeFields_makeDate (makeDay (fullYear year) (mo - 1) da) ho mi se hho hmi hse
  have hdf := dateFields_makeDate (fullYear year) (mo - 1) da (makeTime ho mi se 0) hm0 hda
    (makeTime_bounds ho mi se hho hmi hse)
  refine ⟨year, dateOfMatches captures, hy, toDateObject_of_exec s captures hexec, htime,
    ?_, ?_, ?_, ?_, ?_, ?_⟩
  · simp only [JSDate.getUTCHours, htime, hutc, Option.map_some', htf.1]
  · simp only [JSDate.getUTCMinutes, htime, hutc, Option.map_some', htf.2.1]
  · simp only [JSDate.getUTCSeconds, htime, hutc, Option.map_some', htf.2.2]
  · simp only [JSDate.getUTCFullYear, htime, hutc, Option.map_some', hdf.1]
  · intro h100
    have hfy : fullYear year = year := by
      unfold fullYear
      rw [if_neg (by omega)]
    simp only [JSDate.getUTCFullYear, htime, hutc, Option.map_some', hdf.1]
    rw [hfy]
  · intro hdim
    obtain ⟨hmonth, hdate⟩ := hdf.2 hdim
    exact ⟨by simp only [JSDate.getUTCMonth, htime, hutc, Option.map_some', hmonth],
      by simp only [JSDate.getUTCDate, htime, hutc, Option.map_some', hdate]⟩

end DisplayUtils

namespace DisplayUtils

/-- Witness for C17 (amended): the string `D:20090401163925`, whose captures
are the six fields and no relation; the returned `Date` is 1 April 2009,
16:39:25 in universal time. -/
theorem toDateObject_utc_fields_witness :
    exec pdfDateStringRegex "D:20090401163925".data = some date2009Captures ∧
    ∃ (year : Int) (date : JSDate),
      parseInt10 (date2009Captures.getD 0 none) = some year ∧
      toDateObject (DateInput.string "D:20090401163925") = some date ∧
      date.time = dateUTC year (inRangeOr (parseInt10 (date2009Captures.getD 1 none)) 1 12 1 - 1)
        (inRangeOr (parseInt10 (date2009Captures.getD 2 none)) 1 31 1)
        (inRangeOr (parseInt10 (date2009Captures.getD 3 none)) 0 23 0)
        (inRangeOr (parseInt10 (date2009Captures.getD 4 none)) 0 59 0)
        (inRangeOr (parseInt10 (date2009Captures.getD 5 none)) 0 59 0) ∧
      date.getUTCHours = some (inRangeOr (parseInt10 (date2009Captures.getD 3 none)) 0 23 0) ∧
      date.getUTCMinutes = some (inRangeOr (parseInt10 (date2009Captures.getD 4 none)) 0 59 0) ∧
      date.getUTCSeconds = some (inRangeOr (parseInt10 (date2009Captures.getD 5 none)) 0 59 0) ∧
      date.getUTCFullYear = some (fullYear year) ∧
      (100 ≤ year → date.getUTCFullYear = some year) ∧
      (inRangeOr (parseInt10 (date2009Captures.getD 2 none)) 1 31 1 ≤
          daysInMonth (fullYear year) (inRangeOr (parseInt10 (date2009Captures.getD 1 none)) 1 12 1 - 1) →
        date.getUTCMonth = some (inRangeOr (parseInt10 (date2009Captures.getD 1 none)) 1 12 1 - 1) ∧
        date.getUTCDate = some (inRangeOr (parseInt10 (date2009Captures.getD 2 none)) 1 31 1)) :=
  ⟨rfl, toDateObject_utc_fields "D:20090401163925" date2009Captures rfl ⟨by decide, by decide⟩⟩

end DisplayUtils

namespace DisplayUtils

/-- The character of a digit is a decimal digit character with that value. -/
theorem digitChar_spec (k : Nat) (h : k < 10) :
    (Nat.digitChar k).isDigit = true ∧ (Nat.digitChar k).toNat - 48 = k := by
  interval_cases k <;> exact ⟨rfl, rfl⟩

/-- Two digits written by `pad2` are read back by the regular expression. -/
theorem matchAtom_pad2 (n : Nat) (h : n < 100) (rest : List Char) :
    matchAtom (Atom.digits 2) (pad2 n ++ rest) = some (pad2 n, rest) := by
  have h1 := (digitChar_spec (n / 10) (by omega)).1
  have h2 := (digitChar_spec (n % 10) (by omega)).1
  exact (takeDigits_eq_some 2 _ _ _).mpr ⟨rfl, rfl, by simp [pad2, h1, h2]⟩

/-- Four digits written by `pad4` are read back by the regular expression. -/
theorem takeDigits_pad4 (n : Nat) (h : n < 10000) (rest : List Char) :
    takeDigits 4 (pad4 n ++ rest) = some (pad4 n, rest) := by
  have h1 := (digitChar_spec (n / 1000) (by omega)).1
  have h2 := (digitChar_spec (n / 100 % 10) (by omega)).1
  have h3 := (digitChar_spec (n / 10 % 10) (by omega)).1
  have h4 := (digitChar_spec (n % 10) (by omega)).1
  exact (takeDigits_eq_some 4 _ _ _).mpr ⟨rfl, rfl, by simp [pad4, h1, h2, h3, h4]⟩

/-- The number read from two digits written by `pad2`. -/
theorem parseInt10_pad2 (n : Nat) (h : n < 100) : parseInt10 (some (pad2 n)) = some (n : Int) := by
  have h1 := (digitChar_spec (n / 10) (by omega)).2
  have h2 := (digitChar_spec (n % 10) (by omega)).2
  unfold parseInt10 pad2
  simp only [List.foldl_cons, List.foldl_nil, h1, h2, Option.some.injEq, Nat.cast_inj]
  omega

/-- The number read from four digits written by `pad4`. -/
theorem parseInt10_pad4 (n : Nat) (h : n < 10000) :
    parseInt10 (some (pad4 n)) = some (n : Int) := by
  have h1 := (digitChar_spec (n / 1000) (by omega)).2
  have h2 := (digitChar_spec (n / 100 % 10) (by omega)).2
  have h3 := (digitChar_spec (n / 10 % 10) (by omega)).2
  have h4 := (digitChar_spec (n % 10) (by omega)).2
  unfold parseInt10 pad4
  simp only [List.foldl_cons, List.foldl_nil, h1, h2, h3, h4, Option.some.injEq, Nat.cast_inj]
  omega

/-- A value in its range passes the range test. -/
theorem inRangeOr_of_mem (v low high fallback : Int) (h : low ≤ v ∧ v ≤ high) :
    inRangeOr (some v) low high fallback = v := by
  unfold inRangeOr
  simp only []
  rw [if_pos h]

/-- A decimal digit is none of the characters of the relation class. -/
theorem matchAtom_relation_digit (c : Char) (rest : List Char) (h : c.isDigit = true) :
    matchAtom (Atom.oneOf ['Z', '|', '+', '|', '-']) (c :: rest) = none := by
  have hc : c ∉ ['Z', '|', '+', '|', '-'] := by
    intro hmem
    simp only [List.mem_cons, List.mem_singleton, List.not_mem_nil, or_false] at hmem
    rcases hmem with h1 | h1 | h1 | h1 | h1 <;> rw [h1] at h <;> exact absurd h (by decide)
  simp only [matchAtom]
  rw [if_neg hc]

/-- A character of the relation class is matched as the relation. -/
theorem matchAtom_relation (c : Char) (rest : List Char)
    (h : c ∈ ['Z', '|', '+', '|', '-']) :
    matchAtom (Atom.oneOf ['Z', '|', '+', '|', '-']) (c :: rest) = some ([c], rest) := by
  simp only [matchAtom]
  rw [if_pos h]

/-- The regular expression on the offset of a full date string: both offset
numbers are captured. -/
theorem exec_offset (offsetHour offsetMinute : Nat) (hoh : offsetHour < 100)
    (hom : offsetMinute < 100) :
    exec (pdfDateStringRegex.drop 9)
        (pad2 offsetHour ++ (apostrophe :: (pad2 offsetMinute ++ [apostrophe]))) =
      some [some (pad2 offsetHour), some (pad2 offsetMinute)] := by
  have e13 : exec (pdfDateStringRegex.drop 12) [apostrophe] = some [] := rfl
  have e12 : exec (pdfDateStringRegex.drop 11) (pad2 offsetMinute ++ [apostrophe]) =
      some [some (pad2 offsetMinute)] :=
    exec_cons_match _ _ _ _ _ _ (matchAtom_pad2 offsetMinute hom _) e13
  have e11 : exec (pdfDateStringRegex.drop 10)
      (apostrophe :: (pad2 offsetMinute ++ [apostrophe])) = some [some (pad2 offsetMinute)] :=
    exec_cons_match _ _ _ [apostrophe] _ _ (by simp [matchAtom]) e12
  exact exec_cons_match _ _ _ _ _ _ (matchAtom_pad2 offsetHour hoh _) e11

end DisplayUtils

namespace DisplayUtils

/-- The regular expression on the relation and the offset of a full date
string. -/
theorem exec_relation (relation : Option Char) (offsetHour offsetMinute : Nat)
    (hrel : relation = none ∨ relation = some 'Z' ∨ relation = some '+' ∨ relation = some '-')
    (hoh : offsetHour < 100) (hom : offsetMinute < 100) :
    exec (pdfDateStringRegex.drop 8)
        (relation.toList ++
          (pad2 offsetHour ++ (apostrophe :: (pad2 offsetMinute ++ [apostrophe])))) =
      some [relation.map (fun c => [c]), some (pad2 offsetHour), some (pad2 offsetMinute)] := by
  have e := exec_offset offsetHour offsetMinute hoh hom
  rcases hrel with h | h | h | h
  · subst h
    have hd := (digitChar_spec (offsetHour / 10) (by omega)).1
    have hskip := exec_cons_skip
      { atom := Atom.oneOf ['Z', '|', '+', '|', '-'], optional := true, capture := true }
      (pdfDateStringRegex.drop 9)
      (pad2 offsetHour ++ (apostrophe :: (pad2 offsetMinute ++ [apostrophe]))) rfl
      (matchAtom_relation_digit _ _ hd)
    rw [e] at hskip
    exact hskip
  · subst h
    exact exec_cons_match _ _ _ _ _ _ (matchAtom_relation 'Z' _ (by decide)) e
  · subst h
    exact exec_cons_match _ _ _ _ _ _ (matchAtom_relation '+' _ (by decide)) e
  · subst h
    exact exec_cons_match _ _ _ _ _ _ (matchAtom_relation '-' _ (by decide)) e

/-- The captures of the regular expression on a full date string: every field
as it is written. -/
theorem exec_pdfDateString (year month day hour minute second : Nat) (relation : Option Char)
    (offsetHour offsetMinute : Nat) (hyear : year < 10000) (hmonth : month < 100)
    (hday : day < 100) (hhour : hour < 100) (hminute : minute < 100) (hsecond : second < 100)
    (hrel : relation = none ∨ relation = some 'Z' ∨ relation = some '+' ∨ relation = some '-')
    (hoh : offsetHour < 100) (hom : offsetMinute < 100) :
    exec pdfDateStringRegex
        (pdfDateString year month day hour minute second relation offsetHour offsetMinute).data =
      some [some (pad4 year), some (pad2 month), some (pad2 day), some (pad2 hour),
        some (pad2 minute), some (pad2 second), relation.map (fun c => [c]),
        some (pad2 offsetHour), some (pad2 offsetMinute)] := by
  have e8 := exec_relation relation offsetHour offsetMinute hrel hoh hom
  have e7 : exec (pdfDateStringRegex.drop 7) (pad2 second ++ (relation.toList ++
      (pad2 offsetHour ++ (apostrophe :: (pad2 offsetMinute ++ [apostrophe]))))) = _ :=
    exec_cons_match _ _ _ _ _ _ (matchAtom_pad2 second hsecond _) e8
  have e6 : exec (pdfDateStringRegex.drop 6) (pad2 minute ++ (pad2 second ++ (relation.toList ++
      (pad2 offsetHour ++ (apostrophe :: (pad2 offsetMinute ++ [apostrophe])))))) = _ :=
    exec_cons_match _ _ _ _ _ _ (matchAtom_pad2 minute hminute _) e7
  have e5 : exec (pdfDateStringRegex.drop 5) (pad2 hour ++ (pad2 minute ++ (pad2 second ++
      (relation.toList ++
        (pad2 offsetHour ++ (apostrophe :: (pad2 offsetMinute ++ [apostrophe]))))))) = _ :=
    exec_cons_match _ _ _ _ _ _ (matchAtom_pad2 hour hhour _) e6
  have e4 : exec (pdfDateStringRegex.drop 4) (pad2 day ++ (pad2 hour ++ (pad2 minute ++
      (pad2 second ++ (relation.toList ++
        (pad2 offsetHour ++ (apostrophe :: (pad2 offsetMinute ++ [apostrophe])))))))) = _ :=
    exec_cons_match _ _ _ _ _ _ (matchAtom_pad2 day hday _) e5
  have e3 : exec optionalItems (pad2 month ++ (pad2 day ++ (pad2 hour ++ (pad2 minute ++
      (pad2 second ++ (relation.toList ++
        (pad2 offsetHour ++ (apostrophe :: (pad2 offsetMinute ++ [apostrophe]))))))))) = _ :=
    exec_cons_match _ _ _ _ _ _ (matchAtom_pad2 month hmonth _) e4
  have hin : (pdfDateString year month day hour minute second relation offsetHour
      offsetMinute).data = 'D' :: ':' :: (pad4 year ++ (pad2 month ++ (pad2 day ++ (pad2 hour ++
        (pad2 minute ++ (pad2 second ++ (relation.toList ++
          (pad2 offsetHour ++ (apostrophe :: (pad2 offsetMinute ++ [apostrophe]))))))))))  := by
    simp only [pdfDateString, List.append_assoc, List.cons_append, List.nil_append]
  rw [hin, exec_pdfDateStringRegex_eq]
  simp only [and_self, if_true, takeDigits_pad4 year hyear, e3, Option.map_some']
  rfl

end DisplayUtils

namespace DisplayUtils

/-- A field written with two digits and lying in its range is the value the
code works with. -/
theorem inRangeOr_pad2 (n : Nat) (low high fallback : Int) (h100 : n < 100)
    (h : low ≤ (n : Int) ∧ (n : Int) ≤ high) :
    inRangeOr (parseInt10 (some (pad2 n))) low high fallback = (n : Int) := by
  rw [parseInt10_pad2 n h100, inRangeOr_of_mem _ _ _ _ h]

/-- The instant of a full date string `D:YYYYMMDDHHmmSSOHH'mm'` with fields in
range, in terms of the numbers written: `Date.UTC(year, month - 1, day, hour -
HH, minute - mm, second)` for the relation `+`, `Date.UTC(year, month - 1,
day, hour + HH, minute + mm, second)` for the relation `-`, and
`Date.UTC(year, month - 1, day, hour, minute, second)` for the relation `Z`
and for no relation, whatever offset digits follow; in every case it is a
valid time value. -/
theorem toDateObject_pdfDateString (year month day hour minute second : Nat)
    (relation : Option Char) (offsetHour offsetMinute : Nat)
    (hyear : year ≤ 9999) (hmonth : 1 ≤ month ∧ month ≤ 12) (hday : 1 ≤ day ∧ day ≤ 31)
    (hhour : hour ≤ 23) (hminute : minute ≤ 59) (hsecond : second ≤ 59)
    (hrel : relation = none ∨ relation = some 'Z' ∨ relation = some '+' ∨ relation = some '-')
    (hoh : offsetHour ≤ 99) (hom : offsetMinute ≤ 99) :
    ∃ date,
      toDateObject (DateInput.string
        (pdfDateString year month day hour minute second relation offsetHour offsetMinute)) =
        some date ∧
      (relation = some '+' → offsetHour ≤ 23 → offsetMinute ≤ 59 →
        date.time = dateUTC year ((month : Int) - 1) day ((hour : Int) - offsetHour)
          ((minute : Int) - offsetMinute) second ∧ date.time ≠ none) ∧
      (relation = some '-' → offsetHour ≤ 23 → offsetMinute ≤ 59 →
        date.time = dateUTC year ((month : Int) - 1) day ((hour : Int) + offsetHour)
          ((minute : Int) + offsetMinute) second ∧ date.time ≠ none) ∧
      (relation = some 'Z' ∨ relation = none →
        date.time = dateUTC year ((month : Int) - 1) day hour minute second ∧
        date.time ≠ none) := by
  have hexec := exec_pdfDateString year month day hour minute second relation offsetHour
    offsetMinute (by omega) (by omega) (by omega) (by omega) (by omega) (by omega) hrel
    (by omega) (by omega)
  have hy : parseInt10 ((
      [some (pad4 year), some (pad2 month), some (pad2 day), some (pad2 hour),
        some (pad2 minute), some (pad2 second), relation.map (fun c => [c]),
        some (pad2 offsetHour), some (pad2 offsetMinute)] : List (Option (List Char))).getD 0
      none) = some (year : Int) := parseInt10_pad4 year (by omega)
  have htime := dateOfMatches_time _ _ hy
  have hmo : inRangeOr (parseInt10 (some (pad2 month))) 1 12 1 = (month : Int) :=
    inRangeOr_pad2 month 1 12 1 (by omega) (by omega)
  have hda : inRangeOr (parseInt10 (some (pad2 day))) 1 31 1 = (day : Int) :=
    inRangeOr_pad2 day 1 31 1 (by omega) (by omega)
  have hho : inRangeOr (parseInt10 (some (pad2 hour))) 0 23 0 = (hour : Int) :=
    inRangeOr_pad2 hour 0 23 0 (by omega) (by omega)
  have hmi : inRangeOr (parseInt10 (some (pad2 minute))) 0 59 0 = (minute : Int) :=
    inRangeOr_pad2 minute 0 59 0 (by omega) (by omega)
  have hse : inRangeOr (parseInt10 (some (pad2 second))) 0 59 0 = (second : Int) :=
    inRangeOr_pad2 second 0 59 0 (by omega) (by omega)
  simp only [List.getD_cons_succ, List.getD_cons_zero, hmo, hda, hho, hmi, hse] at htime
  have hvalid : ∀ h mi : Int, -23 ≤ h ∧ h ≤ 46 → -59 ≤ mi ∧ mi ≤ 118 →
      dateUTC year ((month : Int) - 1) day h mi second ≠ none := by
    intro h mi hh hmi1
    rw [dateUTC_eq year ((month : Int) - 1) day h mi second (by omega) (by omega) (by omega) hh
      hmi1 (by omega)]
    exact Option.some_ne_none _
  refine ⟨_, toDateObject_of_exec _ _ hexec, ?_, ?_, ?_⟩
  · intro hr h1 h2
    subst hr
    have hoh1 := inRangeOr_pad2 offsetHour 0 23 0 (by omega) (by omega)
    have hom1 := inRangeOr_pad2 offsetMinute 0 59 0 (by omega) (by omega)
    simp only [Option.map_some', Option.getD_some, hoh1, hom1,
      eq_false (by decide : ¬ (['+'] : List Char) = ['-']), if_true, if_false] at htime
    exact ⟨htime, fun h => hvalid _ _ (by omega) (by omega) (htime.symm.trans h)⟩
  · intro hr h1 h2
    subst hr
    have hoh1 := inRangeOr_pad2 offsetHour 0 23 0 (by omega) (by omega)
    have hom1 := inRangeOr_pad2 offsetMinute 0 59 0 (by omega) (by omega)
    simp only [Option.map_some', Option.getD_some, hoh1, hom1, if_true] at htime
    exact ⟨htime, fun h => hvalid _ _ (by omega) (by omega) (htime.symm.trans h)⟩
  · intro hr
    have hz : ¬ ((relation.map (fun c => [c])).getD ['Z'] = ['-']) ∧
        ¬ ((relation.map (fun c => [c])).getD ['Z'] = ['+']) := by
      rcases hr with hr | hr <;> subst hr <;> exact ⟨by decide, by decide⟩
    rw [if_neg hz.1, if_neg hz.2, if_neg hz.1, if_neg hz.2] at htime
    exact ⟨htime, fun h => hvalid _ _ (by omega) (by omega) (htime.symm.trans h)⟩

/-- C18: every date is normalised to universal time.  For every date string
that `toDateObject` accepts, with `year`, `month`, `day`, `hour`, `minute`,
`second` and the offsets `HH` and `mm` the numbers of its groups (a group that
is missing or out of range counts as its default), the result is the instant
`Date.UTC(year, month - 1, day, hour - HH, minute - mm, second)` when the
relation is `+`, `Date.UTC(year, month - 1, day, hour + HH, minute + mm,
second)` when the relation is `-`, and `Date.UTC(year, month - 1, day, hour,
minute, second)` otherwise (the relation `Z`, or none), whatever offset digits
follow; it is always a valid time value.  `Date.UTC` counts months from 0, so
the month written is passed less one. -/
theorem toDateObject_universal_time (s : String) (captures : List (Option (List Char)))
    (hexec : exec pdfDateStringRegex s.data = some captures) :
    ∃ (year : Int) (date : JSDate),
      parseInt10 (captures.getD 0 none) = some year ∧
      toDateObject (DateInput.string s) = some date ∧
      date.time ≠ none ∧
      (captures.getD 6 none = some ['+'] →
        date.time = dateUTC year (inRangeOr (parseInt10 (captures.getD 1 none)) 1 12 1 - 1)
          (inRangeOr (parseInt10 (captures.getD 2 none)) 1 31 1)
          (inRangeOr (parseInt10 (captures.getD 3 none)) 0 23 0 -
            inRangeOr (parseInt10 (captures.getD 7 none)) 0 23 0)
          (inRangeOr (parseInt10 (captures.getD 4 none)) 0 59 0 -
            inRangeOr (parseInt10 (captures.getD 8 none)) 0 59 0)
          (inRangeOr (parseInt10 (captures.getD 5 none)) 0 59 0)) ∧
      (captures.getD 6 none = some ['-'] →
        date.time = dateUTC year (inRangeOr (parseInt10 (captures.getD 1 none)) 1 12 1 - 1)
          (inRangeOr (parseInt10 (captures.getD 2 none)) 1 31 1)
          (inRangeOr (parseInt10 (captures.getD 3 none)) 0 23 0 +
            inRangeOr (parseInt10 (captures.getD 7 none)) 0 23 0)
          (inRangeOr (parseInt10 (captures.getD 4 none)) 0 59 0 +
            inRangeOr (parseInt10 (captures.getD 8 none)) 0 59 0)
          (inRangeOr (parseInt10 (captures.getD 5 none)) 0 59 0)) ∧
      (captures.getD 6 none ≠ some ['+'] → captures.getD 6 none ≠ some ['-'] →
        date.time = dateUTC year (inRangeOr (parseInt10 (captures.getD 1 none)) 1 12 1 - 1)
          (inRangeOr (parseInt10 (captures.getD 2 none)) 1 31 1)
          (inRangeOr (parseInt10 (captures.getD 3 none)) 0 23 0)
          (inRangeOr (parseInt10 (captures.getD 4 none)) 0 59 0)
          (inRangeOr (parseInt10 (captures.getD 5 none)) 0 59 0)) := by
  obtain ⟨d1, d2, d3, d4, rest, more, _, h1, h2, h3, h4, _, hcap⟩ :=
    (exec_pdfDateStringRegex s.data).1 captures hexec
  obtain ⟨year, hyear, hy0, hy1⟩ := parseInt10_year d1 d2 d3 d4 h1 h2 h3 h4
  have hy : parseInt10 (captures.getD 0 none) = some year := by
    rw [hcap]
    exact hyear
  have htime := dateOfMatches_time captures year hy
  have hmo := inRangeOr_bounds (parseInt10 (captures.getD 1 none)) 1 12 1 (by decide)
  have hda := inRangeOr_bounds (parseInt10 (captures.getD 2 none)) 1 31 1 (by decide)
  have hho := inRangeOr_bounds (parseInt10 (captures.getD 3 none)) 0 23 0 (by decide)
  have hmi := inRangeOr_bounds (parseInt10 (captures.getD 4 none)) 0 59 0 (by decide)
  have hse := inRangeOr_bounds (parseInt10 (captures.getD 5 none)) 0 59 0 (by decide)
  have hoh := inRangeOr_bounds (parseInt10 (captures.getD 7 none)) 0 23 0 (by decide)
  have hom := inRangeOr_bounds (parseInt10 (captures.getD 8 none)) 0 59 0 (by decide)
  generalize inRangeOr (parseInt10 (captures.getD 1 none)) 1 12 1 = mo at hmo htime ⊢
  generalize inRangeOr (parseInt10 (captures.getD 2 none)) 1 31 1 = da at hda htime ⊢
  generalize inRangeOr (parseInt10 (captures.getD 3 none)) 0 23 0 = ho at hho htime ⊢
  generalize inRangeOr (parseInt10 (captures.getD 4 none)) 0 59 0 = mi at hmi htime ⊢
  generalize inRangeOr (parseInt10 (captures.getD 5 none)) 0 59 0 = se at hse htime ⊢
  generalize inRangeOr (parseInt10 (captures.getD 7 none)) 0 23 0 = oh at hoh htime ⊢
  generalize inRangeOr (parseInt10 (captures.getD 8 none)) 0 59 0 = om at hom htime ⊢
  have hvalid : ∀ h m : Int, -23 ≤ h ∧ h ≤ 46 → -59 ≤ m ∧ m ≤ 118 →
      dateUTC year (mo - 1) da h m se ≠ none := by
    intro h m hh hm1
    rw [dateUTC_eq year (mo - 1) da h m se ⟨hy0, hy1⟩ (by omega) hda hh hm1 hse]
    exact Option.some_ne_none _
  refine ⟨year, dateOfMatches captures, hy, toDateObject_of_exec s captures hexec, ?_, ?_, ?_,
    ?_⟩
  · rw [htime]
    split_ifs
    · exact hvalid _ _ (by omega) (by omega)
    · exact hvalid _ _ (by omega) (by omega)
    · exact hvalid _ _ (by omega) (by omega)
  · intro hr
    rw [htime, hr]
    simp only [Option.getD_some, eq_false (by decide : ¬ (['+'] : List Char) = ['-']),
      if_true, if_false]
  · intro hr
    rw [htime, hr]
    simp only [Option.getD_some, if_true]
  · intro hp hm
    have hr1 : ¬ (captures.getD 6 none).getD ['Z'] = ['-'] := by
      cases hc : captures.getD 6 none with
      | none => decide
      | some v =>
        intro h
        exact hm (by rw [hc]; exact congrArg some h)
    have hr2 : ¬ (captures.getD 6 none).getD ['Z'] = ['+'] := by
      cases hc : captures.getD 6 none with
      | none => decide
      | some v =>
        intro h
        exact hp (by rw [hc]; exact congrArg some h)
    rw [htime, if_neg hr1, if_neg hr2, if_neg hr1, if_neg hr2]

/-- Witness for C18: four date strings of different forms.  The string
`D:20090401163925-07'00` (no trailing apostrophe) is the instant
`Date.UTC(2009, 3, 1, 16 + 7, 39 + 0, 25)`; `D:20090401163925+01'30'` is
`Date.UTC(2009, 3, 1, 16 - 1, 39 - 30, 25)`; `D:20090401163925Z` and
`D:20090401163925` are `Date.UTC(2009, 3, 1, 16, 39, 25)`. -/
theorem toDateObject_universal_time_witness :
    (∃ date, toDateObject (DateInput.string "D:20090401163925-07'00") = some date ∧
      date.time = dateUTC 2009 3 1 (16 + 7) (39 + 0) 25 ∧ date.time ≠ none) ∧
    (∃ date, toDateObject (DateInput.string "D:20090401163925+01'30'") = some date ∧
      date.time = dateUTC 2009 3 1 (16 - 1) (39 - 30) 25 ∧ date.time ≠ none) ∧
    (∃ date, toDateObject (DateInput.string "D:20090401163925Z") = some date ∧
      date.time = dateUTC 2009 3 1 16 39 25 ∧ date.time ≠ none) ∧
    (∃ date, toDateObject (DateInput.string "D:20090401163925") = some date ∧
      date.time = dateUTC 2009 3 1 16 39 25 ∧ date.time ≠ none) := by
  refine ⟨?_, ?_, ?_, ?_⟩
  · obtain ⟨year, date, hy, hd, hne, _, hminus, _⟩ :=
      toDateObject_universal_time "D:20090401163925-07'00"
        [some ['2', '0', '0', '9'], some ['0', '4'], some ['0', '1'], some ['1', '6'],
          some ['3', '9'], some ['2', '5'], some ['-'], some ['0', '7'], some ['0', '0']] rfl
    have hyear : (2009 : Int) = year := Option.some.inj hy
    subst hyear
    exact ⟨date, hd, hminus rfl, hne⟩
  · obtain ⟨year, date, hy, hd, hne, hplus, _, _⟩ :=
      toDateObject_universal_time "D:20090401163925+01'30'"
        [some ['2', '0', '0', '9'], some ['0', '4'], some ['0', '1'], some ['1', '6'],
          some ['3', '9'], some ['2', '5'], some ['+'], some ['0', '1'], some ['3', '0']] rfl
    have hyear : (2009 : Int) = year := Option.some.inj hy
    subst hyear
    exact ⟨date, hd, hplus rfl, hne⟩
  · obtain ⟨year, date, hy, hd, hne, _, _, hother⟩ :=
      toDateObject_universal_time "D:20090401163925Z"
        [some ['2', '0', '0', '9'], some ['0', '4'], some ['0', '1'], some ['1', '6'],
          some ['3', '9'], some ['2', '5'], some ['Z'], none, none] rfl
    have hyear : (2009 : Int) = year := Option.some.inj hy
    subst hyear
    exact ⟨date, hd, hother (by decide) (by decide), hne⟩
  · obtain ⟨year, date, hy, hd, hne, _, _, hother⟩ :=
      toDateObject_universal_time "D:20090401163925"
        [some ['2', '0', '0', '9'], some ['0', '4'], some ['0', '1'], some ['1', '6'],
          some ['3', '9'], some ['2', '5'], none, none, none] rfl
    have hyear : (2009 : Int) = year := Option.some.inj hy
    subst hyear
    exact ⟨date, hd, hother (by decide) (by decide), hne⟩

end DisplayUtils
